import Mathlib

/-!
The bus configuration parser (bus/config-parser.c).

A shallow embedding of the push-down state machine of `bus/config-parser.c`:
the element stack, the attribute locator, the start/end/content handlers,
the include merge and the end-of-stream check, and of the out-of-memory test
driver of `dbus/dbus-internals.c`, followed by theorems about them.

Conventions of the embedding.

* A C string (`const char *`, never NULL where the code dereferences it) is a
  `String`; `strcmp (a, b) == 0` is `a = b`.  A nullable string is an
  `Option String`.
* The parallel NULL-terminated arrays `attribute_names` / `attribute_values`
  are one `List (String × String)`.
* `DBusList *stack` is a `List Element` whose last entry is the top of the
  stack (`_dbus_list_append` / `_dbus_list_get_last` / `_dbus_list_pop_last`).
* A call that returns `dbus_bool_t` and fills a `DBusError` is an `Outcome`:
  `success` for TRUE, `failure` for FALSE with the error that was set, and
  `aborted` when a `_dbus_assert` fails or `_dbus_assert_not_reached` is hit.
  The parser is passed in and returned explicitly, also on failure, because
  the C code may have written to it before failing.
* Every step that allocates asks an allocation oracle whether it succeeds.
* A C `int` is an `Int`; where the arithmetic of the code can leave the 32-bit
  range the result is reduced modulo `2 ^ 32` by `wrap_int`.
-/

namespace BusConfig

/-- The enum `ElementType`. -/
inductive ElementType where
  | ELEMENT_NONE
  | ELEMENT_BUSCONFIG
  | ELEMENT_INCLUDE
  | ELEMENT_USER
  | ELEMENT_LISTEN
  | ELEMENT_AUTH
  | ELEMENT_POLICY
  | ELEMENT_LIMIT
  | ELEMENT_ALLOW
  | ELEMENT_DENY
  deriving DecidableEq, Repr

open ElementType

/-- The struct `Element`.  Of the union `d` only `d.include.ignore_missing` is
ever read or written by the code, so it is the only member kept; `dbus_new0`
zero-fills the frame, which makes both bits false at creation. -/
structure Element where
  type : ElementType
  had_content : Bool
  ignore_missing : Bool
  deriving DecidableEq, Repr

/-- The struct `BusConfigParser`. -/
structure BusConfigParser where
  refcount : Int
  stack : List Element
  user : Option String
  listen_on : List String
  deriving DecidableEq, Repr

/-- The error names used by the code (`DBUS_ERROR_FAILED`, `DBUS_ERROR_NO_MEMORY`,
`DBUS_ERROR_FILE_NOT_FOUND`); the macros are declared outside the sources, so
they are kept abstract and pairwise different, with `OTHER` for any further
name a nested load may report. -/
inductive DBusErrorName where
  | DBUS_ERROR_FAILED
  | DBUS_ERROR_NO_MEMORY
  | DBUS_ERROR_FILE_NOT_FOUND
  | OTHER (name : String)
  deriving DecidableEq, Repr

open DBusErrorName

/-- A set `DBusError`: the name and the formatted message handed to
`dbus_set_error` (`none` when the format argument is NULL). -/
structure DBusError where
  name : DBusErrorName
  message : Option String
  deriving DecidableEq, Repr

/-- The result of a call that returns `dbus_bool_t` and may set an error. -/
inductive Outcome (σ : Type) where
  | success (s : σ)
  | failure (e : DBusError) (s : σ)
  | aborted (msg : String)
  deriving DecidableEq, Repr

/-- Allocation oracle of one call: `a k` tells whether the `k`-th allocating
step of the call (counted from 0) succeeds. -/
abbrev Alloc := Nat → Bool

/-- The oracle under which every allocation succeeds. -/
def alloc_ok : Alloc := fun _ => true

/-- `dbus_set_error (error, DBUS_ERROR_FAILED, fmt, ...)` with the message already formatted. -/
def failed (msg : String) : DBusError :=
  { name := DBUS_ERROR_FAILED, message := some msg }

/-- `dbus_set_error (error, DBUS_ERROR_NO_MEMORY, NULL)`. -/
def no_memory : DBusError :=
  { name := DBUS_ERROR_NO_MEMORY, message := none }

/-- `element_type_to_name`: NULL (`none`) for `ELEMENT_NONE`. -/
def element_type_to_name : ElementType → Option String
  | ELEMENT_NONE => none
  | ELEMENT_BUSCONFIG => some "busconfig"
  | ELEMENT_INCLUDE => some "include"
  | ELEMENT_USER => some "user"
  | ELEMENT_LISTEN => some "listen"
  | ELEMENT_AUTH => some "auth"
  | ELEMENT_POLICY => some "policy"
  | ELEMENT_LIMIT => some "limit"
  | ELEMENT_ALLOW => some "allow"
  | ELEMENT_DENY => some "deny"

/-- The three ways `push_element` can end: the frame is on the stack, NULL was
returned, or the assertion `type != ELEMENT_NONE` failed. -/
inductive PushResult where
  | pushed (parser : BusConfigParser)
  | null
  | assert_failed
  deriving DecidableEq, Repr

/-- `push_element`: allocates a zero-filled frame (allocation 0), appends it to
the stack (allocation 1, the list link) and sets its type. -/
def push_element (a : Alloc) (parser : BusConfigParser) (type : ElementType) : PushResult :=
  if type = ELEMENT_NONE then PushResult.assert_failed
  else if a 0 = false then PushResult.null
  else if a 1 = false then PushResult.null
  else PushResult.pushed
    { parser with
      stack := parser.stack ++ [{ type := type, had_content := false, ignore_missing := false }] }

/-- `pop_element`: removes the last frame (nothing happens on an empty stack). -/
def pop_element (parser : BusConfigParser) : BusConfigParser :=
  { parser with stack := parser.stack.dropLast }

/-- `peek_element`: the last frame, NULL (`none`) on an empty stack. -/
def peek_element (parser : BusConfigParser) : Option Element :=
  parser.stack.getLast?

/-- `top_element_type`. -/
def top_element_type (parser : BusConfigParser) : ElementType :=
  match parser.stack.getLast? with
  | some e => e.type
  | none => ELEMENT_NONE

/-- A write through the pointer returned by `peek_element` / `push_element`:
applies `f` to the last frame of the stack. -/
def update_top (f : Element → Element) : List Element → List Element
  | [] => []
  | [e] => [f e]
  | e :: e2 :: rest => e :: update_top f (e2 :: rest)

/-- The loop `while ((link = _dbus_list_pop_first_link (&included->listen_on)))
_dbus_list_append_link (&parser->listen_on, link);` on the pair
(parser list, included list). -/
def move_links : List String → List String → List String × List String
  | dst, [] => (dst, [])
  | dst, link :: rest => move_links (dst ++ [link]) rest

/-- `merge_included`: returns the parser and the included parser after the merge. -/
def merge_included (parser included : BusConfigParser) :
    Outcome (BusConfigParser × BusConfigParser) :=
  let parser1 : BusConfigParser :=
    match included.user with
    | some u => { parser with user := some u }
    | none => parser
  let included1 : BusConfigParser :=
    match included.user with
    | some _ => { included with user := none }
    | none => included
  let moved := move_links parser1.listen_on included1.listen_on
  Outcome.success
    ({ parser1 with listen_on := moved.1 }, { included1 with listen_on := moved.2 })

/-- `bus_config_parser_new`: NULL (`none`) when the allocation fails. -/
def bus_config_parser_new (a : Alloc) : Option BusConfigParser :=
  if a 0 = false then none
  else some { refcount := 1, stack := [], user := none, listen_on := [] }

/-- The message of the wrong-doctype error. -/
def msg_wrong_doctype (doctype : String) : String :=
  "Configuration file has the wrong document type " ++ doctype

/-- `bus_config_parser_check_doctype`: the parser is only passed through. -/
def bus_config_parser_check_doctype (parser : BusConfigParser) (doctype : String) :
    Outcome BusConfigParser :=
  if doctype ≠ "busconfig" then
    Outcome.failure (failed (msg_wrong_doctype doctype)) parser
  else Outcome.success parser

/-- One entry of the table `LocateAttr attrs[MAX_ATTRS]`: the expected name and
the current content of the location `retloc` points to. -/
structure LocateAttr where
  name : String
  retloc : Option String
  deriving DecidableEq, Repr

/-- The constant `MAX_ATTRS`. -/
def MAX_ATTRS : Nat := 24

/-- The `va_arg` loop of `locate_attributes`: enters every further expected name
into the table with a cleared slot; `none` when `_dbus_assert (n_attrs <
MAX_ATTRS)` fails (`n_attrs` is the length of the table so far). -/
def collect_attrs : List String → List LocateAttr → Option (List LocateAttr)
  | [], attrs => some attrs
  | name :: rest, attrs =>
    if attrs.length < MAX_ATTRS then
      collect_attrs rest (attrs ++ [{ name := name, retloc := none }])
    else none

/-- The inner loop `while (j < n_attrs)` for one present attribute, started at
the given rest of the table with the given `found` flag.  `Except.error n` is
the exit through the repeated-attribute branch, `n` being `attrs[j].name`;
otherwise the final `found` flag and the updated rest of the table. -/
def scan_attrs (attr_name attr_value : String) :
    List LocateAttr → Bool → Except String (Bool × List LocateAttr)
  | [], found => Except.ok (found, [])
  | a :: rest, found =>
    if a.name = attr_name then
      match a.retloc with
      | some _ => Except.error a.name
      | none =>
        match scan_attrs attr_name attr_value rest true with
        | Except.error n => Except.error n
        | Except.ok (f, rest1) => Except.ok (f, { a with retloc := some attr_value } :: rest1)
    else
      match scan_attrs attr_name attr_value rest found with
      | Except.error n => Except.error n
      | Except.ok (f, rest1) => Except.ok (f, a :: rest1)

/-- The message of the repeated-attribute error. -/
def msg_repeated (attr element_name : String) : String :=
  "Attribute \"" ++ attr ++ "\" repeated twice on the same <" ++ element_name ++ "> element"

/-- The message of the invalid-attribute error. -/
def msg_invalid (attr element_name : String) : String :=
  "Attribute \"" ++ attr ++ "\" is invalid on <" ++ element_name ++ "> element in this context"

/-- The result of `locate_attributes`: on success the contents of the return
locations, in the order of the expected names.  On failure the return
locations are dead (every caller returns FALSE at once), so only the error is kept. -/
inductive LocateResult where
  | success (retlocs : List (Option String))
  | failure (e : DBusError)
  | aborted (msg : String)
  deriving DecidableEq, Repr

/-- The outer loop `while (attribute_names[i])` of `locate_attributes`. -/
def locate_loop (element_name : String) :
    List (String × String) → List LocateAttr → LocateResult
  | [], attrs => LocateResult.success (attrs.map LocateAttr.retloc)
  | (n, v) :: rest, attrs =>
    match scan_attrs n v attrs false with
    | Except.error dup => LocateResult.failure (failed (msg_repeated dup element_name))
    | Except.ok (found, attrs1) =>
      if found then locate_loop element_name rest attrs1
      else LocateResult.failure (failed (msg_invalid n element_name))

/-- `locate_attributes`: `first_attribute_name` and the further expected names
`more_names` (the variable arguments up to the closing NULL) are entered into
the table, then every present attribute is bound to its slot. -/
def locate_attributes (element_name : String) (attributes : List (String × String))
    (first_attribute_name : String) (more_names : List String) : LocateResult :=
  match collect_attrs more_names [{ name := first_attribute_name, retloc := none }] with
  | none => LocateResult.aborted "n_attrs < MAX_ATTRS"
  | some attrs => locate_loop element_name attributes attrs

/-- `check_no_attributes`: `none` for TRUE, otherwise the error that is set. -/
def check_no_attributes (element_name : String) (attributes : List (String × String)) :
    Option DBusError :=
  match attributes with
  | (n, _) :: _ => some (failed (msg_invalid n element_name))
  | [] => none

/-- The text printed for a `%s` argument: a NULL argument is shown as "(null)"
(it arises only for a frame of type `ELEMENT_NONE`, which `push_element` never creates). -/
def fmt_s : Option String → String
  | some s => s
  | none => "(null)"

/-- The frame written by `e->d.include.ignore_missing = b`. -/
def set_ignore_missing (b : Bool) (e : Element) : Element :=
  { e with ignore_missing := b }

/-- The frame written by `e->had_content = TRUE`. -/
def set_had_content (e : Element) : Element :=
  { e with had_content := true }

/-- The message of the disallowed-child error of `start_busconfig_child` and `start_policy_child`. -/
def msg_not_allowed_inside (element_name context : String) : String :=
  "Element <" ++ element_name ++ "> not allowed inside <" ++ context ++ "> in configuration file"

/-- The message of the unknown-root error. -/
def msg_unknown_root (element_name : String) : String :=
  "Unknown element <" ++ element_name ++ "> at root of configuration file"

/-- The message of the last branch of `bus_config_parser_start_element`. -/
def msg_not_allowed_here (element_name : String) : String :=
  "Element <" ++ element_name ++ "> is not allowed in this context"

/-- The message of the invalid `ignore_missing` value error. -/
def msg_ignore_missing : String :=
  "ignore_missing attribute must have value \"yes\" or \"no\""

/-- `start_busconfig_child`. -/
def start_busconfig_child (a : Alloc) (parser : BusConfigParser) (element_name : String)
    (attributes : List (String × String)) : Outcome BusConfigParser :=
  if element_name = "user" then
    match check_no_attributes "user" attributes with
    | some err => Outcome.failure err parser
    | none =>
      match push_element a parser ELEMENT_USER with
      | PushResult.assert_failed => Outcome.aborted "type != ELEMENT_NONE"
      | PushResult.null => Outcome.failure no_memory parser
      | PushResult.pushed p => Outcome.success p
  else if element_name = "listen" then
    match check_no_attributes "listen" attributes with
    | some err => Outcome.failure err parser
    | none =>
      match push_element a parser ELEMENT_LISTEN with
      | PushResult.assert_failed => Outcome.aborted "type != ELEMENT_NONE"
      | PushResult.null => Outcome.failure no_memory parser
      | PushResult.pushed p => Outcome.success p
  else if element_name = "include" then
    match push_element a parser ELEMENT_INCLUDE with
    | PushResult.assert_failed => Outcome.aborted "type != ELEMENT_NONE"
    | PushResult.null => Outcome.failure no_memory parser
    | PushResult.pushed p =>
      let p1 : BusConfigParser := { p with stack := update_top (set_ignore_missing false) p.stack }
      match locate_attributes "include" attributes "ignore_missing" [] with
      | LocateResult.aborted msg => Outcome.aborted msg
      | LocateResult.failure err => Outcome.failure err p1
      | LocateResult.success retlocs =>
        match retlocs.getD 0 none with
        | none => Outcome.success p1
        | some ignore_missing =>
          if ignore_missing = "yes" then
            Outcome.success { p1 with stack := update_top (set_ignore_missing true) p1.stack }
          else if ignore_missing = "no" then
            Outcome.success { p1 with stack := update_top (set_ignore_missing false) p1.stack }
          else Outcome.failure (failed msg_ignore_missing) p1
  else if element_name = "policy" then
    match push_element a parser ELEMENT_POLICY with
    | PushResult.assert_failed => Outcome.aborted "type != ELEMENT_NONE"
    | PushResult.null => Outcome.failure no_memory parser
    | PushResult.pushed p =>
      match locate_attributes "include" attributes "context" ["user", "group"] with
      | LocateResult.aborted msg => Outcome.aborted msg
      | LocateResult.failure err => Outcome.failure err p
      | LocateResult.success _ => Outcome.success p
  else
    Outcome.failure (failed (msg_not_allowed_inside element_name "busconfig")) parser

/-- `start_policy_child`: the attributes are not looked at. -/
def start_policy_child (a : Alloc) (parser : BusConfigParser) (element_name : String)
    (_attributes : List (String × String)) : Outcome BusConfigParser :=
  if element_name = "allow" then
    match push_element a parser ELEMENT_ALLOW with
    | PushResult.assert_failed => Outcome.aborted "type != ELEMENT_NONE"
    | PushResult.null => Outcome.failure no_memory parser
    | PushResult.pushed p => Outcome.success p
  else if element_name = "deny" then
    match push_element a parser ELEMENT_DENY with
    | PushResult.assert_failed => Outcome.aborted "type != ELEMENT_NONE"
    | PushResult.null => Outcome.failure no_memory parser
    | PushResult.pushed p => Outcome.success p
  else
    Outcome.failure (failed (msg_not_allowed_inside element_name "policy")) parser

/-- `bus_config_parser_start_element`. -/
def bus_config_parser_start_element (a : Alloc) (parser : BusConfigParser)
    (element_name : String) (attributes : List (String × String)) : Outcome BusConfigParser :=
  let t := top_element_type parser
  if t = ELEMENT_NONE then
    if element_name = "busconfig" then
      match check_no_attributes "busconfig" attributes with
      | some err => Outcome.failure err parser
      | none =>
        match push_element a parser ELEMENT_BUSCONFIG with
        | PushResult.assert_failed => Outcome.aborted "type != ELEMENT_NONE"
        | PushResult.null => Outcome.failure no_memory parser
        | PushResult.pushed p => Outcome.success p
    else Outcome.failure (failed (msg_unknown_root element_name)) parser
  else if t = ELEMENT_BUSCONFIG then
    start_busconfig_child a parser element_name attributes
  else if t = ELEMENT_POLICY then
    start_policy_child a parser element_name attributes
  else Outcome.failure (failed (msg_not_allowed_here element_name)) parser

/-- The message of the missing-content error of `bus_config_parser_end_element`. -/
def msg_expected_content (element_name : String) : String :=
  "XML element <" ++ element_name ++ "> was expected to have content inside it"

/-- `bus_config_parser_end_element`. -/
def bus_config_parser_end_element (parser : BusConfigParser) (element_name : String) :
    Outcome BusConfigParser :=
  let t := top_element_type parser
  if t = ELEMENT_NONE then
    Outcome.failure (failed "XML parser ended element with no element on the stack") parser
  else
    match element_type_to_name t with
    | none => Outcome.aborted "n != NULL"
    | some n =>
      if n ≠ element_name then
        Outcome.failure
          (failed "XML element ended which was not the topmost element on the stack") parser
      else
        match peek_element parser with
        | none => Outcome.aborted "e != NULL"
        | some e =>
          match e.type with
          | ELEMENT_NONE => Outcome.aborted "element in stack has no type"
          | ELEMENT_INCLUDE | ELEMENT_USER | ELEMENT_LISTEN | ELEMENT_AUTH =>
            if e.had_content = false then
              Outcome.failure
                (failed (msg_expected_content (fmt_s (element_type_to_name e.type)))) parser
            else Outcome.success (pop_element parser)
          | ELEMENT_BUSCONFIG | ELEMENT_POLICY | ELEMENT_LIMIT | ELEMENT_ALLOW | ELEMENT_DENY =>
            Outcome.success (pop_element parser)

/-- Modelled from the spec: the whitespace test of `_dbus_string_skip_white`
(dbus/dbus-string.c, which is not among the sources): text that is "entirely
whitespace" consists of spaces, tabs, line feeds and carriage returns. -/
def is_white (c : Char) : Bool :=
  c = Char.ofNat 32 || c = Char.ofNat 9 || c = Char.ofNat 10 || c = Char.ofNat 13

/-- The scan of `_dbus_string_skip_white` over the characters that remain, `i`
being the index of the first of them. -/
def skip_white_from : List Char → Nat → Nat
  | [], i => i
  | c :: cs, i => if is_white c then skip_white_from cs (i + 1) else i

/-- Modelled from the spec: `_dbus_string_skip_white (str, start, &end)` (dbus/dbus-string.c,
which is not among the sources) gives the index of the first character at or
after `start` that is not whitespace, the length if there is none. -/
def _dbus_string_skip_white (str : String) (start : Nat) : Nat :=
  skip_white_from (str.data.drop start) start

/-- `_dbus_string_get_length`. -/
def _dbus_string_get_length (str : String) : Nat :=
  str.data.length

/-- `all_whitespace`. -/
def all_whitespace (str : String) : Bool :=
  _dbus_string_skip_white str 0 = _dbus_string_get_length str

/-- The message of the unexpected-text error of `bus_config_parser_content`. -/
def msg_no_text (element_name : String) : String :=
  "No text content expected inside XML element " ++ element_name ++ " in configuration file"

/-- `bus_config_parser_content`.  `bus_config_load` is the loader of the nested
document (defined by the XML back end, outside the sources): it returns the
included parser or the error it set.  `_dbus_string_copy_data` is allocation 0
and `_dbus_list_append` allocation 1 of the call.  `marked` is the parser after
`e->had_content = TRUE`, which the Include, User, Listen and Auth cases execute
first.  After a successful merge the included parser is released
(`bus_config_parser_unref`) and plays no further part. -/
def bus_config_parser_content (bus_config_load : String → Except DBusError BusConfigParser)
    (a : Alloc) (parser : BusConfigParser) (content : String) : Outcome BusConfigParser :=
  match peek_element parser with
  | none =>
    Outcome.failure
      (failed "Text content outside of any XML element in configuration file") parser
  | some e =>
    if e.had_content then Outcome.aborted "Element had multiple content blocks"
    else
      let marked : BusConfigParser := { parser with stack := update_top set_had_content parser.stack }
      match top_element_type parser with
      | ELEMENT_NONE => Outcome.aborted "element at top of stack has no type"
      | ELEMENT_BUSCONFIG | ELEMENT_POLICY | ELEMENT_LIMIT | ELEMENT_ALLOW | ELEMENT_DENY =>
        if all_whitespace content then Outcome.success parser
        else
          Outcome.failure
            (failed (msg_no_text (fmt_s (element_type_to_name (top_element_type parser))))) parser
      | ELEMENT_INCLUDE =>
        match bus_config_load content with
        | Except.error tmp_error =>
          if tmp_error.name = DBUS_ERROR_FILE_NOT_FOUND ∧ e.ignore_missing = true then
            Outcome.success marked
          else Outcome.failure tmp_error marked
        | Except.ok included =>
          match merge_included marked included with
          | Outcome.success (p, _) => Outcome.success p
          | Outcome.failure err (p, _) => Outcome.failure err p
          | Outcome.aborted msg => Outcome.aborted msg
      | ELEMENT_USER =>
        if a 0 = false then Outcome.failure no_memory marked
        else Outcome.success { marked with user := some content }
      | ELEMENT_LISTEN =>
        if a 0 = false then Outcome.failure no_memory marked
        else if a 1 = false then Outcome.failure no_memory marked
        else Outcome.success { marked with listen_on := marked.listen_on ++ [content] }
      | ELEMENT_AUTH => Outcome.success marked

/-- `bus_config_parser_finished`. -/
def bus_config_parser_finished (parser : BusConfigParser) : Outcome BusConfigParser :=
  if parser.stack ≠ [] then
    Outcome.failure
      (failed ("Element <" ++ fmt_s (element_type_to_name (top_element_type parser)) ++
        "> was not closed in configuration file")) parser
  else Outcome.success parser

/-- `bus_config_parser_get_user`. -/
def bus_config_parser_get_user (parser : BusConfigParser) : Option String :=
  parser.user

/-- One call of the tokenizer into the parser. -/
inductive Event where
  | start_element (element_name : String) (attributes : List (String × String))
  | content (text : String)
  | end_element (element_name : String)
  deriving DecidableEq, Repr

/-- The parser call an event stands for. -/
def apply_event (bus_config_load : String → Except DBusError BusConfigParser) (a : Alloc)
    (parser : BusConfigParser) : Event → Outcome BusConfigParser
  | Event.start_element n attrs => bus_config_parser_start_element a parser n attrs
  | Event.content text => bus_config_parser_content bus_config_load a parser text
  | Event.end_element n => bus_config_parser_end_element parser n

/-- Drives the parser through the events in order and stops at the first call
that does not return TRUE, whose outcome is the result; `success` therefore
means that every call succeeded. -/
def run_events (bus_config_load : String → Except DBusError BusConfigParser) (a : Alloc) :
    BusConfigParser → List Event → Outcome BusConfigParser
  | parser, [] => Outcome.success parser
  | parser, ev :: rest =>
    match apply_event bus_config_load a parser ev with
    | Outcome.success p => run_events bus_config_load a p rest
    | other => other

/-! ## Notions used to state the properties -/

/-- The text `s` occurs in the text `m` as a contiguous piece. -/
def names_text (m s : String) : Prop :=
  s.data <:+: m.data

instance names_text_decidable (m s : String) : Decidable (names_text m s) := by
  unfold names_text
  infer_instance

/-- The error carries a message that names `s`. -/
def names (e : DBusError) (s : String) : Prop :=
  match e.message with
  | some m => names_text m s
  | none => False

instance names_decidable (e : DBusError) (s : String) : Decidable (names e s) := by
  unfold names
  cases e.message <;> infer_instance

/-- The table of permitted transitions as the specification gives it: the child
elements allowed under the type at the top of the stack (`ELEMENT_NONE` when
no element is open). -/
def spec_allowed_children : ElementType → List String
  | ELEMENT_NONE => ["busconfig"]
  | ELEMENT_BUSCONFIG => ["user", "listen", "include", "policy"]
  | ELEMENT_POLICY => ["allow", "deny"]
  | _ => []

/-- The message `bus_config_parser_start_element` gives for a child that is not
allowed under the type at the top of the stack. -/
def rejection_message (t : ElementType) (element_name : String) : String :=
  match t with
  | ELEMENT_NONE => msg_unknown_root element_name
  | ELEMENT_BUSCONFIG => msg_not_allowed_inside element_name "busconfig"
  | ELEMENT_POLICY => msg_not_allowed_inside element_name "policy"
  | _ => msg_not_allowed_here element_name

/-- The attribute list of `<include>` as the specification accepts it: empty, or
the one attribute `ignore_missing` with the value yes or no. -/
def spec_include_attributes (attributes : List (String × String)) : Prop :=
  attributes = [] ∨ attributes = [("ignore_missing", "yes")] ∨
    attributes = [("ignore_missing", "no")]

/-- The attribute list of `<policy>` as the specification accepts it: pairwise
different names drawn from context, user, group. -/
def spec_policy_attributes (attributes : List (String × String)) : Prop :=
  (attributes.map Prod.fst).Nodup ∧
    ∀ n ∈ attributes.map Prod.fst, n ∈ ["context", "user", "group"]

/-- The accepted start-element calls of the specification's table: in the state
`parser`, the element `element_name` with `attributes` is accepted and opens a
frame of type `type`. -/
def spec_accepted (parser : BusConfigParser) (element_name : String)
    (attributes : List (String × String)) (type : ElementType) : Prop :=
  (parser.stack = [] ∧ element_name = "busconfig" ∧ attributes = [] ∧
    type = ELEMENT_BUSCONFIG) ∨
  (top_element_type parser = ELEMENT_BUSCONFIG ∧
    ((element_name = "user" ∧ attributes = [] ∧ type = ELEMENT_USER) ∨
     (element_name = "listen" ∧ attributes = [] ∧ type = ELEMENT_LISTEN) ∨
     (element_name = "include" ∧ spec_include_attributes attributes ∧
       type = ELEMENT_INCLUDE) ∨
     (element_name = "policy" ∧ spec_policy_attributes attributes ∧
       type = ELEMENT_POLICY))) ∨
  (top_element_type parser = ELEMENT_POLICY ∧
    ((element_name = "allow" ∧ type = ELEMENT_ALLOW) ∨
     (element_name = "deny" ∧ type = ELEMENT_DENY)))

/-- The element types whose frame must have received content before it is closed. -/
def needs_content (t : ElementType) : Prop :=
  t = ELEMENT_INCLUDE ∨ t = ELEMENT_USER ∨ t = ELEMENT_LISTEN ∨ t = ELEMENT_AUTH

instance needs_content_decidable (t : ElementType) : Decidable (needs_content t) := by
  unfold needs_content
  infer_instance

/-- The attribute allow-list of an element as the specification gives it:
`ignore_missing` for include, context, user, group for policy, nothing for
busconfig, user and listen. -/
def spec_attribute_allow_list (element_name : String) : List String :=
  if element_name = "include" then ["ignore_missing"]
  else if element_name = "policy" then ["context", "user", "group"]
  else []

/-- The call opens busconfig, user, listen, include or policy in a context in
which that element is allowed: busconfig with no element open, the others
directly inside busconfig. -/
def spec_opens (parser : BusConfigParser) (element_name : String) : Prop :=
  (top_element_type parser = ELEMENT_NONE ∧ element_name = "busconfig") ∨
  (top_element_type parser = ELEMENT_BUSCONFIG ∧
    element_name ∈ ["user", "listen", "include", "policy"])

/-- The error is one of the two attribute-binding errors, about the attribute
`attr`: that attribute is invalid on the element, or it is repeated. -/
def attribute_error (e : DBusError) (attr : String) : Prop :=
  ∃ el, e = failed (msg_invalid attr el) ∨ e = failed (msg_repeated attr el)

instance spec_policy_attributes_decidable (attributes : List (String × String)) :
    Decidable (spec_policy_attributes attributes) := by
  unfold spec_policy_attributes
  infer_instance

/-! ## Documents of the grammar and the events that encode them -/

/-- A child of `<policy>`: `<allow>` or `<deny>` (their attributes are carried
along, the parser does not look at them) holding any number of
whitespace-only text blocks, or a whitespace-only text block directly inside
`<policy>`. -/
inductive PolicyItem where
  | allow_item (attributes : List (String × String)) (blanks : List String)
  | deny_item (attributes : List (String × String)) (blanks : List String)
  | blank (text : String)
  deriving DecidableEq, Repr

/-- A child of the root `<busconfig>`: `<user>TEXT</user>`, `<listen>TEXT</listen>`,
`<include>` with `ignore_missing` absent, yes (`some true`) or no (`some
false`) and its path, `<policy>` with its attributes and children, or a
whitespace-only text block directly inside `<busconfig>`. -/
inductive BusItem where
  | user_item (text : String)
  | listen_item (text : String)
  | include_item (ignore_missing : Option Bool) (path : String)
  | policy_item (attributes : List (String × String)) (children : List PolicyItem)
  | blank (text : String)
  deriving DecidableEq, Repr

/-- The text blocks of a policy child are whitespace only. -/
def PolicyItem.grammatical : PolicyItem → Bool
  | PolicyItem.allow_item _ blanks => blanks.all all_whitespace
  | PolicyItem.deny_item _ blanks => blanks.all all_whitespace
  | PolicyItem.blank text => all_whitespace text

/-- The child conforms to the grammar: text blocks outside user, listen and
include are whitespace only, and the attributes of `<policy>` are pairwise
different names among context, user, group. -/
def BusItem.grammatical : BusItem → Bool
  | BusItem.user_item _ => true
  | BusItem.listen_item _ => true
  | BusItem.include_item _ _ => true
  | BusItem.policy_item attributes children =>
    decide (spec_policy_attributes attributes) && children.all PolicyItem.grammatical
  | BusItem.blank text => all_whitespace text

/-- The attribute list that writes the `ignore_missing` choice of an `<include>`. -/
def include_attributes : Option Bool → List (String × String)
  | none => []
  | some true => [("ignore_missing", "yes")]
  | some false => [("ignore_missing", "no")]

/-- The events of a policy child. -/
def PolicyItem.events : PolicyItem → List Event
  | PolicyItem.allow_item attributes blanks =>
    Event.start_element "allow" attributes ::
      (blanks.map Event.content ++ [Event.end_element "allow"])
  | PolicyItem.deny_item attributes blanks =>
    Event.start_element "deny" attributes ::
      (blanks.map Event.content ++ [Event.end_element "deny"])
  | PolicyItem.blank text => [Event.content text]

/-- The events of a child of the root; user, listen and include receive exactly
one content event. -/
def BusItem.events : BusItem → List Event
  | BusItem.user_item text =>
    [Event.start_element "user" [], Event.content text, Event.end_element "user"]
  | BusItem.listen_item text =>
    [Event.start_element "listen" [], Event.content text, Event.end_element "listen"]
  | BusItem.include_item ignore_missing path =>
    [Event.start_element "include" (include_attributes ignore_missing), Event.content path,
      Event.end_element "include"]
  | BusItem.policy_item attributes children =>
    Event.start_element "policy" attributes ::
      (children.flatMap PolicyItem.events ++ [Event.end_element "policy"])
  | BusItem.blank text => [Event.content text]

/-- The event sequence of the document `<busconfig> items </busconfig>`. -/
def document_events (items : List BusItem) : List Event :=
  Event.start_element "busconfig" [] ::
    (items.flatMap BusItem.events ++ [Event.end_element "busconfig"])

/-- The user value a child of the root contributes: the text of `<user>`, the
user of an included child parser if that is set, nothing otherwise. -/
def spec_user_of (bus_config_load : String → Except DBusError BusConfigParser) :
    BusItem → Option String
  | BusItem.user_item text => some text
  | BusItem.include_item _ path =>
    match bus_config_load path with
    | Except.ok included => included.user
    | Except.error _ => none
  | _ => none

/-- The user of a document as the specification states it: the last value in
document order among the `<user>` texts and the set users of included
children, unset if there is none. -/
def spec_user (bus_config_load : String → Except DBusError BusConfigParser)
    (items : List BusItem) : Option String :=
  (items.filterMap (spec_user_of bus_config_load)).getLast?

/-- The listen addresses a child of the root contributes: the text of
`<listen>`, the whole listen list of an included child parser, nothing otherwise. -/
def spec_listen_of (bus_config_load : String → Except DBusError BusConfigParser) :
    BusItem → List String
  | BusItem.listen_item text => [text]
  | BusItem.include_item _ path =>
    match bus_config_load path with
    | Except.ok included => included.listen_on
    | Except.error _ => []
  | _ => []

/-- The listen list of a document as the specification states it: the
concatenation in document order of every `<listen>` text and of the listen
list of every included child. -/
def spec_listen (bus_config_load : String → Except DBusError BusConfigParser)
    (items : List BusItem) : List String :=
  items.flatMap (spec_listen_of bus_config_load)

/-! ## Sequences of calls and the states they reach -/

/-- One call of the tokenizer into the parser together with what the
environment does during it: the outcome of the allocations of the call and the
answer of the loader of nested documents. -/
structure Call where
  bus_config_load : String → Except DBusError BusConfigParser
  alloc : Alloc
  event : Event

/-- The parser call a `Call` stands for. -/
def apply_call (parser : BusConfigParser) (c : Call) : Outcome BusConfigParser :=
  apply_event c.bus_config_load c.alloc parser c.event

/-- Drives the parser through the calls in order, processing stopped at the
first call that does not return TRUE, whose outcome is the result. -/
def run_calls : BusConfigParser → List Call → Outcome BusConfigParser
  | parser, [] => Outcome.success parser
  | parser, c :: rest =>
    match apply_call parser c with
    | Outcome.success p => run_calls p rest
    | other => other

/-- The event is a content event. -/
def Event.is_content : Event → Bool
  | Event.content _ => true
  | _ => false

/-- No content event directly follows another content event. -/
def no_double_content : List Call → Bool
  | [] => true
  | [_] => true
  | c1 :: c2 :: rest =>
    !(c1.event.is_content && c2.event.is_content) && no_double_content (c2 :: rest)

/-- The parser states reachable from `bus_config_parser_new` by start-element,
end-element and content calls: the state a call leaves behind counts whether
the call returned TRUE or FALSE. -/
inductive Reachable : BusConfigParser → Prop where
  | fresh (a : Alloc) (p : BusConfigParser) :
    bus_config_parser_new a = some p → Reachable p
  | after_success (p q : BusConfigParser) (c : Call) :
    Reachable p → apply_call p c = Outcome.success q → Reachable q
  | after_failure (p q : BusConfigParser) (c : Call) (err : DBusError) :
    Reachable p → apply_call p c = Outcome.failure err q → Reachable q

/-- The frame is of the given type and has had no content. -/
def Element.untouched (e : Element) (t : ElementType) : Bool :=
  decide (e.type = t) && !e.had_content

/-- The frame is an Include, User or Listen frame. -/
def Element.takes_content (e : Element) : Bool :=
  decide (e.type = ELEMENT_INCLUDE) || decide (e.type = ELEMENT_USER) ||
    decide (e.type = ELEMENT_LISTEN)

/-- The shapes of the element stack: empty, [BusConfig], [BusConfig, X] with X an
Include, User, Listen or Policy frame, or [BusConfig, Policy, Y] with Y an
Allow or Deny frame; every frame other than a top Include, User or Listen
frame has had no content. -/
def well_shaped : List Element → Bool
  | [] => true
  | [bc] => bc.untouched ELEMENT_BUSCONFIG
  | [bc, x] =>
    bc.untouched ELEMENT_BUSCONFIG && (x.takes_content || x.untouched ELEMENT_POLICY)
  | [bc, pol, y] =>
    bc.untouched ELEMENT_BUSCONFIG && pol.untouched ELEMENT_POLICY &&
      (y.untouched ELEMENT_ALLOW || y.untouched ELEMENT_DENY)
  | _ => false

/-- The start-element calls that get as far as `push_element`: busconfig, user
and listen once `check_no_attributes` has passed, include and policy before
their attributes are looked at, allow and deny in every case. -/
def spec_reaches_push (parser : BusConfigParser) (element_name : String)
    (attributes : List (String × String)) : Prop :=
  (top_element_type parser = ELEMENT_NONE ∧ element_name = "busconfig" ∧ attributes = []) ∨
  (top_element_type parser = ELEMENT_BUSCONFIG ∧
    (((element_name = "user" ∨ element_name = "listen") ∧ attributes = []) ∨
      element_name = "include" ∨ element_name = "policy")) ∨
  (top_element_type parser = ELEMENT_POLICY ∧
    (element_name = "allow" ∨ element_name = "deny"))

/-- What a successful start-element call leaves behind: the parser with one new
frame without content on top, whose type fits the type that was on top before. -/
def pushed_effect (p q : BusConfigParser) : Prop :=
  ∃ t im, q = { p with stack := p.stack ++
      [{ type := t, had_content := false, ignore_missing := im }] } ∧
    ((top_element_type p = ELEMENT_NONE ∧ t = ELEMENT_BUSCONFIG) ∨
     (top_element_type p = ELEMENT_BUSCONFIG ∧
       (t = ELEMENT_USER ∨ t = ELEMENT_LISTEN ∨ t = ELEMENT_INCLUDE ∨ t = ELEMENT_POLICY)) ∨
     (top_element_type p = ELEMENT_POLICY ∧ (t = ELEMENT_ALLOW ∨ t = ELEMENT_DENY)))

/-- What a start-element call can leave behind, failed calls included: the
parser as it was, or the parser with the new frame pushed. -/
def start_effect (p q : BusConfigParser) : Prop :=
  q = p ∨ pushed_effect p q

/-- What a content call can leave behind: the stack as it was, or the stack
with `had_content` set in its top frame, which then is an Include, User,
Listen or Auth frame. -/
def content_effect (p q : BusConfigParser) : Prop :=
  q.stack = p.stack ∨
    ∃ xs f, p.stack = xs ++ [f] ∧ q.stack = xs ++ [set_had_content f] ∧ needs_content f.type

/-- The call returned, and the state it left is related to the one before the
call by `on_success` if it returned TRUE and by `on_failure` if it returned FALSE. -/
def returns_with (on_success on_failure : BusConfigParser → Prop) :
    Outcome BusConfigParser → Prop
  | Outcome.success q => on_success q
  | Outcome.failure _ q => on_failure q
  | Outcome.aborted _ => False

/-- The two ways a content call can stop at an assertion: the top frame has had
content already, or it has no type. -/
def content_abort_cause (p : BusConfigParser) : Prop :=
  ∃ xs f, p.stack = xs ++ [f] ∧ (f.had_content = true ∨ f.type = ELEMENT_NONE)

/-- The outcome carries a parser state related to the one before the call by
`effect`, or the call stopped at an assertion and `cause` holds. -/
def returns_unless (effect : BusConfigParser → Prop) (cause : Prop) :
    Outcome BusConfigParser → Prop
  | Outcome.success q => effect q
  | Outcome.failure _ q => effect q
  | Outcome.aborted _ => cause

/-! ## The out-of-memory test driver (dbus/dbus-internals.c) -/

/-- The macro `_DBUS_INT_MAX`, documented in dbus-internals.c as the maximum
value of type `int` (its definition is in dbus-internals.h, which is not
among the sources): `int` has 32 bits.  The `int` values of the driver are
integers here, and the results of its arithmetic that can leave the range of
`int` are brought back into it by `wrap_int`. -/
def _DBUS_INT_MAX : Int := 2147483647

/-- The value an `int` variable holds when the exact result of the arithmetic
is `x`: `x` itself when it lies between `-2147483648` and `_DBUS_INT_MAX`, and
otherwise `x` wrapped around modulo `2 ^ 32 = 4294967296` into that range (the
two's complement representation). -/
def wrap_int (x : Int) : Int :=
  (x + 2147483648) % 4294967296 - 2147483648

/-- Modelled from the spec: the allocation-failure settings of dbus-memory.c
(not among the sources) that the test driver writes and reads: the fail
counter, which says how many allocations succeed before one is forced to
fail, and the number of consecutive forced failures. -/
structure MallocDebug where
  fail_alloc_counter : Int
  n_failures_per_failure : Int
  deriving DecidableEq, Repr

/-- One call of the test function as the driver made it: the two settings in
force when it was called and the value it returned. -/
structure TestRun where
  n_failures : Int
  fail_alloc_counter : Int
  result : Bool
  deriving DecidableEq, Repr

/-- The state the driver works on: the data of the test function, the
allocation-failure settings, and the record of the calls made so far, in order. -/
structure TestState (W : Type) where
  world : W
  debug : MallocDebug
  runs : List TestRun

/-- A `DBusTestMemoryFunction` with its `data`: from its data and the settings in
force it gives its return value, its data afterwards and the fail counter it
leaves behind (every allocation it makes counts the counter down). -/
abbrev DBusTestMemoryFunction (W : Type) := W → MallocDebug → Bool × W × Int

/-- Modelled from the spec: `_dbus_set_fail_alloc_counter` (dbus-memory.c, not
among the sources) stores the fail counter. -/
def _dbus_set_fail_alloc_counter {W : Type} (n : Int) (s : TestState W) : TestState W :=
  { s with debug := { s.debug with fail_alloc_counter := n } }

/-- Modelled from the spec: `_dbus_get_fail_alloc_counter` (dbus-memory.c, not
among the sources) reads the fail counter. -/
def _dbus_get_fail_alloc_counter {W : Type} (s : TestState W) : Int :=
  s.debug.fail_alloc_counter

/-- Modelled from the spec: `_dbus_set_fail_alloc_failures` (dbus-memory.c, not
among the sources) stores the number of consecutive forced failures. -/
def _dbus_set_fail_alloc_failures {W : Type} (n : Int) (s : TestState W) : TestState W :=
  { s with debug := { s.debug with n_failures_per_failure := n } }

/-- The call `(* func) (data)`: runs the test function in the current state and
records the call. -/
def call_func {W : Type} (func : DBusTestMemoryFunction W) (s : TestState W) :
    Bool × TestState W :=
  let r := func s.world s.debug
  (r.1,
    { world := r.2.1,
      debug := { s.debug with fail_alloc_counter := r.2.2 },
      runs := s.runs ++
        [{ n_failures := s.debug.n_failures_per_failure,
           fail_alloc_counter := s.debug.fail_alloc_counter,
           result := r.1 }] })

/-- The loop `while (n_mallocs >= 0)` of `run_failing_each_malloc`, entered with
the non-negative value `n_mallocs` given as a natural number; FALSE is the
`return FALSE` inside the loop, TRUE is the exit of the loop after the pass
with `n_mallocs` 0. -/
def failing_loop {W : Type} (func : DBusTestMemoryFunction W) :
    Nat → TestState W → Bool × TestState W
  | 0, s => call_func func (_dbus_set_fail_alloc_counter 0 s)
  | k + 1, s =>
    let r := call_func func (_dbus_set_fail_alloc_counter ((k : Int) + 1) s)
    if r.1 = false then (false, r.2) else failing_loop func k r.2

/-- `run_failing_each_malloc`.  The statement `n_mallocs += 10` is an addition of
`int` values and wraps around when the sum exceeds `_DBUS_INT_MAX`; the loop
is not entered when the value is negative.  Inside the loop `n_mallocs` is
not negative, so `n_mallocs -= 1` stays in the range of `int`. -/
def run_failing_each_malloc {W : Type} (n_mallocs : Int) (func : DBusTestMemoryFunction W)
    (s : TestState W) : Bool × TestState W :=
  let n := wrap_int (n_mallocs + 10)
  if n < 0 then (true, _dbus_set_fail_alloc_counter _DBUS_INT_MAX s)
  else
    let r := failing_loop func n.toNat s
    if r.1 = false then (false, r.2)
    else (true, _dbus_set_fail_alloc_counter _DBUS_INT_MAX r.2)

/-- `_dbus_test_oom_handling`. -/
def _dbus_test_oom_handling {W : Type} (func : DBusTestMemoryFunction W)
    (s : TestState W) : Bool × TestState W :=
  let r0 := call_func func (_dbus_set_fail_alloc_counter _DBUS_INT_MAX s)
  if r0.1 = false then (false, r0.2)
  else
    let approx_mallocs := wrap_int (_DBUS_INT_MAX - _dbus_get_fail_alloc_counter r0.2)
    let r1 := run_failing_each_malloc approx_mallocs func (_dbus_set_fail_alloc_failures 1 r0.2)
    if r1.1 = false then (false, r1.2)
    else
      let r2 :=
        run_failing_each_malloc approx_mallocs func (_dbus_set_fail_alloc_failures 2 r1.2)
      if r2.1 = false then (false, r2.2)
      else
        let r3 :=
          run_failing_each_malloc approx_mallocs func (_dbus_set_fail_alloc_failures 3 r2.2)
        if r3.1 = false then (false, r3.2)
        else
          let r4 :=
            run_failing_each_malloc approx_mallocs func (_dbus_set_fail_alloc_failures 4 r3.2)
          if r4.1 = false then (false, r4.2)
          else (true, r4.2)

/-- The fail-counter values from `k` down to 0. -/
def countdown : Nat → List Int
  | 0 => [0]
  | k + 1 => ((k : Int) + 1) :: countdown k

/-- The runs the specification asks for with a given number of forced failures:
one for every fail-counter value from `n + 10` down to 0, `n` being the number
of allocations of the clean run. -/
def spec_batch (failures : Int) (n : Nat) : List (Int × Int) :=
  (countdown (n + 10)).map (fun c => (failures, c))

/-- The whole schedule of the specification, as (number of failures, fail
counter) pairs: the clean run, without forced failures (the number of failures
is still what it was, `failures0`), then the batches for 1, 2, 3 and 4 failures. -/
def spec_schedule (failures0 : Int) (n : Nat) : List (Int × Int) :=
  (failures0, _DBUS_INT_MAX) ::
    (spec_batch 1 n ++ (spec_batch 2 n ++ (spec_batch 3 n ++ spec_batch 4 n)))

/-- The recorded runs follow the schedule and stop at the first run that returned
FALSE, and `result` is TRUE exactly when the whole schedule was run with TRUE
every time. -/
def follows : List (Int × Int) → List TestRun → Bool → Prop
  | [], [], result => result = true
  | k :: ks, x :: xs, result =>
    (x.n_failures, x.fail_alloc_counter) = k ∧
      (if x.result = true then follows ks xs result else xs = [] ∧ result = false)
  | _, _, _ => False

/-! ## Theorems -/

/-! ### The element stack -/

theorem update_top_concat (f : Element → Element) (xs : List Element) (e : Element) :
    update_top f (xs ++ [e]) = xs ++ [f e] := by
  induction xs with
  | nil => rfl
  | cons x xs ih =>
    cases xs with
    | nil => rfl
    | cons y ys =>
      simp only [List.cons_append] at ih ⊢
      rw [update_top, ih]

theorem move_links_eq (dst src : List String) : move_links dst src = (dst ++ src, []) := by
  induction src generalizing dst with
  | nil => simp [move_links]
  | cons l rest ih => simp [move_links, ih]

theorem peek_concat (p : BusConfigParser) (xs : List Element) (e : Element)
    (h : p.stack = xs ++ [e]) : peek_element p = some e := by
  simp [peek_element, h]

theorem top_type_concat (p : BusConfigParser) (xs : List Element) (e : Element)
    (h : p.stack = xs ++ [e]) : top_element_type p = e.type := by
  simp [top_element_type, h]

theorem top_type_nil (p : BusConfigParser) (h : p.stack = []) :
    top_element_type p = ELEMENT_NONE := by
  simp [top_element_type, h]

theorem stack_cases (p : BusConfigParser) :
    p.stack = [] ∨ ∃ xs e, p.stack = xs ++ [e] := by
  rcases List.eq_nil_or_concat p.stack with h | ⟨xs, e, h⟩
  · exact Or.inl h
  · exact Or.inr ⟨xs, e, by simpa using h⟩

theorem names_text_mid (a b c : String) : names_text (a ++ b ++ c) b := by
  unfold names_text
  simp only [String.data_append]
  exact ⟨a.data, c.data, rfl⟩

/-! ### End of an element -/

theorem end_element_nil (parser : BusConfigParser) (element_name : String)
    (h : parser.stack = []) :
    bus_config_parser_end_element parser element_name =
      Outcome.failure (failed "XML parser ended element with no element on the stack") parser := by
  unfold bus_config_parser_end_element
  simp [top_type_nil parser h]

theorem end_element_concat (parser : BusConfigParser) (element_name : String)
    (xs : List Element) (e : Element) (h : parser.stack = xs ++ [e]) :
    bus_config_parser_end_element parser element_name =
      if e.type = ELEMENT_NONE then
        Outcome.failure (failed "XML parser ended element with no element on the stack") parser
      else if element_type_to_name e.type ≠ some element_name then
        Outcome.failure
          (failed "XML element ended which was not the topmost element on the stack") parser
      else if needs_content e.type ∧ e.had_content = false then
        Outcome.failure
          (failed (msg_expected_content (fmt_s (element_type_to_name e.type)))) parser
      else Outcome.success (pop_element parser) := by
  unfold bus_config_parser_end_element
  rw [top_type_concat parser xs e h, peek_concat parser xs e h]
  rcases e with ⟨t, hc, im⟩
  cases t <;> cases hc <;> simp [element_type_to_name, fmt_s, needs_content, eq_comm]

/-- C4: `bus_config_parser_end_element` succeeds exactly when the stack is not
empty, the name is the element name of the top frame's type and the top frame
has had content if its type is Include, User, Listen or Auth.  A success
returns the parser with the top frame removed and user and listen list as
they were; every other call fails with an error and leaves the whole parser,
so also the stack, the user and the listen list, unchanged. -/
theorem end_element_succeeds_iff (parser : BusConfigParser) (element_name : String) :
    ((∃ p, bus_config_parser_end_element parser element_name = Outcome.success p) ↔
      ∃ e, peek_element parser = some e ∧
        element_type_to_name e.type = some element_name ∧
        (needs_content e.type → e.had_content = true)) ∧
    (∀ p, bus_config_parser_end_element parser element_name = Outcome.success p →
      p.stack = parser.stack.dropLast ∧ parser.stack ≠ [] ∧
      p.user = parser.user ∧ p.listen_on = parser.listen_on) ∧
    ((¬ ∃ p, bus_config_parser_end_element parser element_name = Outcome.success p) →
      ∃ err, bus_config_parser_end_element parser element_name = Outcome.failure err parser) := by
  rcases stack_cases parser with h | ⟨xs, e, h⟩
  · rw [end_element_nil parser element_name h]
    simp [peek_element, h]
  · rw [end_element_concat parser element_name xs e h, peek_concat parser xs e h]
    by_cases h1 : e.type = ELEMENT_NONE
    · simp [h1, element_type_to_name]
    · by_cases h2 : element_type_to_name e.type = some element_name
      · by_cases h3 : needs_content e.type ∧ e.had_content = false
        · simp [h1, h2, h3]
        · have h4 : needs_content e.type → e.had_content = true := by
            intro hn
            cases hc : e.had_content
            · exact absurd ⟨hn, hc⟩ h3
            · rfl
          simpa [h1, h2, h3, pop_element, h] using h4
      · simp [h1, h2]

/-- C5: when the top frame has type Include, User, Listen or Auth and has had no
content, `bus_config_parser_end_element` called with that element's own name
fails, leaves the parser unchanged, and the message of its error names the
element; when the top frame has type BusConfig, Policy, Limit, Allow or Deny
the matching end-element succeeds and removes the frame, whatever the value
of `had_content`. -/
theorem end_element_content_requirement (parser : BusConfigParser) (xs : List Element)
    (e : Element) (h : parser.stack = xs ++ [e]) :
    (needs_content e.type → e.had_content = false →
      ∃ n, element_type_to_name e.type = some n ∧
        bus_config_parser_end_element parser n =
          Outcome.failure (failed (msg_expected_content n)) parser ∧
        names (failed (msg_expected_content n)) n) ∧
    (e.type = ELEMENT_BUSCONFIG ∨ e.type = ELEMENT_POLICY ∨ e.type = ELEMENT_LIMIT ∨
        e.type = ELEMENT_ALLOW ∨ e.type = ELEMENT_DENY →
      ∃ n, element_type_to_name e.type = some n ∧
        bus_config_parser_end_element parser n = Outcome.success (pop_element parser) ∧
        (pop_element parser).stack = xs) := by
  constructor
  · intro hn hc
    have hmid : ∀ n : String, names (failed (msg_expected_content n)) n := fun n =>
      names_text_mid "XML element <" n "> was expected to have content inside it"
    rcases hn with ht | ht | ht | ht
    · exact ⟨"include", by simp [ht, element_type_to_name],
        by rw [end_element_concat parser _ xs e h]
           simp [ht, hc, element_type_to_name, needs_content, fmt_s], hmid _⟩
    · exact ⟨"user", by simp [ht, element_type_to_name],
        by rw [end_element_concat parser _ xs e h]
           simp [ht, hc, element_type_to_name, needs_content, fmt_s], hmid _⟩
    · exact ⟨"listen", by simp [ht, element_type_to_name],
        by rw [end_element_concat parser _ xs e h]
           simp [ht, hc, element_type_to_name, needs_content, fmt_s], hmid _⟩
    · exact ⟨"auth", by simp [ht, element_type_to_name],
        by rw [end_element_concat parser _ xs e h]
           simp [ht, hc, element_type_to_name, needs_content, fmt_s], hmid _⟩
  · intro ht
    have hpop : (pop_element parser).stack = xs := by simp [pop_element, h]
    rcases ht with ht | ht | ht | ht | ht
    · exact ⟨"busconfig", by simp [ht, element_type_to_name],
        by rw [end_element_concat parser _ xs e h]
           simp [ht, element_type_to_name, needs_content], hpop⟩
    · exact ⟨"policy", by simp [ht, element_type_to_name],
        by rw [end_element_concat parser _ xs e h]
           simp [ht, element_type_to_name, needs_content], hpop⟩
    · exact ⟨"limit", by simp [ht, element_type_to_name],
        by rw [end_element_concat parser _ xs e h]
           simp [ht, element_type_to_name, needs_content], hpop⟩
    · exact ⟨"allow", by simp [ht, element_type_to_name],
        by rw [end_element_concat parser _ xs e h]
           simp [ht, element_type_to_name, needs_content], hpop⟩
    · exact ⟨"deny", by simp [ht, element_type_to_name],
        by rw [end_element_concat parser _ xs e h]
           simp [ht, element_type_to_name, needs_content], hpop⟩

/-- Witness of C5: with `<busconfig><user>` open and no content delivered,
closing `user` fails with a message naming user, while with only
`<busconfig>` open closing it succeeds and empties the stack. -/
theorem end_element_content_requirement_witness :
    (bus_config_parser_end_element
        { refcount := 1,
          stack := [{ type := ELEMENT_BUSCONFIG, had_content := false, ignore_missing := false },
                    { type := ELEMENT_USER, had_content := false, ignore_missing := false }],
          user := none, listen_on := [] } "user" =
      Outcome.failure (failed (msg_expected_content "user"))
        { refcount := 1,
          stack := [{ type := ELEMENT_BUSCONFIG, had_content := false, ignore_missing := false },
                    { type := ELEMENT_USER, had_content := false, ignore_missing := false }],
          user := none, listen_on := [] } ∧
      names (failed (msg_expected_content "user")) "user") ∧
    bus_config_parser_end_element
        { refcount := 1,
          stack := [{ type := ELEMENT_BUSCONFIG, had_content := true, ignore_missing := false }],
          user := none, listen_on := [] } "busconfig" =
      Outcome.success { refcount := 1, stack := [], user := none, listen_on := [] } := by
  constructor
  · obtain ⟨n, hn, hres⟩ :=
      (end_element_content_requirement
        { refcount := 1,
          stack := [{ type := ELEMENT_BUSCONFIG, had_content := false, ignore_missing := false },
                    { type := ELEMENT_USER, had_content := false, ignore_missing := false }],
          user := none, listen_on := [] }
        [{ type := ELEMENT_BUSCONFIG, had_content := false, ignore_missing := false }]
        { type := ELEMENT_USER, had_content := false, ignore_missing := false } rfl).1
        (Or.inr (Or.inl rfl)) rfl
    have hn2 : n = "user" := by
      simp only [element_type_to_name, Option.some.injEq] at hn
      exact hn.symm
    subst hn2
    exact hres
  · obtain ⟨n, hn, hres, _⟩ :=
      (end_element_content_requirement
        { refcount := 1,
          stack := [{ type := ELEMENT_BUSCONFIG, had_content := true, ignore_missing := false }],
          user := none, listen_on := [] }
        []
        { type := ELEMENT_BUSCONFIG, had_content := true, ignore_missing := false } rfl).2
        (Or.inl rfl)
    have hn2 : n = "busconfig" := by
      simp only [element_type_to_name, Option.some.injEq] at hn
      exact hn.symm
    subst hn2
    exact hres

/-! ### The include merge -/

/-- C10: `merge_included` succeeds; afterwards the listen list of the parent is
its previous listen list followed by the previous listen list of the child,
in the child's order and with duplicates kept, and the listen list of the
child is empty. -/
theorem merge_included_moves_listen (parser included : BusConfigParser) :
    ∃ p c, merge_included parser included = Outcome.success (p, c) ∧
      p.listen_on = parser.listen_on ++ included.listen_on ∧ c.listen_on = [] := by
  refine ⟨_, _, rfl, ?_, ?_⟩
  · cases h : included.user <;> simp [move_links_eq]
  · cases h : included.user <;> simp [move_links_eq]


/-! ### The attribute locator -/

/-- The table of `locate_attributes` over the expected names, the slot of the
name `m` holding `σ m`. -/
theorem collect_attrs_eq (more : List String) (attrs : List LocateAttr)
    (h : attrs.length + more.length ≤ MAX_ATTRS) :
    collect_attrs more attrs =
      some (attrs ++ more.map (fun m => { name := m, retloc := none })) := by
  induction more generalizing attrs with
  | nil => simp [collect_attrs]
  | cons m rest ih =>
    have h1 : attrs.length < MAX_ATTRS := by
      simp only [List.length_cons] at h
      omega
    have h2 : (attrs ++ [({ name := m, retloc := none } : LocateAttr)]).length + rest.length
        ≤ MAX_ATTRS := by
      simp only [List.length_append, List.length_cons, List.length_nil] at h ⊢
      omega
    simp [collect_attrs, h1, ih _ h2]

theorem scan_attrs_absent (n v : String) (σ : String → Option String) (expected : List String)
    (found : Bool) (h : n ∉ expected) :
    scan_attrs n v (expected.map (fun m => { name := m, retloc := σ m })) found =
      Except.ok (found, expected.map (fun m => { name := m, retloc := σ m })) := by
  induction expected with
  | nil => rfl
  | cons m rest ih =>
    have hm : m ≠ n := fun hmn => h (by simp [hmn])
    have hr : n ∉ rest := fun hr => h (by simp [hr])
    simp [scan_attrs, hm, ih hr]

theorem scan_attrs_bound (n v : String) (σ : String → Option String) (expected : List String)
    (found : Bool) (h : n ∈ expected) (w : String) (hσ : σ n = some w) :
    scan_attrs n v (expected.map (fun m => { name := m, retloc := σ m })) found =
      Except.error n := by
  induction expected generalizing found with
  | nil => simp at h
  | cons m rest ih =>
    by_cases hm : m = n
    · subst hm
      simp [scan_attrs, hσ]
    · have hr : n ∈ rest := by
        rcases List.mem_cons.mp h with h1 | h1
        · exact absurd h1.symm hm
        · exact h1
      simp [scan_attrs, hm, ih found hr]

theorem scan_attrs_free (n v : String) (σ : String → Option String) (expected : List String)
    (found : Bool) (hnd : expected.Nodup) (h : n ∈ expected) (hσ : σ n = none) :
    scan_attrs n v (expected.map (fun m => { name := m, retloc := σ m })) found =
      Except.ok (true, expected.map
        (fun m => { name := m, retloc := if m = n then some v else σ m })) := by
  induction expected generalizing found with
  | nil => simp at h
  | cons m rest ih =>
    have hnd2 := List.nodup_cons.mp hnd
    by_cases hm : m = n
    · subst hm
      have hrest : List.map (fun x => ({ name := x, retloc := if x = m then some v else σ x } : LocateAttr)) rest =
          List.map (fun x => ({ name := x, retloc := σ x } : LocateAttr)) rest := by
        apply List.map_congr_left
        intro x hx
        have : x ≠ m := fun hxm => hnd2.1 (hxm ▸ hx)
        simp [this]
      simp [scan_attrs, hσ, scan_attrs_absent m v σ rest true hnd2.1, hrest]
    · have hr : n ∈ rest := by
        rcases List.mem_cons.mp h with h1 | h1
        · exact absurd h1.symm hm
        · exact h1
      simp [scan_attrs, hm, ih found hnd2.2 hr]

theorem locate_loop_never_aborts (el : String) (present : List (String × String))
    (attrs : List LocateAttr) (msg : String) :
    locate_loop el present attrs ≠ LocateResult.aborted msg := by
  induction present generalizing attrs with
  | nil => simp [locate_loop]
  | cons q rest ih =>
    rcases q with ⟨n, v⟩
    unfold locate_loop
    cases hs : scan_attrs n v attrs false with
    | error d => simp
    | ok r =>
      rcases r with ⟨found, attrs1⟩
      cases found
      · simp
      · simpa using ih attrs1

theorem locate_loop_success_iff (el : String) (expected : List String) (hnd : expected.Nodup)
    (present : List (String × String)) (σ : String → Option String) :
    (∃ r, locate_loop el present (expected.map (fun m => { name := m, retloc := σ m })) =
        LocateResult.success r) ↔
      (∀ q ∈ present, q.1 ∈ expected ∧ σ q.1 = none) ∧ (present.map Prod.fst).Nodup := by
  induction present generalizing σ with
  | nil => simp [locate_loop]
  | cons q rest ih =>
    rcases q with ⟨n, v⟩
    unfold locate_loop
    by_cases hn : n ∈ expected
    · cases hσ : σ n with
      | some w =>
        rw [scan_attrs_bound n v σ expected false hn w hσ]
        simp [hσ]
      | none =>
        rw [scan_attrs_free n v σ expected false hnd hn hσ]
        simp only [if_true]
        rw [ih]
        have hmem : n ∈ rest.map Prod.fst ↔ ∃ q ∈ rest, q.1 = n := by simp
        constructor
        · rintro ⟨h1, h2⟩
          have hnr : n ∉ rest.map Prod.fst := by
            rw [hmem]
            rintro ⟨q, hq, hqn⟩
            have := (h1 q hq).2
            simp [hqn] at this
          refine ⟨?_, ?_⟩
          · intro q hq
            rcases List.mem_cons.mp hq with hq | hq
            · subst hq
              exact ⟨hn, hσ⟩
            · refine ⟨(h1 q hq).1, ?_⟩
              have := (h1 q hq).2
              by_cases hqn : q.1 = n
              · simp [hqn] at this
              · simpa [hqn] using this
          · simpa [List.nodup_cons] using ⟨by simpa using hnr, h2⟩
        · rintro ⟨h1, h2⟩
          have h3 := List.nodup_cons.mp (by simpa using h2 : (n :: rest.map Prod.fst).Nodup)
          refine ⟨?_, h3.2⟩
          intro q hq
          have hqn : q.1 ≠ n := fun hqn => h3.1 (hmem.mpr ⟨q, hq, hqn⟩)
          have := h1 q (List.mem_cons_of_mem _ hq)
          exact ⟨this.1, by simpa [hqn] using this.2⟩
    · rw [scan_attrs_absent n v σ expected false hn]
      simp [hn]

theorem lookup_absent (n : String) (l : List (String × String)) (h : n ∉ l.map Prod.fst) :
    l.lookup n = none := by
  rw [List.lookup_eq_none_iff]
  intro q hq
  have : n ≠ q.1 := fun hnq => h (List.mem_map.mpr ⟨q, hq, hnq.symm⟩)
  simpa using this

theorem locate_loop_success_value (el : String) (expected : List String) (hnd : expected.Nodup)
    (present : List (String × String)) (σ : String → Option String)
    (hok : ∀ q ∈ present, q.1 ∈ expected ∧ σ q.1 = none)
    (hdis : (present.map Prod.fst).Nodup) :
    locate_loop el present (expected.map (fun m => { name := m, retloc := σ m })) =
      LocateResult.success (expected.map (fun m => (present.lookup m).or (σ m))) := by
  induction present generalizing σ with
  | nil => simp [locate_loop]
  | cons q rest ih =>
    rcases q with ⟨n, v⟩
    have hq := hok (n, v) (List.mem_cons_self _ _)
    have hnd2 := List.nodup_cons.mp (by simpa using hdis : (n :: rest.map Prod.fst).Nodup)
    unfold locate_loop
    rw [scan_attrs_free n v σ expected false hnd hq.1 hq.2]
    simp only [if_true]
    rw [ih]
    · congr 1
      apply List.map_congr_left
      intro m _
      by_cases hmn : m = n
      · subst hmn
        simp [lookup_absent m rest hnd2.1]
      · have hmn2 : (m == n) = false := by simpa using hmn
        simp [List.lookup_cons, hmn, hmn2]
    · intro q hq2
      have hqn : q.1 ≠ n := fun hqn => hnd2.1 (List.mem_map.mpr ⟨q, hq2, hqn⟩)
      have := hok q (List.mem_cons_of_mem _ hq2)
      exact ⟨this.1, by simpa [hqn] using this.2⟩
    · exact hnd2.2

theorem locate_loop_first_offending (el : String) (expected : List String)
    (hnd : expected.Nodup) (pre : List (String × String)) (n v : String)
    (post : List (String × String)) (σ : String → Option String)
    (hok : ∀ q ∈ pre, q.1 ∈ expected ∧ σ q.1 = none)
    (hdis : (pre.map Prod.fst).Nodup)
    (hbad : n ∉ expected ∨ σ n ≠ none ∨ n ∈ pre.map Prod.fst) :
    locate_loop el (pre ++ (n, v) :: post)
        (expected.map (fun m => { name := m, retloc := σ m })) =
      LocateResult.failure
        (failed (if n ∈ expected then msg_repeated n el else msg_invalid n el)) := by
  induction pre generalizing σ with
  | nil =>
    simp only [List.nil_append]
    unfold locate_loop
    by_cases hn : n ∈ expected
    · cases hσ : σ n with
      | none => simp [hn, hσ] at hbad
      | some w =>
        rw [scan_attrs_bound n v σ expected false hn w hσ]
        simp [hn]
    · rw [scan_attrs_absent n v σ expected false hn]
      simp [hn]
  | cons q rest ih =>
    rcases q with ⟨n0, v0⟩
    have hq := hok (n0, v0) (List.mem_cons_self _ _)
    have hnd2 := List.nodup_cons.mp (by simpa using hdis : (n0 :: rest.map Prod.fst).Nodup)
    simp only [List.cons_append]
    unfold locate_loop
    rw [scan_attrs_free n0 v0 σ expected false hnd hq.1 hq.2]
    simp only [if_true]
    apply ih
    · intro q hq2
      have hqn : q.1 ≠ n0 := fun hqn => hnd2.1 (List.mem_map.mpr ⟨q, hq2, hqn⟩)
      have := hok q (List.mem_cons_of_mem _ hq2)
      exact ⟨this.1, by simpa [hqn] using this.2⟩
    · exact hnd2.2
    · by_cases hnn : n = n0
      · exact Or.inr (Or.inl (by simp [hnn]))
      · rcases hbad with h | h | h
        · exact Or.inl h
        · exact Or.inr (Or.inl (by simpa [hnn] using h))
        · refine Or.inr (Or.inr ?_)
          have h2 : n ∈ n0 :: rest.map Prod.fst := by simpa using h
          rcases List.mem_cons.mp h2 with h3 | h3
          · exact absurd h3 hnn
          · exact h3

theorem locate_attributes_eq_loop (el : String) (present : List (String × String))
    (first : String) (more : List String) (hlen : (first :: more).length ≤ MAX_ATTRS) :
    locate_attributes el present first more =
      locate_loop el present
        ((first :: more).map (fun m => { name := m, retloc := (fun _ => none) m })) := by
  unfold locate_attributes
  rw [collect_attrs_eq more _ (by simpa [Nat.add_comm] using hlen)]
  simp

theorem locate_attributes_accepts (el : String) (present : List (String × String))
    (first : String) (more : List String)
    (hnd : (first :: more).Nodup) (hlen : (first :: more).length ≤ MAX_ATTRS)
    (hok : ∀ q ∈ present, q.1 ∈ first :: more) (hdis : (present.map Prod.fst).Nodup) :
    ∃ r, locate_attributes el present first more = LocateResult.success r := by
  rw [locate_attributes_eq_loop el present first more hlen]
  exact (locate_loop_success_iff el (first :: more) hnd present (fun _ => none)).mpr
    ⟨fun q hq => ⟨hok q hq, rfl⟩, hdis⟩

theorem locate_attributes_refuses (el : String) (present : List (String × String))
    (first : String) (more : List String)
    (hnd : (first :: more).Nodup) (hlen : (first :: more).length ≤ MAX_ATTRS)
    (hbad : (∃ q ∈ present, q.1 ∉ first :: more) ∨ ¬ (present.map Prod.fst).Nodup) :
    ∃ err, locate_attributes el present first more = LocateResult.failure err := by
  have heq := locate_attributes_eq_loop el present first more hlen
  cases hres : locate_attributes el present first more with
  | failure err => exact ⟨err, rfl⟩
  | aborted msg =>
    rw [heq] at hres
    exact absurd hres (locate_loop_never_aborts _ _ _ _)
  | success r =>
    rw [heq] at hres
    obtain ⟨h1, h2⟩ :=
      (locate_loop_success_iff el (first :: more) hnd present (fun _ => none)).mp ⟨r, hres⟩
    rcases hbad with ⟨q, hq, hqn⟩ | hdup
    · exact absurd (h1 q hq).1 hqn
    · exact absurd h2 hdup

/-- C6: for pairwise different expected names, at most 24 of them,
`locate_attributes` succeeds exactly when every present name is an expected
name and no present name occurs twice; on success the slot of every expected
name holds the value of the present attribute of that name, and the absent
marker if there is none; otherwise it fails with an error, and when the first
offending attribute in input order (all attributes before it are expected and
pairwise different) repeats an earlier name the error is the repeated-attribute
error, when its name is not expected the invalid-attribute error. -/
theorem locate_attributes_spec (el : String) (present : List (String × String))
    (first : String) (more : List String)
    (hnd : (first :: more).Nodup) (hlen : (first :: more).length ≤ 24) :
    ((∃ r, locate_attributes el present first more = LocateResult.success r) ↔
      (∀ q ∈ present, q.1 ∈ first :: more) ∧ (present.map Prod.fst).Nodup) ∧
    (∀ r, locate_attributes el present first more = LocateResult.success r →
      r = (first :: more).map (fun m => present.lookup m)) ∧
    ((¬ ∃ r, locate_attributes el present first more = LocateResult.success r) →
      ∃ err, locate_attributes el present first more = LocateResult.failure err) ∧
    (∀ pre n v post, present = pre ++ (n, v) :: post →
      (∀ q ∈ pre, q.1 ∈ first :: more) → (pre.map Prod.fst).Nodup →
      (n ∈ pre.map Prod.fst →
        locate_attributes el present first more =
          LocateResult.failure (failed (msg_repeated n el))) ∧
      (n ∉ first :: more →
        locate_attributes el present first more =
          LocateResult.failure (failed (msg_invalid n el)))) := by
  have heq := locate_attributes_eq_loop el present first more hlen
  have hiff := locate_loop_success_iff el (first :: more) hnd present (fun _ => none)
  rw [← heq] at hiff
  have hiff2 : (∃ r, locate_attributes el present first more = LocateResult.success r) ↔
      (∀ q ∈ present, q.1 ∈ first :: more) ∧ (present.map Prod.fst).Nodup := by
    rw [hiff]
    constructor
    · rintro ⟨h1, h2⟩
      exact ⟨fun q hq => (h1 q hq).1, h2⟩
    · rintro ⟨h1, h2⟩
      exact ⟨fun q hq => ⟨h1 q hq, rfl⟩, h2⟩
  refine ⟨hiff2, ?_, ?_, ?_⟩
  · intro r hr
    obtain ⟨h1, h2⟩ := hiff2.mp ⟨r, hr⟩
    have hv := locate_loop_success_value el (first :: more) hnd present (fun _ => none)
      (fun q hq => ⟨h1 q hq, rfl⟩) h2
    rw [← heq, hr] at hv
    simpa using hv
  · intro hns
    cases hres : locate_attributes el present first more with
    | success r => exact absurd ⟨r, hres⟩ hns
    | failure err => exact ⟨err, rfl⟩
    | aborted msg =>
      rw [heq] at hres
      exact absurd hres (locate_loop_never_aborts _ _ _ _)
  · intro pre n v post hp hok hdis
    subst hp
    constructor
    · intro hmem
      have hn : n ∈ first :: more := by
        obtain ⟨q, hq, hqn⟩ := List.mem_map.mp hmem
        exact hqn ▸ hok q hq
      have := locate_loop_first_offending el (first :: more) hnd pre n v post (fun _ => none)
        (fun q hq => ⟨hok q hq, rfl⟩) hdis (Or.inr (Or.inr hmem))
      rw [heq, this, if_pos hn]
    · intro hn
      have := locate_loop_first_offending el (first :: more) hnd pre n v post (fun _ => none)
        (fun q hq => ⟨hok q hq, rfl⟩) hdis (Or.inl hn)
      rw [heq, this, if_neg hn]

/-- Witness of C6: with the expected names context, user, group, the present
attribute user="root" is bound to the second slot and the other two slots
stay absent. -/
theorem locate_attributes_spec_witness :
    ("context" :: ["user", "group"]).Nodup ∧ ("context" :: ["user", "group"]).length ≤ 24 ∧
    locate_attributes "policy" [("user", "root")] "context" ["user", "group"] =
      LocateResult.success [none, some "root", none] := by
  refine ⟨by decide, by decide, ?_⟩
  have h := locate_attributes_spec "policy" [("user", "root")] "context" ["user", "group"]
    (by decide) (by decide)
  obtain ⟨r, hr⟩ := h.1.mpr ⟨by decide, by decide⟩
  have hv := h.2.1 r hr
  rw [hr, hv]
  decide


/-! ### Start of an element -/

theorem push_element_ok (a : Alloc) (ha0 : a 0 = true) (ha1 : a 1 = true)
    (parser : BusConfigParser) (type : ElementType) (ht : type ≠ ELEMENT_NONE) :
    push_element a parser type =
      PushResult.pushed
        { parser with
          stack := parser.stack ++
            [{ type := type, had_content := false, ignore_missing := false }] } := by
  simp [push_element, ht, ha0, ha1]

theorem names_text_append_left (a b s : String) (h : names_text a s) :
    names_text (a ++ b) s := by
  unfold names_text at h ⊢
  rw [String.data_append]
  exact h.trans (List.infix_append' [] a.data b.data)

theorem names_text_append_right (a b s : String) (h : names_text b s) :
    names_text (a ++ b) s := by
  unfold names_text at h ⊢
  rw [String.data_append]
  obtain ⟨u, w, huw⟩ := h
  exact ⟨a.data ++ u, w, by simp [← huw]⟩

theorem names_rejected (t : ElementType) (element_name : String) :
    names (failed (rejection_message t element_name)) element_name := by
  cases t <;>
    simp only [names, failed, rejection_message, msg_unknown_root, msg_not_allowed_inside,
      msg_not_allowed_here]
  case ELEMENT_BUSCONFIG =>
    exact names_text_append_left _ _ _ (names_text_append_left _ _ _ (names_text_mid _ _ _))
  case ELEMENT_POLICY =>
    exact names_text_append_left _ _ _ (names_text_append_left _ _ _ (names_text_mid _ _ _))
  all_goals exact names_text_mid _ _ _

theorem start_element_rejected (a : Alloc) (parser : BusConfigParser) (element_name : String)
    (attributes : List (String × String))
    (h : element_name ∉ spec_allowed_children (top_element_type parser)) :
    bus_config_parser_start_element a parser element_name attributes =
      Outcome.failure
        (failed (rejection_message (top_element_type parser) element_name)) parser := by
  unfold bus_config_parser_start_element
  cases ht : top_element_type parser <;>
    simp [ht, spec_allowed_children] at h <;>
    simp [h, rejection_message, start_busconfig_child, start_policy_child]

/-- C2 (amended): an element that is not in the allowed set of the context at
the top of the stack makes `bus_config_parser_start_element` fail and leaves
the parser, so also the stack, unchanged; the message of the error names the
rejected element, and it names the context when no element is open (root) or
the top is busconfig or policy. Under every other top frame (include, user,
listen, auth, limit, allow, deny) the message is exactly "Element <NAME> is
not allowed in this context", the same text in all seven contexts; as
"allowed" contains "allow", under an allow frame that text does contain the
name of the context. -/
theorem start_element_rejects_disallowed (a : Alloc) (parser : BusConfigParser)
    (element_name : String) (attributes : List (String × String))
    (h : element_name ∉ spec_allowed_children (top_element_type parser)) :
    ∃ err, bus_config_parser_start_element a parser element_name attributes =
        Outcome.failure err parser ∧
      err = failed (rejection_message (top_element_type parser) element_name) ∧
      names err element_name ∧
      (top_element_type parser = ELEMENT_NONE → names err "root") ∧
      (top_element_type parser = ELEMENT_BUSCONFIG → names err "busconfig") ∧
      (top_element_type parser = ELEMENT_POLICY → names err "policy") ∧
      (top_element_type parser ≠ ELEMENT_NONE →
        top_element_type parser ≠ ELEMENT_BUSCONFIG →
        top_element_type parser ≠ ELEMENT_POLICY →
        err = failed ("Element <" ++ element_name ++ "> is not allowed in this context")) ∧
      (top_element_type parser = ELEMENT_ALLOW → names err "allow") := by
  refine ⟨_, start_element_rejected a parser element_name attributes h, rfl,
    names_rejected _ _, ?_, ?_, ?_, ?_, ?_⟩
  · intro ht
    rw [ht]
    exact names_text_append_right _ _ _ (by decide)
  · intro ht
    rw [ht]
    exact names_text_append_left _ _ _ (names_text_append_right _ _ _ (by decide))
  · intro ht
    rw [ht]
    exact names_text_append_left _ _ _ (names_text_append_right _ _ _ (by decide))
  · intro h1 h2 h3
    cases ht : top_element_type parser <;>
      simp_all [rejection_message, msg_not_allowed_here]
  · intro ht
    rw [ht]
    exact names_text_append_right _ _ _ (by decide)

/-- Witness of C2: `<bogus>` inside `<busconfig>` is rejected with a message
naming bogus and busconfig, and the parser is left as it was. -/
theorem start_element_rejects_disallowed_witness :
    "bogus" ∉ spec_allowed_children (top_element_type
        { refcount := 1,
          stack := [{ type := ELEMENT_BUSCONFIG, had_content := false, ignore_missing := false }],
          user := none, listen_on := [] }) ∧
    ∃ err, bus_config_parser_start_element alloc_ok
        { refcount := 1,
          stack := [{ type := ELEMENT_BUSCONFIG, had_content := false, ignore_missing := false }],
          user := none, listen_on := [] } "bogus" [] =
        Outcome.failure err
          { refcount := 1,
            stack := [{ type := ELEMENT_BUSCONFIG, had_content := false, ignore_missing := false }],
            user := none, listen_on := [] } ∧
      names err "bogus" ∧ names err "busconfig" := by
  refine ⟨by decide, ?_⟩
  obtain ⟨err, h1, _, h3, _, h5, _, _, _⟩ :=
    start_element_rejects_disallowed alloc_ok
      { refcount := 1,
        stack := [{ type := ELEMENT_BUSCONFIG, had_content := false, ignore_missing := false }],
        user := none, listen_on := [] } "bogus" [] (by decide)
  exact ⟨err, h1, h3, h5 rfl⟩

/-- Counterexample to C2 as stated: with `<busconfig><user>` open, `<bogus>` is
not allowed, yet no failure of the call carries a message that names both the
rejected element and the context user: the message is "Element <bogus> is not
allowed in this context". -/
theorem start_element_rejection_counterexample :
    "bogus" ∉ spec_allowed_children (top_element_type
        { refcount := 1,
          stack := [{ type := ELEMENT_BUSCONFIG, had_content := false, ignore_missing := false },
                    { type := ELEMENT_USER, had_content := false, ignore_missing := false }],
          user := none, listen_on := [] }) ∧
    bus_config_parser_start_element alloc_ok
        { refcount := 1,
          stack := [{ type := ELEMENT_BUSCONFIG, had_content := false, ignore_missing := false },
                    { type := ELEMENT_USER, had_content := false, ignore_missing := false }],
          user := none, listen_on := [] } "bogus" [] =
      Outcome.failure (failed "Element <bogus> is not allowed in this context")
        { refcount := 1,
          stack := [{ type := ELEMENT_BUSCONFIG, had_content := false, ignore_missing := false },
                    { type := ELEMENT_USER, had_content := false, ignore_missing := false }],
          user := none, listen_on := [] } ∧
    ¬ names (failed "Element <bogus> is not allowed in this context") "user" := by
  refine ⟨by decide, by decide, by decide⟩


theorem start_element_at_busconfig (a : Alloc) (parser : BusConfigParser)
    (element_name : String) (attributes : List (String × String))
    (h : top_element_type parser = ELEMENT_BUSCONFIG) :
    bus_config_parser_start_element a parser element_name attributes =
      start_busconfig_child a parser element_name attributes := by
  simp [bus_config_parser_start_element, h]

theorem start_element_at_policy (a : Alloc) (parser : BusConfigParser)
    (element_name : String) (attributes : List (String × String))
    (h : top_element_type parser = ELEMENT_POLICY) :
    bus_config_parser_start_element a parser element_name attributes =
      start_policy_child a parser element_name attributes := by
  simp [bus_config_parser_start_element, h]

theorem locate_ignore_missing_one (v : String) :
    locate_attributes "include" [("ignore_missing", v)] "ignore_missing" [] =
      LocateResult.success [some v] := by
  simp [locate_attributes, collect_attrs, locate_loop, scan_attrs, MAX_ATTRS]

theorem start_include_eval (a : Alloc) (ha0 : a 0 = true) (ha1 : a 1 = true)
    (parser : BusConfigParser) (attributes : List (String × String)) :
    start_busconfig_child a parser "include" attributes =
      match locate_attributes "include" attributes "ignore_missing" [] with
      | LocateResult.aborted msg => Outcome.aborted msg
      | LocateResult.failure err =>
        Outcome.failure err
          { parser with
            stack := parser.stack ++
              [{ type := ELEMENT_INCLUDE, had_content := false, ignore_missing := false }] }
      | LocateResult.success retlocs =>
        match retlocs.getD 0 none with
        | none =>
          Outcome.success
            { parser with
              stack := parser.stack ++
                [{ type := ELEMENT_INCLUDE, had_content := false, ignore_missing := false }] }
        | some ignore_missing =>
          if ignore_missing = "yes" then
            Outcome.success
              { parser with
                stack := parser.stack ++
                  [{ type := ELEMENT_INCLUDE, had_content := false, ignore_missing := true }] }
          else if ignore_missing = "no" then
            Outcome.success
              { parser with
                stack := parser.stack ++
                  [{ type := ELEMENT_INCLUDE, had_content := false, ignore_missing := false }] }
          else
            Outcome.failure (failed msg_ignore_missing)
              { parser with
                stack := parser.stack ++
                  [{ type := ELEMENT_INCLUDE, had_content := false, ignore_missing := false }] } := by
  unfold start_busconfig_child
  rw [push_element_ok a ha0 ha1 parser ELEMENT_INCLUDE (by decide)]
  simp [update_top_concat, set_ignore_missing]

theorem start_policy_eval (a : Alloc) (ha0 : a 0 = true) (ha1 : a 1 = true)
    (parser : BusConfigParser) (attributes : List (String × String)) :
    start_busconfig_child a parser "policy" attributes =
      match locate_attributes "include" attributes "context" ["user", "group"] with
      | LocateResult.aborted msg => Outcome.aborted msg
      | LocateResult.failure err =>
        Outcome.failure err
          { parser with
            stack := parser.stack ++
              [{ type := ELEMENT_POLICY, had_content := false, ignore_missing := false }] }
      | LocateResult.success _ =>
        Outcome.success
          { parser with
            stack := parser.stack ++
              [{ type := ELEMENT_POLICY, had_content := false, ignore_missing := false }] } := by
  unfold start_busconfig_child
  rw [push_element_ok a ha0 ha1 parser ELEMENT_POLICY (by decide)]
  simp

theorem start_include_accepted (a : Alloc) (ha0 : a 0 = true) (ha1 : a 1 = true)
    (parser : BusConfigParser) (attributes : List (String × String))
    (htop : top_element_type parser = ELEMENT_BUSCONFIG)
    (hat : spec_include_attributes attributes) :
    ∃ im, bus_config_parser_start_element a parser "include" attributes =
      Outcome.success
        { parser with
          stack := parser.stack ++
            [{ type := ELEMENT_INCLUDE, had_content := false, ignore_missing := im }] } := by
  rw [start_element_at_busconfig a parser "include" attributes htop,
    start_include_eval a ha0 ha1]
  rcases hat with hat | hat | hat
  · subst hat
    exact ⟨false, by simp [locate_attributes, collect_attrs, locate_loop, MAX_ATTRS]⟩
  · subst hat
    exact ⟨true, by simp [locate_ignore_missing_one]⟩
  · subst hat
    exact ⟨false, by simp [locate_ignore_missing_one]⟩

theorem start_policy_accepted (a : Alloc) (ha0 : a 0 = true) (ha1 : a 1 = true)
    (parser : BusConfigParser) (attributes : List (String × String))
    (htop : top_element_type parser = ELEMENT_BUSCONFIG)
    (hat : spec_policy_attributes attributes) :
    bus_config_parser_start_element a parser "policy" attributes =
      Outcome.success
        { parser with
          stack := parser.stack ++
            [{ type := ELEMENT_POLICY, had_content := false, ignore_missing := false }] } := by
  rw [start_element_at_busconfig a parser "policy" attributes htop,
    start_policy_eval a ha0 ha1]
  obtain ⟨hnd, hmem⟩ := hat
  obtain ⟨r, hr⟩ :=
    locate_attributes_accepts "include" attributes "context" ["user", "group"]
      (by decide) (by decide)
      (fun q hq => hmem q.1 (List.mem_map.mpr ⟨q, hq, rfl⟩)) hnd
  simp [hr]

/-- C3: when the allocations of the frame succeed, every start-element call
accepted by the table of permitted transitions succeeds, and the parser it
returns differs from the one before only in the stack, which is the old stack
with exactly one frame appended, of the type named by the element and with
`had_content` false; user and listen list are unchanged. -/
theorem start_element_accepts (a : Alloc) (ha0 : a 0 = true) (ha1 : a 1 = true)
    (parser : BusConfigParser) (element_name : String)
    (attributes : List (String × String)) (type : ElementType)
    (h : spec_accepted parser element_name attributes type) :
    ∃ im, bus_config_parser_start_element a parser element_name attributes =
      Outcome.success
        { parser with
          stack := parser.stack ++
            [{ type := type, had_content := false, ignore_missing := im }] } := by
  rcases h with ⟨hs, hn, hat, ht⟩ | ⟨htop, h⟩ | ⟨htop, h⟩
  · subst hn hat ht
    refine ⟨false, ?_⟩
    unfold bus_config_parser_start_element
    simp [top_type_nil parser hs, check_no_attributes,
      push_element_ok a ha0 ha1 parser ELEMENT_BUSCONFIG (by decide)]
  · rcases h with ⟨hn, hat, ht⟩ | ⟨hn, hat, ht⟩ | ⟨hn, hat, ht⟩ | ⟨hn, hat, ht⟩
    · subst hn hat ht
      refine ⟨false, ?_⟩
      rw [start_element_at_busconfig a parser _ _ htop]
      simp [start_busconfig_child, check_no_attributes,
        push_element_ok a ha0 ha1 parser ELEMENT_USER (by decide)]
    · subst hn hat ht
      refine ⟨false, ?_⟩
      rw [start_element_at_busconfig a parser _ _ htop]
      simp [start_busconfig_child, check_no_attributes,
        push_element_ok a ha0 ha1 parser ELEMENT_LISTEN (by decide)]
    · subst hn ht
      exact start_include_accepted a ha0 ha1 parser attributes htop hat
    · subst hn ht
      exact ⟨false, start_policy_accepted a ha0 ha1 parser attributes htop hat⟩
  · rw [start_element_at_policy a parser element_name attributes htop]
    rcases h with ⟨hn, ht⟩ | ⟨hn, ht⟩
    · subst hn ht
      refine ⟨false, ?_⟩
      simp [start_policy_child, push_element_ok a ha0 ha1 parser ELEMENT_ALLOW (by decide)]
    · subst hn ht
      refine ⟨false, ?_⟩
      simp [start_policy_child, push_element_ok a ha0 ha1 parser ELEMENT_DENY (by decide)]

/-- Witness of C3: on the fresh parser `<busconfig>` without attributes is
accepted and pushes one BusConfig frame. -/
theorem start_element_accepts_witness :
    alloc_ok 0 = true ∧ alloc_ok 1 = true ∧
    spec_accepted { refcount := 1, stack := [], user := none, listen_on := [] }
      "busconfig" [] ELEMENT_BUSCONFIG ∧
    ∃ im, bus_config_parser_start_element alloc_ok
        { refcount := 1, stack := [], user := none, listen_on := [] } "busconfig" [] =
      Outcome.success
        { refcount := 1,
          stack := [{ type := ELEMENT_BUSCONFIG, had_content := false, ignore_missing := im }],
          user := none, listen_on := [] } :=
  ⟨rfl, rfl, Or.inl ⟨rfl, rfl, rfl, rfl⟩,
    start_element_accepts alloc_ok rfl rfl
      { refcount := 1, stack := [], user := none, listen_on := [] } "busconfig" []
      ELEMENT_BUSCONFIG (Or.inl ⟨rfl, rfl, rfl, rfl⟩)⟩


theorem scan_attrs_error_name (n v : String) (attrs : List LocateAttr) (found : Bool)
    (d : String) (h : scan_attrs n v attrs found = Except.error d) : d = n := by
  induction attrs generalizing found with
  | nil => simp [scan_attrs] at h
  | cons a rest ih =>
    unfold scan_attrs at h
    by_cases ha : a.name = n
    · simp only [ha, if_true] at h
      cases hr : a.retloc with
      | some w =>
        simp only [hr] at h
        injection h with h
        exact h.symm
      | none =>
        simp only [hr] at h
        cases hs : scan_attrs n v rest true with
        | error d2 =>
          simp only [hs] at h
          injection h with h
          subst h
          exact ih true hs
        | ok r => simp [hs] at h
    · simp only [ha, if_false] at h
      cases hs : scan_attrs n v rest found with
      | error d2 =>
        simp only [hs] at h
        injection h with h
        subst h
        exact ih found hs
      | ok r => simp [hs] at h

theorem locate_loop_failure_form (el : String) (present : List (String × String))
    (attrs : List LocateAttr) (err : DBusError)
    (h : locate_loop el present attrs = LocateResult.failure err) :
    ∃ attr ∈ present.map Prod.fst, attribute_error err attr := by
  induction present generalizing attrs with
  | nil => simp [locate_loop] at h
  | cons q rest ih =>
    rcases q with ⟨n, v⟩
    unfold locate_loop at h
    cases hs : scan_attrs n v attrs false with
    | error d =>
      simp only [hs] at h
      injection h with h
      have hd := scan_attrs_error_name n v attrs false d hs
      subst hd
      exact ⟨d, by simp, el, Or.inr h.symm⟩
    | ok r =>
      rcases r with ⟨found, attrs1⟩
      simp only [hs] at h
      cases found
      · simp only [Bool.false_eq_true, if_false] at h
        injection h with h
        exact ⟨n, by simp, el, Or.inl h.symm⟩
      · simp only [if_true] at h
        obtain ⟨attr, hmem, hattr⟩ := ih attrs1 h
        exact ⟨attr, by simp only [List.map_cons]; exact List.mem_cons_of_mem _ hmem, hattr⟩

theorem locate_attributes_failure_form (el : String) (present : List (String × String))
    (first : String) (more : List String) (err : DBusError)
    (h : locate_attributes el present first more = LocateResult.failure err) :
    ∃ attr ∈ present.map Prod.fst, attribute_error err attr := by
  unfold locate_attributes at h
  cases hc : collect_attrs more [{ name := first, retloc := none }] with
  | none => simp [hc] at h
  | some attrs =>
    simp only [hc] at h
    exact locate_loop_failure_form el present attrs err h

theorem locate_attributes_rejects (el : String) (present : List (String × String))
    (first : String) (more : List String)
    (hnd : (first :: more).Nodup) (hlen : (first :: more).length ≤ 24)
    (hbad : (∃ q ∈ present, q.1 ∉ first :: more) ∨ ¬ (present.map Prod.fst).Nodup) :
    ∃ err, locate_attributes el present first more = LocateResult.failure err ∧
      ∃ attr ∈ present.map Prod.fst, attribute_error err attr := by
  obtain ⟨err, herr⟩ := locate_attributes_refuses el present first more hnd hlen hbad
  exact ⟨err, herr, locate_attributes_failure_form el present first more err herr⟩

theorem check_no_attributes_rejects (el : String) (attributes : List (String × String))
    (h : attributes ≠ []) :
    ∃ err, check_no_attributes el attributes = some err ∧
      ∃ attr ∈ attributes.map Prod.fst, attribute_error err attr := by
  cases attributes with
  | nil => exact absurd rfl h
  | cons q rest =>
    rcases q with ⟨n, v⟩
    exact ⟨_, rfl, n, by simp, el, Or.inl rfl⟩

/-- C7: a start-element call that opens busconfig, user, listen, include or
policy where that element is allowed, with an attribute outside the
element's allow-list or with an attribute name given twice, fails under every
allocation outcome, and when the allocations of the frame succeed its error is
an attribute error (invalid or repeated attribute) about one of the
attributes given. -/
theorem start_element_rejects_bad_attributes (a : Alloc) (parser : BusConfigParser)
    (element_name : String) (attributes : List (String × String))
    (hopen : spec_opens parser element_name)
    (hbad : (∃ q ∈ attributes, q.1 ∉ spec_attribute_allow_list element_name) ∨
      ¬ (attributes.map Prod.fst).Nodup) :
    ∃ err p, bus_config_parser_start_element a parser element_name attributes =
        Outcome.failure err p ∧
      (a 0 = true → a 1 = true →
        ∃ attr ∈ attributes.map Prod.fst, attribute_error err attr) := by
  have hne : attributes ≠ [] := by
    rintro rfl
    simp at hbad
  rcases hopen with ⟨htop, hn⟩ | ⟨htop, hn⟩
  · subst hn
    obtain ⟨err, herr, hattr⟩ := check_no_attributes_rejects "busconfig" attributes hne
    exact ⟨err, parser, by simp [bus_config_parser_start_element, htop, herr],
      fun _ _ => hattr⟩
  · rw [start_element_at_busconfig a parser element_name attributes htop]
    simp only [List.mem_cons, List.mem_singleton, List.not_mem_nil, or_false] at hn
    rcases hn with hn | hn | hn | hn
    · subst hn
      obtain ⟨err, herr, hattr⟩ := check_no_attributes_rejects "user" attributes hne
      exact ⟨err, parser, by simp [start_busconfig_child, herr], fun _ _ => hattr⟩
    · subst hn
      obtain ⟨err, herr, hattr⟩ := check_no_attributes_rejects "listen" attributes hne
      exact ⟨err, parser, by simp [start_busconfig_child, herr], fun _ _ => hattr⟩
    · subst hn
      obtain ⟨err, herr, hattr⟩ :=
        locate_attributes_rejects "include" attributes "ignore_missing" []
          (by decide) (by decide) (by simpa [spec_attribute_allow_list] using hbad)
      by_cases ha : a 0 = true ∧ a 1 = true
      · exact ⟨err, _, by rw [start_include_eval a ha.1 ha.2, herr], fun _ _ => hattr⟩
      · refine ⟨no_memory, parser, ?_, fun h0 h1 => absurd ⟨h0, h1⟩ ha⟩
        unfold start_busconfig_child push_element
        by_cases h0 : a 0 = true
        · have h1 : a 1 = false := by
            cases h : a 1
            · rfl
            · exact absurd ⟨h0, h⟩ ha
          simp [h0, h1]
        · simp [h0]
    · subst hn
      obtain ⟨err, herr, hattr⟩ :=
        locate_attributes_rejects "include" attributes "context" ["user", "group"]
          (by decide) (by decide) (by simpa [spec_attribute_allow_list] using hbad)
      by_cases ha : a 0 = true ∧ a 1 = true
      · exact ⟨err, _, by rw [start_policy_eval a ha.1 ha.2, herr], fun _ _ => hattr⟩
      · refine ⟨no_memory, parser, ?_, fun h0 h1 => absurd ⟨h0, h1⟩ ha⟩
        unfold start_busconfig_child push_element
        by_cases h0 : a 0 = true
        · have h1 : a 1 = false := by
            cases h : a 1
            · rfl
            · exact absurd ⟨h0, h⟩ ha
          simp [h0, h1]
        · simp [h0]


/-- Witness of C7: `<include bogus="1">` inside `<busconfig>` fails with an
attribute error about bogus. -/
theorem start_element_rejects_bad_attributes_witness :
    spec_opens
      { refcount := 1,
        stack := [{ type := ELEMENT_BUSCONFIG, had_content := false, ignore_missing := false }],
        user := none, listen_on := [] } "include" ∧
    ∃ err p, bus_config_parser_start_element alloc_ok
        { refcount := 1,
          stack := [{ type := ELEMENT_BUSCONFIG, had_content := false, ignore_missing := false }],
          user := none, listen_on := [] } "include" [("bogus", "1")] =
        Outcome.failure err p ∧
      ∃ attr ∈ ["bogus"], attribute_error err attr := by
  refine ⟨Or.inr ⟨rfl, by decide⟩, ?_⟩
  obtain ⟨err, p, h, hattr⟩ :=
    start_element_rejects_bad_attributes alloc_ok
      { refcount := 1,
        stack := [{ type := ELEMENT_BUSCONFIG, had_content := false, ignore_missing := false }],
        user := none, listen_on := [] } "include" [("bogus", "1")]
      (Or.inr ⟨rfl, by decide⟩) (Or.inl ⟨("bogus", "1"), by decide, by decide⟩)
  exact ⟨err, p, h, hattr rfl rfl⟩

/-- C8 (the code at the failing inputs): inside `<busconfig>`, `<include>` with
an unknown attribute, `<include>` with `ignore_missing="maybe"` and `<policy>`
with a repeated attribute all fail because of their attributes, and each
leaves the frame of the element on the stack, because `start_busconfig_child`
pushes the frame before it binds the attributes; `<user>` with an attribute,
whose branch checks the attributes first, fails with the stack unchanged. -/
theorem start_element_attribute_failure_keeps_frame :
    bus_config_parser_start_element alloc_ok
        { refcount := 1,
          stack := [{ type := ELEMENT_BUSCONFIG, had_content := false, ignore_missing := false }],
          user := none, listen_on := [] } "include" [("bogus", "1")] =
      Outcome.failure (failed (msg_invalid "bogus" "include"))
        { refcount := 1,
          stack := [{ type := ELEMENT_BUSCONFIG, had_content := false, ignore_missing := false },
                    { type := ELEMENT_INCLUDE, had_content := false, ignore_missing := false }],
          user := none, listen_on := [] } ∧
    bus_config_parser_start_element alloc_ok
        { refcount := 1,
          stack := [{ type := ELEMENT_BUSCONFIG, had_content := false, ignore_missing := false }],
          user := none, listen_on := [] } "include" [("ignore_missing", "maybe")] =
      Outcome.failure (failed msg_ignore_missing)
        { refcount := 1,
          stack := [{ type := ELEMENT_BUSCONFIG, had_content := false, ignore_missing := false },
                    { type := ELEMENT_INCLUDE, had_content := false, ignore_missing := false }],
          user := none, listen_on := [] } ∧
    bus_config_parser_start_element alloc_ok
        { refcount := 1,
          stack := [{ type := ELEMENT_BUSCONFIG, had_content := false, ignore_missing := false }],
          user := none, listen_on := [] } "policy" [("user", "a"), ("user", "b")] =
      Outcome.failure (failed (msg_repeated "user" "include"))
        { refcount := 1,
          stack := [{ type := ELEMENT_BUSCONFIG, had_content := false, ignore_missing := false },
                    { type := ELEMENT_POLICY, had_content := false, ignore_missing := false }],
          user := none, listen_on := [] } ∧
    bus_config_parser_start_element alloc_ok
        { refcount := 1,
          stack := [{ type := ELEMENT_BUSCONFIG, had_content := false, ignore_missing := false }],
          user := none, listen_on := [] } "user" [("bogus", "1")] =
      Outcome.failure (failed (msg_invalid "bogus" "user"))
        { refcount := 1,
          stack := [{ type := ELEMENT_BUSCONFIG, had_content := false, ignore_missing := false }],
          user := none, listen_on := [] } := by
  refine ⟨by decide, by decide, by decide, by decide⟩

/-- C9: for `<include>` opened inside `<busconfig>`, the allocations of the frame
succeeding: without attributes the pushed Include frame has `ignore_missing`
false, with `ignore_missing="yes"` it has it true, with `ignore_missing="no"`
false, and with any other value of `ignore_missing` the call fails with the
invalid-value error. -/
theorem include_ignore_missing_values (a : Alloc) (ha0 : a 0 = true) (ha1 : a 1 = true)
    (parser : BusConfigParser) (htop : top_element_type parser = ELEMENT_BUSCONFIG) :
    bus_config_parser_start_element a parser "include" [] =
      Outcome.success
        { parser with
          stack := parser.stack ++
            [{ type := ELEMENT_INCLUDE, had_content := false, ignore_missing := false }] } ∧
    bus_config_parser_start_element a parser "include" [("ignore_missing", "yes")] =
      Outcome.success
        { parser with
          stack := parser.stack ++
            [{ type := ELEMENT_INCLUDE, had_content := false, ignore_missing := true }] } ∧
    bus_config_parser_start_element a parser "include" [("ignore_missing", "no")] =
      Outcome.success
        { parser with
          stack := parser.stack ++
            [{ type := ELEMENT_INCLUDE, had_content := false, ignore_missing := false }] } ∧
    ∀ v : String, v ≠ "yes" → v ≠ "no" →
      ∃ p, bus_config_parser_start_element a parser "include" [("ignore_missing", v)] =
        Outcome.failure (failed msg_ignore_missing) p := by
  refine ⟨?_, ?_, ?_, ?_⟩
  · rw [start_element_at_busconfig a parser _ _ htop, start_include_eval a ha0 ha1]
    simp [locate_attributes, collect_attrs, locate_loop, MAX_ATTRS]
  · rw [start_element_at_busconfig a parser _ _ htop, start_include_eval a ha0 ha1]
    simp [locate_ignore_missing_one]
  · rw [start_element_at_busconfig a parser _ _ htop, start_include_eval a ha0 ha1]
    simp [locate_ignore_missing_one]
  · intro v hy hn
    rw [start_element_at_busconfig a parser _ _ htop, start_include_eval a ha0 ha1]
    refine ⟨{ parser with
      stack := parser.stack ++
        [{ type := ELEMENT_INCLUDE, had_content := false, ignore_missing := false }] }, ?_⟩
    simp [locate_ignore_missing_one, hy, hn]

/-- Witness of C9: directly inside `<busconfig>`, `ignore_missing="yes"` gives
an Include frame with `ignore_missing` true, and the values maybe, YES and the
empty string are rejected with the invalid-value error. -/
theorem include_ignore_missing_values_witness :
    alloc_ok 0 = true ∧ alloc_ok 1 = true ∧
    top_element_type
      { refcount := 1,
        stack := [{ type := ELEMENT_BUSCONFIG, had_content := false, ignore_missing := false }],
        user := none, listen_on := [] } = ELEMENT_BUSCONFIG ∧
    bus_config_parser_start_element alloc_ok
        { refcount := 1,
          stack := [{ type := ELEMENT_BUSCONFIG, had_content := false, ignore_missing := false }],
          user := none, listen_on := [] } "include" [("ignore_missing", "yes")] =
      Outcome.success
        { refcount := 1,
          stack := [{ type := ELEMENT_BUSCONFIG, had_content := false, ignore_missing := false },
                    { type := ELEMENT_INCLUDE, had_content := false, ignore_missing := true }],
          user := none, listen_on := [] } ∧
    (∃ p, bus_config_parser_start_element alloc_ok
        { refcount := 1,
          stack := [{ type := ELEMENT_BUSCONFIG, had_content := false, ignore_missing := false }],
          user := none, listen_on := [] } "include" [("ignore_missing", "maybe")] =
      Outcome.failure (failed msg_ignore_missing) p) ∧
    (∃ p, bus_config_parser_start_element alloc_ok
        { refcount := 1,
          stack := [{ type := ELEMENT_BUSCONFIG, had_content := false, ignore_missing := false }],
          user := none, listen_on := [] } "include" [("ignore_missing", "YES")] =
      Outcome.failure (failed msg_ignore_missing) p) ∧
    (∃ p, bus_config_parser_start_element alloc_ok
        { refcount := 1,
          stack := [{ type := ELEMENT_BUSCONFIG, had_content := false, ignore_missing := false }],
          user := none, listen_on := [] } "include" [("ignore_missing", "")] =
      Outcome.failure (failed msg_ignore_missing) p) := by
  have h := include_ignore_missing_values alloc_ok rfl rfl
    { refcount := 1,
      stack := [{ type := ELEMENT_BUSCONFIG, had_content := false, ignore_missing := false }],
      user := none, listen_on := [] } rfl
  exact ⟨rfl, rfl, rfl, h.2.1, h.2.2.2 "maybe" (by decide) (by decide),
    h.2.2.2 "YES" (by decide) (by decide), h.2.2.2 "" (by decide) (by decide)⟩


/-! ### Documents of the grammar -/

theorem run_events_append (load : String → Except DBusError BusConfigParser) (a : Alloc)
    (p : BusConfigParser) (es1 es2 : List Event) :
    run_events load a p (es1 ++ es2) =
      match run_events load a p es1 with
      | Outcome.success q => run_events load a q es2
      | other => other := by
  induction es1 generalizing p with
  | nil => simp [run_events]
  | cons ev rest ih =>
    simp only [List.cons_append, run_events]
    cases h : apply_event load a p ev with
    | success q => simp [ih]
    | failure err q => simp
    | aborted msg => simp

theorem run_events_append_success (load : String → Except DBusError BusConfigParser)
    (a : Alloc) (p q : BusConfigParser) (es1 es2 : List Event)
    (h : run_events load a p es1 = Outcome.success q) :
    run_events load a p (es1 ++ es2) = run_events load a q es2 := by
  rw [run_events_append, h]

theorem content_blank (load : String → Except DBusError BusConfigParser) (a : Alloc)
    (p : BusConfigParser) (xs : List Element) (e : Element) (text : String)
    (hs : p.stack = xs ++ [e]) (hc : e.had_content = false)
    (ht : e.type = ELEMENT_BUSCONFIG ∨ e.type = ELEMENT_POLICY ∨ e.type = ELEMENT_LIMIT ∨
      e.type = ELEMENT_ALLOW ∨ e.type = ELEMENT_DENY)
    (hw : all_whitespace text = true) :
    bus_config_parser_content load a p text = Outcome.success p := by
  unfold bus_config_parser_content
  rw [peek_concat p xs e hs, top_type_concat p xs e hs]
  rcases ht with ht | ht | ht | ht | ht <;> simp [hc, ht, hw]

theorem run_blanks (load : String → Except DBusError BusConfigParser) (a : Alloc)
    (p : BusConfigParser) (xs : List Element) (e : Element) (blanks : List String)
    (hs : p.stack = xs ++ [e]) (hc : e.had_content = false)
    (ht : e.type = ELEMENT_BUSCONFIG ∨ e.type = ELEMENT_POLICY ∨ e.type = ELEMENT_LIMIT ∨
      e.type = ELEMENT_ALLOW ∨ e.type = ELEMENT_DENY)
    (hw : blanks.all all_whitespace = true) :
    run_events load a p (blanks.map Event.content) = Outcome.success p := by
  induction blanks with
  | nil => simp [run_events]
  | cons text rest ih =>
    simp only [List.all_cons, Bool.and_eq_true] at hw
    simp only [List.map_cons, run_events, apply_event,
      content_blank load a p xs e text hs hc ht hw.1]
    exact ih hw.2

theorem pop_pushed (p : BusConfigParser) (e : Element) :
    pop_element { p with stack := p.stack ++ [e] } = p := by
  cases p
  simp [pop_element]

theorem run_policy_item (load : String → Except DBusError BusConfigParser)
    (p : BusConfigParser) (xs : List Element) (e : Element) (item : PolicyItem)
    (hs : p.stack = xs ++ [e]) (hc : e.had_content = false) (ht : e.type = ELEMENT_POLICY)
    (hg : item.grammatical = true) :
    run_events load alloc_ok p item.events = Outcome.success p := by
  have htop : top_element_type p = ELEMENT_POLICY := by rw [top_type_concat p xs e hs, ht]
  cases item with
  | blank text =>
    simp only [PolicyItem.events, run_events, apply_event]
    rw [content_blank load alloc_ok p xs e text hs hc (Or.inr (Or.inl ht)) hg]
  | allow_item attributes blanks =>
    simp only [PolicyItem.events, run_events, apply_event]
    rw [start_element_at_policy alloc_ok p _ _ htop]
    simp only [start_policy_child, if_true,
      push_element_ok alloc_ok rfl rfl p ELEMENT_ALLOW (by decide)]
    rw [run_events_append_success load alloc_ok _ _ _ _
      (run_blanks load alloc_ok _ p.stack _ blanks rfl rfl (Or.inr (Or.inr (Or.inr (Or.inl rfl)))) hg)]
    simp only [run_events, apply_event]
    rw [end_element_concat _ "allow" p.stack _ rfl]
    simp [element_type_to_name, needs_content, pop_pushed]
  | deny_item attributes blanks =>
    simp only [PolicyItem.events, run_events, apply_event]
    rw [start_element_at_policy alloc_ok p _ _ htop]
    have hstart : start_policy_child alloc_ok p "deny" attributes =
        Outcome.success
          { p with
            stack := p.stack ++
              [{ type := ELEMENT_DENY, had_content := false, ignore_missing := false }] } := by
      simp [start_policy_child, push_element_ok alloc_ok rfl rfl p ELEMENT_DENY (by decide)]
    rw [hstart]
    simp only []
    rw [run_events_append_success load alloc_ok _ _ _ _
      (run_blanks load alloc_ok _ p.stack _ blanks rfl rfl (Or.inr (Or.inr (Or.inr (Or.inr rfl)))) hg)]
    simp only [run_events, apply_event]
    rw [end_element_concat _ "deny" p.stack _ rfl]
    simp [element_type_to_name, needs_content, pop_pushed]

theorem run_policy_items (load : String → Except DBusError BusConfigParser)
    (p : BusConfigParser) (xs : List Element) (e : Element) (items : List PolicyItem)
    (hs : p.stack = xs ++ [e]) (hc : e.had_content = false) (ht : e.type = ELEMENT_POLICY)
    (hg : items.all PolicyItem.grammatical = true) :
    run_events load alloc_ok p (items.flatMap PolicyItem.events) = Outcome.success p := by
  induction items with
  | nil => simp [run_events]
  | cons item rest ih =>
    simp only [List.all_cons, Bool.and_eq_true] at hg
    simp only [List.flatMap_cons]
    rw [run_events_append_success load alloc_ok _ _ _ _
      (run_policy_item load p xs e item hs hc ht hg.1)]
    exact ih hg.2


theorem content_user (load : String → Except DBusError BusConfigParser)
    (p : BusConfigParser) (xs : List Element) (f : Element) (text : String)
    (hs : p.stack = xs ++ [f]) (hc : f.had_content = false) (ht : f.type = ELEMENT_USER) :
    bus_config_parser_content load alloc_ok p text =
      Outcome.success { p with stack := xs ++ [set_had_content f], user := some text } := by
  unfold bus_config_parser_content
  rw [peek_concat p xs f hs, top_type_concat p xs f hs]
  simp [hc, ht, hs, update_top_concat, alloc_ok]

theorem content_listen (load : String → Except DBusError BusConfigParser)
    (p : BusConfigParser) (xs : List Element) (f : Element) (text : String)
    (hs : p.stack = xs ++ [f]) (hc : f.had_content = false) (ht : f.type = ELEMENT_LISTEN) :
    bus_config_parser_content load alloc_ok p text =
      Outcome.success
        { p with stack := xs ++ [set_had_content f], listen_on := p.listen_on ++ [text] } := by
  unfold bus_config_parser_content
  rw [peek_concat p xs f hs, top_type_concat p xs f hs]
  simp [hc, ht, hs, update_top_concat, alloc_ok]

theorem content_include_loaded (load : String → Except DBusError BusConfigParser) (a : Alloc)
    (p : BusConfigParser) (xs : List Element) (f : Element) (path : String)
    (included : BusConfigParser)
    (hs : p.stack = xs ++ [f]) (hc : f.had_content = false) (ht : f.type = ELEMENT_INCLUDE)
    (hl : load path = Except.ok included) :
    bus_config_parser_content load a p path =
      Outcome.success
        { p with
          stack := xs ++ [set_had_content f],
          user := included.user.or p.user,
          listen_on := p.listen_on ++ included.listen_on } := by
  unfold bus_config_parser_content
  rw [peek_concat p xs f hs, top_type_concat p xs f hs]
  cases hu : included.user <;>
    simp [hc, ht, hs, hl, update_top_concat, merge_included, move_links_eq, hu]

theorem run_bus_item (load : String → Except DBusError BusConfigParser)
    (p : BusConfigParser) (xs : List Element) (e : Element) (item : BusItem)
    (hs : p.stack = xs ++ [e]) (hc : e.had_content = false) (ht : e.type = ELEMENT_BUSCONFIG)
    (hg : item.grammatical = true)
    (hl : ∀ im path, item = BusItem.include_item im path → ∃ c, load path = Except.ok c) :
    run_events load alloc_ok p item.events =
      Outcome.success
        { p with
          user := (spec_user_of load item).or p.user,
          listen_on := p.listen_on ++ spec_listen_of load item } := by
  have htop : top_element_type p = ELEMENT_BUSCONFIG := by rw [top_type_concat p xs e hs, ht]
  cases item with
  | blank text =>
    simp only [BusItem.events, run_events, apply_event]
    rw [content_blank load alloc_ok p xs e text hs hc (Or.inl ht) hg]
    cases p
    simp [spec_user_of, spec_listen_of]
  | user_item text =>
    simp only [BusItem.events, run_events, apply_event]
    rw [start_element_at_busconfig alloc_ok p _ _ htop]
    have hstart : start_busconfig_child alloc_ok p "user" [] =
        Outcome.success
          { p with
            stack := p.stack ++
              [{ type := ELEMENT_USER, had_content := false, ignore_missing := false }] } := by
      simp [start_busconfig_child, check_no_attributes,
        push_element_ok alloc_ok rfl rfl p ELEMENT_USER (by decide)]
    rw [hstart]
    simp only []
    rw [content_user load _ p.stack _ text rfl rfl rfl]
    simp only []
    rw [end_element_concat _ "user" p.stack (set_had_content _) rfl]
    cases p
    simp [element_type_to_name, needs_content, set_had_content, pop_element, spec_user_of,
      spec_listen_of]
  | listen_item text =>
    simp only [BusItem.events, run_events, apply_event]
    rw [start_element_at_busconfig alloc_ok p _ _ htop]
    have hstart : start_busconfig_child alloc_ok p "listen" [] =
        Outcome.success
          { p with
            stack := p.stack ++
              [{ type := ELEMENT_LISTEN, had_content := false, ignore_missing := false }] } := by
      simp [start_busconfig_child, check_no_attributes,
        push_element_ok alloc_ok rfl rfl p ELEMENT_LISTEN (by decide)]
    rw [hstart]
    simp only []
    rw [content_listen load _ p.stack _ text rfl rfl rfl]
    simp only []
    rw [end_element_concat _ "listen" p.stack (set_had_content _) rfl]
    cases p
    simp [element_type_to_name, needs_content, set_had_content, pop_element, spec_user_of,
      spec_listen_of]
  | include_item ignore_missing path =>
    obtain ⟨c, hc2⟩ := hl ignore_missing path rfl
    simp only [BusItem.events, run_events, apply_event]
    have hat : spec_include_attributes (include_attributes ignore_missing) := by
      rcases ignore_missing with _ | b
      · exact Or.inl rfl
      · cases b
        · exact Or.inr (Or.inr rfl)
        · exact Or.inr (Or.inl rfl)
    obtain ⟨im, hstart⟩ := start_include_accepted alloc_ok rfl rfl p
      (include_attributes ignore_missing) htop hat
    rw [hstart]
    simp only []
    rw [content_include_loaded load alloc_ok _ p.stack _ path c rfl rfl rfl hc2]
    simp only []
    rw [end_element_concat _ "include" p.stack (set_had_content _) rfl]
    cases p
    simp [element_type_to_name, needs_content, set_had_content, pop_element, spec_user_of,
      spec_listen_of, hc2]
  | policy_item attributes children =>
    simp only [BusItem.grammatical, Bool.and_eq_true, decide_eq_true_eq] at hg
    simp only [BusItem.events, run_events, apply_event]
    rw [start_policy_accepted alloc_ok rfl rfl p attributes htop hg.1]
    simp only []
    rw [run_events_append_success load alloc_ok _ _ _ _
      (run_policy_items load _ p.stack _ children rfl rfl rfl hg.2)]
    simp only [run_events, apply_event]
    rw [end_element_concat _ "policy" p.stack _ rfl]
    cases p
    simp [element_type_to_name, needs_content, pop_element, spec_user_of, spec_listen_of]

theorem spec_user_cons (load : String → Except DBusError BusConfigParser) (item : BusItem)
    (rest : List BusItem) :
    spec_user load (item :: rest) = (spec_user load rest).or (spec_user_of load item) := by
  unfold spec_user
  rw [List.filterMap_cons]
  cases h : spec_user_of load item with
  | none => simp
  | some u =>
    simp only []
    rw [← List.singleton_append, List.getLast?_append]
    simp

theorem run_bus_items (load : String → Except DBusError BusConfigParser)
    (p : BusConfigParser) (xs : List Element) (e : Element) (items : List BusItem)
    (hs : p.stack = xs ++ [e]) (hc : e.had_content = false) (ht : e.type = ELEMENT_BUSCONFIG)
    (hg : ∀ item ∈ items, item.grammatical = true)
    (hl : ∀ im path, BusItem.include_item im path ∈ items → ∃ c, load path = Except.ok c) :
    run_events load alloc_ok p (items.flatMap BusItem.events) =
      Outcome.success
        { p with
          user := (spec_user load items).or p.user,
          listen_on := p.listen_on ++ spec_listen load items } := by
  induction items generalizing p with
  | nil =>
    cases p
    simp [run_events, spec_user, spec_listen]
  | cons item rest ih =>
    simp only [List.flatMap_cons]
    rw [run_events_append_success load alloc_ok _ _ _ _
      (run_bus_item load p xs e item hs hc ht (hg item (List.mem_cons_self _ _))
        (fun im path hi => hl im path (hi ▸ List.mem_cons_self _ _)))]
    rw [ih { p with
        user := (spec_user_of load item).or p.user,
        listen_on := p.listen_on ++ spec_listen_of load item } hs
      (fun it hit => hg it (List.mem_cons_of_mem _ hit))
      (fun im path hi => hl im path (List.mem_cons_of_mem _ hi))]
    simp [spec_user_cons, spec_listen, Option.or_assoc]

/-- C1: for every document of the grammar whose includes all load, a parser
created by `bus_config_parser_new` and driven through the events of the
document succeeds on every event, `bus_config_parser_finished` succeeds, the
final user is the last value in document order among the `<user>` texts and
the set users of the included children (unset if there is none), and the
final listen list is the concatenation in document order of every `<listen>`
text and of the listen list of every included child. -/
theorem document_load_result (load : String → Except DBusError BusConfigParser)
    (items : List BusItem)
    (hg : ∀ item ∈ items, item.grammatical = true)
    (hl : ∀ im path, BusItem.include_item im path ∈ items → ∃ c, load path = Except.ok c) :
    ∃ p0 p, bus_config_parser_new alloc_ok = some p0 ∧
      run_events load alloc_ok p0 (document_events items) = Outcome.success p ∧
      bus_config_parser_finished p = Outcome.success p ∧
      bus_config_parser_get_user p = spec_user load items ∧
      p.listen_on = spec_listen load items := by
  refine ⟨{ refcount := 1, stack := [], user := none, listen_on := [] },
    { refcount := 1, stack := [], user := spec_user load items,
      listen_on := spec_listen load items }, rfl, ?_, rfl, rfl, rfl⟩
  simp only [document_events, run_events, apply_event]
  have hstart : bus_config_parser_start_element alloc_ok
      { refcount := 1, stack := [], user := none, listen_on := [] } "busconfig" [] =
      Outcome.success
        { refcount := 1,
          stack := [{ type := ELEMENT_BUSCONFIG, had_content := false, ignore_missing := false }],
          user := none, listen_on := [] } := by decide
  rw [hstart]
  simp only []
  rw [run_events_append_success load alloc_ok _ _ _ _
    (run_bus_items load _ [] _ items rfl rfl rfl hg hl)]
  simp only [run_events, apply_event]
  rw [end_element_concat _ "busconfig" [] _ rfl]
  simp [element_type_to_name, needs_content, pop_element, Option.or_none]

/-- Witness of C1: `<busconfig><user>messagebus</user><listen>unix:path=/tmp/x</listen></busconfig>`
gives the user messagebus and the listen list holding unix:path=/tmp/x. -/
theorem document_load_result_witness :
    ∃ p, run_events (fun _ => Except.error (failed "no file")) alloc_ok
        { refcount := 1, stack := [], user := none, listen_on := [] }
        (document_events
          [BusItem.user_item "messagebus", BusItem.listen_item "unix:path=/tmp/x"]) =
        Outcome.success p ∧
      bus_config_parser_finished p = Outcome.success p ∧
      bus_config_parser_get_user p = some "messagebus" ∧
      p.listen_on = ["unix:path=/tmp/x"] := by
  obtain ⟨p0, p, h0, h1, h2, h3, h4⟩ :=
    document_load_result (fun _ => Except.error (failed "no file"))
      [BusItem.user_item "messagebus", BusItem.listen_item "unix:path=/tmp/x"]
      (by decide) (by simp)
  have hp0 : p0 = { refcount := 1, stack := [], user := none, listen_on := [] } := by
    simp [bus_config_parser_new, alloc_ok] at h0
    exact h0.symm
  subst hp0
  exact ⟨p, h1, h2, by rw [h3]; rfl, by rw [h4]; rfl⟩


/-! ### The include merge: the user -/

/-- C11: `merge_included` succeeds; when the user of the child was set, the user
of the parent afterwards is that value and the user of the child is unset;
when the user of the child was unset, the user of the parent is what it was;
the element stack of the parent is unchanged in both cases. -/
theorem merge_included_user (parser included : BusConfigParser) :
    ∃ p c, merge_included parser included = Outcome.success (p, c) ∧
      (∀ u, included.user = some u → p.user = some u ∧ c.user = none) ∧
      (included.user = none → p.user = parser.user) ∧
      p.stack = parser.stack := by
  refine ⟨_, _, rfl, ?_, ?_, ?_⟩
  · intro u hu
    simp [hu]
  · intro hu
    simp [hu]
  · cases hu : included.user <;> simp

/-! ### End of the event stream and the doctype -/

/-- C17: `bus_config_parser_finished` succeeds exactly when the element stack is
empty; when it fails the parser is unchanged and the message of the error is
"Element <NAME> was not closed in configuration file", NAME being the
element name of the type of the top (last pushed) frame, so the message names
the innermost element that is still open. -/
theorem finished_iff_stack_empty (parser : BusConfigParser) :
    ((∃ p, bus_config_parser_finished parser = Outcome.success p) ↔ parser.stack = []) ∧
    (∀ p, bus_config_parser_finished parser = Outcome.success p → p = parser) ∧
    ((¬ parser.stack = []) →
      ∃ err, bus_config_parser_finished parser = Outcome.failure err parser ∧
        err = failed ("Element <" ++
          fmt_s (element_type_to_name (top_element_type parser)) ++
          "> was not closed in configuration file") ∧
        ∀ e n, peek_element parser = some e → element_type_to_name e.type = some n →
          names err n) := by
  by_cases h : parser.stack = []
  · simp [bus_config_parser_finished, h]
  · refine ⟨by simp [bus_config_parser_finished, h],
      by simp [bus_config_parser_finished, h], fun _ => ⟨_, ?_, rfl, ?_⟩⟩
    · simp [bus_config_parser_finished, h]
    · intro e n he hn
      have htop : top_element_type parser = e.type := by
        simp only [peek_element] at he
        simp [top_element_type, he]
      rw [htop, hn]
      exact names_text_mid _ _ _

/-- C18: `bus_config_parser_check_doctype` succeeds exactly when the doctype is
the text busconfig (the comparison is exact, so case and surrounding
whitespace matter); otherwise it fails with an error whose message contains
the doctype given; the parser is returned as it was in both cases. -/
theorem check_doctype_iff (parser : BusConfigParser) (doctype : String) :
    ((∃ p, bus_config_parser_check_doctype parser doctype = Outcome.success p) ↔
      doctype = "busconfig") ∧
    (∀ p, bus_config_parser_check_doctype parser doctype = Outcome.success p → p = parser) ∧
    ((¬ doctype = "busconfig") →
      bus_config_parser_check_doctype parser doctype =
          Outcome.failure (failed (msg_wrong_doctype doctype)) parser ∧
        names (failed (msg_wrong_doctype doctype)) doctype) := by
  by_cases h : doctype = "busconfig"
  · simp [bus_config_parser_check_doctype, h]
  · refine ⟨by simp [bus_config_parser_check_doctype, h],
      by simp [bus_config_parser_check_doctype, h], fun _ => ⟨?_, ?_⟩⟩
    · simp [bus_config_parser_check_doctype, h]
    · exact names_text_append_right _ _ _ ⟨[], [], by simp⟩


/-! ### Text content -/

theorem content_include_load_failed (load : String → Except DBusError BusConfigParser)
    (a : Alloc) (p : BusConfigParser) (xs : List Element) (f : Element) (path : String)
    (err : DBusError)
    (hs : p.stack = xs ++ [f]) (hc : f.had_content = false) (ht : f.type = ELEMENT_INCLUDE)
    (hl : load path = Except.error err) :
    bus_config_parser_content load a p path =
      if err.name = DBUS_ERROR_FILE_NOT_FOUND ∧ f.ignore_missing = true then
        Outcome.success { p with stack := xs ++ [set_had_content f] }
      else Outcome.failure err { p with stack := xs ++ [set_had_content f] } := by
  unfold bus_config_parser_content
  rw [peek_concat p xs f hs, top_type_concat p xs f hs]
  simp [hc, ht, hs, hl, update_top_concat]

/-- C13: when the top frame is an Include that has had no content and the nested
load of the path fails with the file-not-found error: with `ignore_missing`
true `bus_config_parser_content` succeeds, user and listen list are as before
(nothing is merged), the Include frame has `had_content` true and the
following end-element of include succeeds and removes the frame; with
`ignore_missing` false the call fails with that error. -/
theorem content_include_missing_file (load : String → Except DBusError BusConfigParser)
    (a : Alloc) (p : BusConfigParser) (xs : List Element) (f : Element) (path : String)
    (err : DBusError)
    (hs : p.stack = xs ++ [f]) (hc : f.had_content = false) (ht : f.type = ELEMENT_INCLUDE)
    (hl : load path = Except.error err) (hname : err.name = DBUS_ERROR_FILE_NOT_FOUND) :
    (f.ignore_missing = true →
      bus_config_parser_content load a p path =
          Outcome.success { p with stack := xs ++ [{ f with had_content := true }] } ∧
        bus_config_parser_end_element
            { p with stack := xs ++ [{ f with had_content := true }] } "include" =
          Outcome.success { p with stack := xs }) ∧
    (f.ignore_missing = false →
      bus_config_parser_content load a p path =
        Outcome.failure err { p with stack := xs ++ [{ f with had_content := true }] }) := by
  have hcontent := content_include_load_failed load a p xs f path err hs hc ht hl
  constructor
  · intro him
    refine ⟨by rw [hcontent]; simp [hname, him, set_had_content], ?_⟩
    rw [end_element_concat _ "include" xs { f with had_content := true } rfl]
    simp [ht, element_type_to_name, needs_content, pop_element]
  · intro him
    rw [hcontent]
    simp [him, set_had_content]

/-- Witness of C13: with `<busconfig><include ignore_missing="yes">` open, a path
whose load reports file-not-found is accepted, and the include can be closed. -/
theorem content_include_missing_file_witness :
    bus_config_parser_content
        (fun _ => Except.error { name := DBUS_ERROR_FILE_NOT_FOUND, message := none }) alloc_ok
        { refcount := 1,
          stack := [{ type := ELEMENT_BUSCONFIG, had_content := false, ignore_missing := false },
                    { type := ELEMENT_INCLUDE, had_content := false, ignore_missing := true }],
          user := some "root", listen_on := ["unix:path=/tmp/x"] } "absent.conf" =
      Outcome.success
        { refcount := 1,
          stack := [{ type := ELEMENT_BUSCONFIG, had_content := false, ignore_missing := false },
                    { type := ELEMENT_INCLUDE, had_content := true, ignore_missing := true }],
          user := some "root", listen_on := ["unix:path=/tmp/x"] } ∧
    bus_config_parser_end_element
        { refcount := 1,
          stack := [{ type := ELEMENT_BUSCONFIG, had_content := false, ignore_missing := false },
                    { type := ELEMENT_INCLUDE, had_content := true, ignore_missing := true }],
          user := some "root", listen_on := ["unix:path=/tmp/x"] } "include" =
      Outcome.success
        { refcount := 1,
          stack := [{ type := ELEMENT_BUSCONFIG, had_content := false, ignore_missing := false }],
          user := some "root", listen_on := ["unix:path=/tmp/x"] } :=
  (content_include_missing_file
    (fun _ => Except.error { name := DBUS_ERROR_FILE_NOT_FOUND, message := none }) alloc_ok
    { refcount := 1,
      stack := [{ type := ELEMENT_BUSCONFIG, had_content := false, ignore_missing := false },
                { type := ELEMENT_INCLUDE, had_content := false, ignore_missing := true }],
      user := some "root", listen_on := ["unix:path=/tmp/x"] }
    [{ type := ELEMENT_BUSCONFIG, had_content := false, ignore_missing := false }]
    { type := ELEMENT_INCLUDE, had_content := false, ignore_missing := true }
    "absent.conf" { name := DBUS_ERROR_FILE_NOT_FOUND, message := none }
    rfl rfl rfl rfl rfl).1 rfl

/-- C14: when the top frame is an Include that has had no content (so that the
call reaches the nested load) and the nested load fails with an error that is
not the recoverable case (its name is not file-not-found, or `ignore_missing`
is false), `bus_config_parser_content` fails and reports exactly that error,
name and message; user and listen list are as before.  So an out-of-memory
error of the nested load is reported also when `ignore_missing` is true. -/
theorem content_include_error_propagates (load : String → Except DBusError BusConfigParser)
    (a : Alloc) (p : BusConfigParser) (xs : List Element) (f : Element) (path : String)
    (err : DBusError)
    (hs : p.stack = xs ++ [f]) (hc : f.had_content = false) (ht : f.type = ELEMENT_INCLUDE)
    (hl : load path = Except.error err)
    (hfatal : err.name ≠ DBUS_ERROR_FILE_NOT_FOUND ∨ f.ignore_missing = false) :
    ∃ q, bus_config_parser_content load a p path = Outcome.failure err q ∧
      q.user = p.user ∧ q.listen_on = p.listen_on ∧
      q.stack = xs ++ [{ f with had_content := true }] := by
  refine ⟨{ p with stack := xs ++ [set_had_content f] }, ?_, rfl, rfl, rfl⟩
  rw [content_include_load_failed load a p xs f path err hs hc ht hl]
  rcases hfatal with h | h
  · simp [h]
  · simp [h]

/-- Witness of C14: with `<busconfig><include ignore_missing="yes">` open, an
out-of-memory error of the nested load is reported unchanged. -/
theorem content_include_error_propagates_witness :
    ∃ q, bus_config_parser_content (fun _ => Except.error no_memory) alloc_ok
        { refcount := 1,
          stack := [{ type := ELEMENT_BUSCONFIG, had_content := false, ignore_missing := false },
                    { type := ELEMENT_INCLUDE, had_content := false, ignore_missing := true }],
          user := some "root", listen_on := ["unix:path=/tmp/x"] } "big.conf" =
        Outcome.failure no_memory q ∧
      q.user = some "root" ∧ q.listen_on = ["unix:path=/tmp/x"] ∧
      q.stack =
        [{ type := ELEMENT_BUSCONFIG, had_content := false, ignore_missing := false },
         { type := ELEMENT_INCLUDE, had_content := true, ignore_missing := true }] :=
  content_include_error_propagates (fun _ => Except.error no_memory) alloc_ok
    { refcount := 1,
      stack := [{ type := ELEMENT_BUSCONFIG, had_content := false, ignore_missing := false },
                { type := ELEMENT_INCLUDE, had_content := false, ignore_missing := true }],
      user := some "root", listen_on := ["unix:path=/tmp/x"] }
    [{ type := ELEMENT_BUSCONFIG, had_content := false, ignore_missing := false }]
    { type := ELEMENT_INCLUDE, had_content := false, ignore_missing := true }
    "big.conf" no_memory rfl rfl rfl rfl (Or.inl (by decide))


theorem skip_white_from_eq_iff (cs : List Char) (i : Nat) :
    skip_white_from cs i = i + cs.length ↔ ∀ c ∈ cs, is_white c = true := by
  induction cs generalizing i with
  | nil => simp [skip_white_from]
  | cons c rest ih =>
    by_cases hw : is_white c = true
    · have h := ih (i + 1)
      simp only [skip_white_from, hw, if_true, List.length_cons, List.mem_cons,
        forall_eq_or_imp, true_and]
      rw [← h]
      constructor <;> intro h2 <;> omega
    · simp only [skip_white_from, hw, Bool.false_eq_true, if_false, List.length_cons,
        List.mem_cons, forall_eq_or_imp, false_and, iff_false]
      omega

theorem all_whitespace_iff (text : String) :
    all_whitespace text = true ↔ ∀ c ∈ text.data, is_white c = true := by
  have h := skip_white_from_eq_iff text.data 0
  simp only [Nat.zero_add] at h
  rw [← h]
  simp only [all_whitespace, _dbus_string_skip_white, _dbus_string_get_length,
    decide_eq_true_eq, List.drop_zero]

theorem content_inert (load : String → Except DBusError BusConfigParser) (a : Alloc)
    (p : BusConfigParser) (xs : List Element) (e : Element) (text : String)
    (hs : p.stack = xs ++ [e]) (hc : e.had_content = false)
    (ht : e.type = ELEMENT_BUSCONFIG ∨ e.type = ELEMENT_POLICY ∨ e.type = ELEMENT_LIMIT ∨
      e.type = ELEMENT_ALLOW ∨ e.type = ELEMENT_DENY) :
    bus_config_parser_content load a p text =
      if all_whitespace text = true then Outcome.success p
      else Outcome.failure (failed (msg_no_text (fmt_s (element_type_to_name e.type)))) p := by
  unfold bus_config_parser_content
  rw [peek_concat p xs e hs, top_type_concat p xs e hs]
  rcases ht with ht | ht | ht | ht | ht <;> simp [hc, ht]

theorem inert_type_name (t : ElementType)
    (ht : t = ELEMENT_BUSCONFIG ∨ t = ELEMENT_POLICY ∨ t = ELEMENT_LIMIT ∨
      t = ELEMENT_ALLOW ∨ t = ELEMENT_DENY) :
    ∃ n, element_type_to_name t = some n := by
  rcases ht with ht | ht | ht | ht | ht <;> subst ht <;> exact ⟨_, rfl⟩

/-- C15: when the top frame has type BusConfig, Policy, Limit, Allow or Deny (and
has had no content, as every such frame the parser builds), for every text
`bus_config_parser_content` succeeds exactly when `all_whitespace` holds of
the text, that is when every character of it is whitespace, which the empty
text satisfies; on success the parser is returned unchanged, `had_content` of
the top frame included; on failure the parser is unchanged too and the
message of the error names the element of the top frame. -/
theorem content_whitespace_only_iff (load : String → Except DBusError BusConfigParser)
    (a : Alloc) (p : BusConfigParser) (xs : List Element) (e : Element) (text : String)
    (hs : p.stack = xs ++ [e]) (hc : e.had_content = false)
    (ht : e.type = ELEMENT_BUSCONFIG ∨ e.type = ELEMENT_POLICY ∨ e.type = ELEMENT_LIMIT ∨
      e.type = ELEMENT_ALLOW ∨ e.type = ELEMENT_DENY) :
    ((∃ q, bus_config_parser_content load a p text = Outcome.success q) ↔
      all_whitespace text = true) ∧
    (all_whitespace text = true ↔
      _dbus_string_skip_white text 0 = _dbus_string_get_length text) ∧
    (all_whitespace text = true ↔ ∀ c ∈ text.data, is_white c = true) ∧
    all_whitespace "" = true ∧
    (∀ q, bus_config_parser_content load a p text = Outcome.success q → q = p) ∧
    ((¬ all_whitespace text = true) →
      ∃ n, element_type_to_name e.type = some n ∧
        bus_config_parser_content load a p text =
          Outcome.failure (failed (msg_no_text n)) p ∧
        names (failed (msg_no_text n)) n) := by
  have hcontent := content_inert load a p xs e text hs hc ht
  refine ⟨?_, by simp [all_whitespace], all_whitespace_iff text, by decide, ?_, ?_⟩
  · rw [hcontent]
    by_cases hw : all_whitespace text = true <;> simp [hw]
  · intro q hq
    rw [hcontent] at hq
    by_cases hw : all_whitespace text = true
    · simp only [hw, if_true] at hq
      injection hq with hq
      exact hq.symm
    · simp [hw] at hq
  · intro hw
    obtain ⟨n, hn⟩ := inert_type_name e.type ht
    refine ⟨n, hn, ?_, names_text_mid _ _ _⟩
    rw [hcontent, hn]
    simp [hw, fmt_s]

/-- Witness of C15: directly inside `<busconfig>` the text of a line feed and two
spaces is accepted and the text x is refused with a message naming busconfig. -/
theorem content_whitespace_only_iff_witness :
    (∃ q, bus_config_parser_content (fun _ => Except.error no_memory) alloc_ok
        { refcount := 1,
          stack := [{ type := ELEMENT_BUSCONFIG, had_content := false, ignore_missing := false }],
          user := none, listen_on := [] } "\n  " = Outcome.success q) ∧
    ∃ n, element_type_to_name ELEMENT_BUSCONFIG = some n ∧
      bus_config_parser_content (fun _ => Except.error no_memory) alloc_ok
        { refcount := 1,
          stack := [{ type := ELEMENT_BUSCONFIG, had_content := false, ignore_missing := false }],
          user := none, listen_on := [] } "x" =
        Outcome.failure (failed (msg_no_text n))
          { refcount := 1,
            stack := [{ type := ELEMENT_BUSCONFIG, had_content := false, ignore_missing := false }],
            user := none, listen_on := [] } ∧
      names (failed (msg_no_text n)) n :=
  ⟨(content_whitespace_only_iff (fun _ => Except.error no_memory) alloc_ok
      { refcount := 1,
        stack := [{ type := ELEMENT_BUSCONFIG, had_content := false, ignore_missing := false }],
        user := none, listen_on := [] } []
      { type := ELEMENT_BUSCONFIG, had_content := false, ignore_missing := false } "\n  "
      rfl rfl (Or.inl rfl)).1.mpr (by decide),
   (content_whitespace_only_iff (fun _ => Except.error no_memory) alloc_ok
      { refcount := 1,
        stack := [{ type := ELEMENT_BUSCONFIG, had_content := false, ignore_missing := false }],
        user := none, listen_on := [] } []
      { type := ELEMENT_BUSCONFIG, had_content := false, ignore_missing := false } "x"
      rfl rfl (Or.inl rfl)).2.2.2.2.2 (by decide)⟩

/-! ### A document that only includes another -/

theorem run_document_events (load : String → Except DBusError BusConfigParser)
    (items : List BusItem)
    (hg : ∀ item ∈ items, item.grammatical = true)
    (hl : ∀ im path, BusItem.include_item im path ∈ items → ∃ c, load path = Except.ok c) :
    run_events load alloc_ok { refcount := 1, stack := [], user := none, listen_on := [] }
        (document_events items) =
      Outcome.success
        { refcount := 1, stack := [], user := spec_user load items,
          listen_on := spec_listen load items } := by
  simp only [document_events, run_events, apply_event]
  have hstart : bus_config_parser_start_element alloc_ok
      { refcount := 1, stack := [], user := none, listen_on := [] } "busconfig" [] =
      Outcome.success
        { refcount := 1,
          stack := [{ type := ELEMENT_BUSCONFIG, had_content := false, ignore_missing := false }],
          user := none, listen_on := [] } := by decide
  rw [hstart]
  simp only []
  rw [run_events_append_success load alloc_ok _ _ _ _
    (run_bus_items load _ [] _ items rfl rfl rfl hg hl)]
  simp only [run_events, apply_event]
  rw [end_element_concat _ "busconfig" [] _ rfl]
  simp [element_type_to_name, needs_content, pop_element, Option.or_none]

/-- C12: when the load of a path returns the parser `included`, the events of a
document that only includes that path (start busconfig, start include with
`ignore_missing` absent, no or yes, content path, end include, end busconfig)
applied to a fresh parser succeed at every step, `bus_config_parser_finished`
succeeds, and the result has the user and the listen list of `included`. -/
theorem include_only_document (load : String → Except DBusError BusConfigParser)
    (path : String) (included : BusConfigParser) (ignore_missing : Option Bool)
    (hl : load path = Except.ok included) :
    ∃ p0 p, bus_config_parser_new alloc_ok = some p0 ∧
      run_events load alloc_ok p0
        [Event.start_element "busconfig" [],
         Event.start_element "include" (include_attributes ignore_missing),
         Event.content path,
         Event.end_element "include",
         Event.end_element "busconfig"] = Outcome.success p ∧
      bus_config_parser_finished p = Outcome.success p ∧
      bus_config_parser_get_user p = bus_config_parser_get_user included ∧
      p.listen_on = included.listen_on := by
  have hrun := run_document_events load [BusItem.include_item ignore_missing path]
    (by intro item hi; simp at hi; subst hi; rfl)
    (by
      intro im q hi
      simp at hi
      exact ⟨included, hi.2 ▸ hl⟩)
  have hu : spec_user load [BusItem.include_item ignore_missing path] = included.user := by
    cases hcu : included.user <;> simp [spec_user, spec_user_of, hl, hcu]
  have hli : spec_listen load [BusItem.include_item ignore_missing path] =
      included.listen_on := by
    simp [spec_listen, spec_listen_of, hl]
  rw [hu, hli] at hrun
  exact ⟨_, _, rfl, hrun, rfl, rfl, rfl⟩

/-- Witness of C12: a document that only includes, with `ignore_missing="no"`, a
file whose load gives the user messagebus and one listen address yields that
user and that address. -/
theorem include_only_document_witness :
    ∃ p, run_events
        (fun _ => Except.ok
          { refcount := 1, stack := [], user := some "messagebus",
            listen_on := ["unix:path=/tmp/x"] })
        alloc_ok { refcount := 1, stack := [], user := none, listen_on := [] }
        [Event.start_element "busconfig" [],
         Event.start_element "include" [("ignore_missing", "no")],
         Event.content "system.conf",
         Event.end_element "include",
         Event.end_element "busconfig"] = Outcome.success p ∧
      bus_config_parser_get_user p = some "messagebus" ∧
      p.listen_on = ["unix:path=/tmp/x"] := by
  obtain ⟨p0, p, h0, h1, _, h3, h4⟩ :=
    include_only_document
      (fun _ => Except.ok
        { refcount := 1, stack := [], user := some "messagebus",
          listen_on := ["unix:path=/tmp/x"] })
      "system.conf"
      { refcount := 1, stack := [], user := some "messagebus",
        listen_on := ["unix:path=/tmp/x"] }
      (some false) rfl
  have hp0 : p0 = { refcount := 1, stack := [], user := none, listen_on := [] } := by
    simp [bus_config_parser_new, alloc_ok] at h0
    exact h0.symm
  subst hp0
  exact ⟨p, h1, h3, h4⟩

/-! ### The element named by attribute errors -/

theorem locate_loop_failure_message (el : String) (present : List (String × String))
    (attrs : List LocateAttr) (err : DBusError)
    (h : locate_loop el present attrs = LocateResult.failure err) :
    ∃ attr ∈ present.map Prod.fst,
      err = failed (msg_invalid attr el) ∨ err = failed (msg_repeated attr el) := by
  induction present generalizing attrs with
  | nil => simp [locate_loop] at h
  | cons q rest ih =>
    rcases q with ⟨n, v⟩
    unfold locate_loop at h
    cases hs : scan_attrs n v attrs false with
    | error d =>
      simp only [hs] at h
      injection h with h
      have hd := scan_attrs_error_name n v attrs false d hs
      subst hd
      exact ⟨d, by simp, Or.inr h.symm⟩
    | ok r =>
      rcases r with ⟨found, attrs1⟩
      simp only [hs] at h
      cases found
      · simp only [Bool.false_eq_true, if_false] at h
        injection h with h
        exact ⟨n, by simp, Or.inl h.symm⟩
      · simp only [if_true] at h
        obtain ⟨attr, hmem, hattr⟩ := ih attrs1 h
        exact ⟨attr, by simp only [List.map_cons]; exact List.mem_cons_of_mem _ hmem, hattr⟩

theorem locate_attributes_failure_message (el : String) (present : List (String × String))
    (first : String) (more : List String) (err : DBusError)
    (h : locate_attributes el present first more = LocateResult.failure err) :
    ∃ attr ∈ present.map Prod.fst,
      err = failed (msg_invalid attr el) ∨ err = failed (msg_repeated attr el) := by
  unfold locate_attributes at h
  cases hc : collect_attrs more [{ name := first, retloc := none }] with
  | none => simp [hc] at h
  | some attrs =>
    simp only [hc] at h
    exact locate_loop_failure_message el present attrs err h

theorem names_binding_error (err : DBusError) (attr el : String)
    (h : err = failed (msg_invalid attr el) ∨ err = failed (msg_repeated attr el)) :
    names err attr ∧ names err el := by
  rcases h with h | h
  · subst h
    exact ⟨names_text_append_left _ _ _ (names_text_append_left _ _ _ (names_text_mid _ _ _)),
      names_text_mid _ _ _⟩
  · subst h
    exact ⟨names_text_append_left _ _ _ (names_text_append_left _ _ _ (names_text_mid _ _ _)),
      names_text_mid _ _ _⟩

theorem sibling_attribute_error_names_element (a : Alloc) (ha0 : a 0 = true)
    (ha1 : a 1 = true) (parser : BusConfigParser) (element_name : String)
    (attributes : List (String × String))
    (hopen : spec_opens parser element_name) (hnp : element_name ≠ "policy")
    (hbad : (∃ q ∈ attributes, q.1 ∉ spec_attribute_allow_list element_name) ∨
      ¬ (attributes.map Prod.fst).Nodup) :
    ∃ err p attr, bus_config_parser_start_element a parser element_name attributes =
        Outcome.failure err p ∧
      attr ∈ attributes.map Prod.fst ∧ names err attr ∧ names err element_name := by
  have hne : attributes ≠ [] := by
    rintro rfl
    simp at hbad
  have hcheck : ∀ el : String, ∃ attr, attr ∈ attributes.map Prod.fst ∧
      check_no_attributes el attributes = some (failed (msg_invalid attr el)) := by
    intro el
    cases attributes with
    | nil => exact absurd rfl hne
    | cons q rest =>
      rcases q with ⟨n, v⟩
      exact ⟨n, by simp, rfl⟩
  rcases hopen with ⟨htop, hn⟩ | ⟨htop, hn⟩
  · subst hn
    obtain ⟨attr, hmem, hc⟩ := hcheck "busconfig"
    have hnm := names_binding_error _ attr "busconfig" (Or.inl rfl)
    exact ⟨_, parser, attr, by simp [bus_config_parser_start_element, htop, hc], hmem,
      hnm.1, hnm.2⟩
  · rw [start_element_at_busconfig a parser element_name attributes htop]
    simp only [List.mem_cons, List.mem_singleton, List.not_mem_nil, or_false] at hn
    rcases hn with hn | hn | hn | hn
    · subst hn
      obtain ⟨attr, hmem, hc⟩ := hcheck "user"
      have hnm := names_binding_error _ attr "user" (Or.inl rfl)
      exact ⟨_, parser, attr, by simp [start_busconfig_child, hc], hmem, hnm.1, hnm.2⟩
    · subst hn
      obtain ⟨attr, hmem, hc⟩ := hcheck "listen"
      have hnm := names_binding_error _ attr "listen" (Or.inl rfl)
      exact ⟨_, parser, attr, by simp [start_busconfig_child, hc], hmem, hnm.1, hnm.2⟩
    · subst hn
      obtain ⟨err, herr⟩ :=
        locate_attributes_refuses "include" attributes "ignore_missing" []
          (by decide) (by decide) (by simpa [spec_attribute_allow_list] using hbad)
      obtain ⟨attr, hmem, hform⟩ :=
        locate_attributes_failure_message "include" attributes "ignore_missing" [] err herr
      have hnm := names_binding_error err attr "include" hform
      exact ⟨err, _, attr, by rw [start_include_eval a ha0 ha1, herr], hmem, hnm.1, hnm.2⟩
    · exact absurd hn hnp

/-- C20 (the code at the failing inputs): for `<policy>` opened inside
`<busconfig>`, an attribute outside context, user, group and a repeated
attribute are both reported with a message that names the attribute but gives
the element as include, and does not name policy: `start_busconfig_child`
passes the element name "include" to `locate_attributes` in its policy branch.
For busconfig, user, listen and include the invalid-attribute and
repeated-attribute errors do name the attribute and the element itself. -/
theorem policy_attribute_error_names_include :
    bus_config_parser_start_element alloc_ok
        { refcount := 1,
          stack := [{ type := ELEMENT_BUSCONFIG, had_content := false, ignore_missing := false }],
          user := none, listen_on := [] } "policy" [("bogus", "1")] =
      Outcome.failure
        (failed "Attribute \"bogus\" is invalid on <include> element in this context")
        { refcount := 1,
          stack := [{ type := ELEMENT_BUSCONFIG, had_content := false, ignore_missing := false },
                    { type := ELEMENT_POLICY, had_content := false, ignore_missing := false }],
          user := none, listen_on := [] } ∧
    names (failed "Attribute \"bogus\" is invalid on <include> element in this context")
      "bogus" ∧
    ¬ names (failed "Attribute \"bogus\" is invalid on <include> element in this context")
      "policy" ∧
    bus_config_parser_start_element alloc_ok
        { refcount := 1,
          stack := [{ type := ELEMENT_BUSCONFIG, had_content := false, ignore_missing := false }],
          user := none, listen_on := [] } "policy" [("user", "a"), ("user", "b")] =
      Outcome.failure
        (failed "Attribute \"user\" repeated twice on the same <include> element")
        { refcount := 1,
          stack := [{ type := ELEMENT_BUSCONFIG, had_content := false, ignore_missing := false },
                    { type := ELEMENT_POLICY, had_content := false, ignore_missing := false }],
          user := none, listen_on := [] } ∧
    ¬ names (failed "Attribute \"user\" repeated twice on the same <include> element")
      "policy" ∧
    (∀ (a : Alloc) (parser : BusConfigParser) (element_name : String)
        (attributes : List (String × String)),
      a 0 = true → a 1 = true → spec_opens parser element_name → element_name ≠ "policy" →
      ((∃ q ∈ attributes, q.1 ∉ spec_attribute_allow_list element_name) ∨
        ¬ (attributes.map Prod.fst).Nodup) →
      ∃ err p attr, bus_config_parser_start_element a parser element_name attributes =
          Outcome.failure err p ∧
        attr ∈ attributes.map Prod.fst ∧ names err attr ∧ names err element_name) := by
  refine ⟨by decide, by decide, by decide, by decide, by decide, ?_⟩
  intro a parser element_name attributes ha0 ha1 hopen hnp hbad
  exact sibling_attribute_error_names_element a ha0 ha1 parser element_name attributes
    hopen hnp hbad


/-! ### The order of the attributes -/

theorem collect_attrs_some (more : List String) (acc attrs : List LocateAttr)
    (h : collect_attrs more acc = some attrs) :
    attrs = acc ++ more.map (fun m => { name := m, retloc := none }) := by
  induction more generalizing acc with
  | nil =>
    simp only [collect_attrs, Option.some.injEq] at h
    simp [h]
  | cons m rest ih =>
    unfold collect_attrs at h
    by_cases hlt : acc.length < MAX_ATTRS
    · simp only [hlt, if_true] at h
      rw [ih _ h]
      simp
    · simp [hlt] at h

theorem scan_attrs_unbound (n v : String) (σ : String → Option String)
    (expected : List String) (found : Bool) (hσ : σ n = none) :
    scan_attrs n v (expected.map (fun m => { name := m, retloc := σ m })) found =
      Except.ok (found || decide (n ∈ expected), expected.map
        (fun m => { name := m, retloc := if m = n then some v else σ m })) := by
  induction expected generalizing found with
  | nil => simp [scan_attrs]
  | cons m rest ih =>
    by_cases hm : m = n
    · subst hm
      simp [scan_attrs, hσ, ih true]
    · have hnm : ¬ n = m := fun h => hm h.symm
      simp [scan_attrs, hm, hnm, ih found]

theorem locate_loop_any_success_iff (el : String) (expected : List String)
    (present : List (String × String)) (σ : String → Option String) :
    (∃ r, locate_loop el present (expected.map (fun m => { name := m, retloc := σ m })) =
        LocateResult.success r) ↔
      (∀ q ∈ present, q.1 ∈ expected ∧ σ q.1 = none) ∧ (present.map Prod.fst).Nodup := by
  induction present generalizing σ with
  | nil => simp [locate_loop]
  | cons q rest ih =>
    rcases q with ⟨n, v⟩
    unfold locate_loop
    by_cases hn : n ∈ expected
    · cases hσ : σ n with
      | some w =>
        rw [scan_attrs_bound n v σ expected false hn w hσ]
        simp [hσ]
      | none =>
        rw [scan_attrs_unbound n v σ expected false hσ]
        simp only [Bool.false_or, decide_eq_true_eq, hn, if_true]
        rw [ih]
        have hmem : n ∈ rest.map Prod.fst ↔ ∃ q ∈ rest, q.1 = n := by simp
        constructor
        · rintro ⟨h1, h2⟩
          have hnr : n ∉ rest.map Prod.fst := by
            rw [hmem]
            rintro ⟨q, hq, hqn⟩
            have := (h1 q hq).2
            simp [hqn] at this
          refine ⟨?_, ?_⟩
          · intro q hq
            rcases List.mem_cons.mp hq with hq | hq
            · subst hq
              exact ⟨hn, hσ⟩
            · refine ⟨(h1 q hq).1, ?_⟩
              have := (h1 q hq).2
              by_cases hqn : q.1 = n
              · simp [hqn] at this
              · simpa [hqn] using this
          · simpa [List.nodup_cons] using ⟨by simpa using hnr, h2⟩
        · rintro ⟨h1, h2⟩
          have h3 := List.nodup_cons.mp (by simpa using h2 : (n :: rest.map Prod.fst).Nodup)
          refine ⟨?_, h3.2⟩
          intro q hq
          have hqn : q.1 ≠ n := fun hqn => h3.1 (hmem.mpr ⟨q, hq, hqn⟩)
          have := h1 q (List.mem_cons_of_mem _ hq)
          exact ⟨this.1, by simpa [hqn] using this.2⟩
    · rw [scan_attrs_absent n v σ expected false hn]
      simp [hn]

theorem locate_loop_any_success_value (el : String) (expected : List String)
    (present : List (String × String)) (σ : String → Option String)
    (hok : ∀ q ∈ present, q.1 ∈ expected ∧ σ q.1 = none)
    (hdis : (present.map Prod.fst).Nodup) :
    locate_loop el present (expected.map (fun m => { name := m, retloc := σ m })) =
      LocateResult.success (expected.map (fun m => (present.lookup m).or (σ m))) := by
  induction present generalizing σ with
  | nil => simp [locate_loop]
  | cons q rest ih =>
    rcases q with ⟨n, v⟩
    have hq := hok (n, v) (List.mem_cons_self _ _)
    have hnd2 := List.nodup_cons.mp (by simpa using hdis : (n :: rest.map Prod.fst).Nodup)
    unfold locate_loop
    rw [scan_attrs_unbound n v σ expected false hq.2]
    simp only [Bool.false_or, decide_eq_true_eq, hq.1, if_true]
    rw [ih]
    · congr 1
      apply List.map_congr_left
      intro m _
      by_cases hmn : m = n
      · subst hmn
        simp [lookup_absent m rest hnd2.1]
      · have hmn2 : (m == n) = false := by simpa using hmn
        simp [List.lookup_cons, hmn, hmn2]
    · intro q hq2
      have hqn : q.1 ≠ n := fun hqn => hnd2.1 (List.mem_map.mpr ⟨q, hq2, hqn⟩)
      have := hok q (List.mem_cons_of_mem _ hq2)
      exact ⟨this.1, by simpa [hqn] using this.2⟩
    · exact hnd2.2

theorem lookup_eq_some_iff_mem (l : List (String × String)) (m v : String)
    (hnd : (l.map Prod.fst).Nodup) : l.lookup m = some v ↔ (m, v) ∈ l := by
  induction l with
  | nil => simp
  | cons q rest ih =>
    rcases q with ⟨k, b⟩
    have hnd2 := List.nodup_cons.mp (by simpa using hnd : (k :: rest.map Prod.fst).Nodup)
    by_cases hmk : m = k
    · subst hmk
      have hnot : (m, v) ∉ rest := fun hmem =>
        hnd2.1 (List.mem_map.mpr ⟨(m, v), hmem, rfl⟩)
      simp [hnot, eq_comm]
    · have hmk2 : (m == k) = false := by simpa using hmk
      simp [List.lookup_cons, hmk2, hmk, ih hnd2.2]

theorem lookup_perm (l1 l2 : List (String × String)) (m : String) (hp : l1.Perm l2)
    (hnd : (l1.map Prod.fst).Nodup) : l1.lookup m = l2.lookup m := by
  have hnd2 : (l2.map Prod.fst).Nodup := (hp.map Prod.fst).nodup_iff.mp hnd
  apply Option.ext
  intro v
  simp only [Option.mem_def]
  rw [lookup_eq_some_iff_mem l1 m v hnd, lookup_eq_some_iff_mem l2 m v hnd2]
  exact hp.mem_iff

/-- C19: for two lists of present attributes that are permutations of each
other and the same expected names, `locate_attributes` ends the same way: it
succeeds on both with the same value in every expected slot, or it fails on
both (the two errors may differ), or, when more than 24 names are expected,
it stops on both at the assertion on the size of the table. -/
theorem locate_attributes_perm (el : String) (present1 present2 : List (String × String))
    (first : String) (more : List String) (hp : present1.Perm present2) :
    (∃ r, locate_attributes el present1 first more = LocateResult.success r ∧
      locate_attributes el present2 first more = LocateResult.success r) ∨
    (∃ e1 e2, locate_attributes el present1 first more = LocateResult.failure e1 ∧
      locate_attributes el present2 first more = LocateResult.failure e2) ∨
    (∃ msg, locate_attributes el present1 first more = LocateResult.aborted msg ∧
      locate_attributes el present2 first more = LocateResult.aborted msg) := by
  unfold locate_attributes
  cases hc : collect_attrs more [{ name := first, retloc := none }] with
  | none => exact Or.inr (Or.inr ⟨_, rfl, rfl⟩)
  | some attrs =>
    have hattrs : attrs =
        (first :: more).map (fun m => { name := m, retloc := (fun _ => none) m }) := by
      rw [collect_attrs_some more _ attrs hc]
      simp
    simp only []
    rw [hattrs]
    have hconv : ∀ present : List (String × String),
        ((∀ q ∈ present, q.1 ∈ first :: more) ∧ (present.map Prod.fst).Nodup) →
        (∀ q ∈ present, q.1 ∈ first :: more ∧
          (fun _ => none : String → Option String) q.1 = none) ∧
          (present.map Prod.fst).Nodup :=
      fun present h => ⟨fun q hq => ⟨h.1 q hq, rfl⟩, h.2⟩
    by_cases hv : (∀ q ∈ present1, q.1 ∈ first :: more) ∧ (present1.map Prod.fst).Nodup
    · have hv2 : (∀ q ∈ present2, q.1 ∈ first :: more) ∧ (present2.map Prod.fst).Nodup :=
        ⟨fun q hq => hv.1 q (hp.mem_iff.mpr hq), (hp.map Prod.fst).nodup_iff.mp hv.2⟩
      refine Or.inl ⟨_, locate_loop_any_success_value el _ present1 _
        (hconv present1 hv).1 hv.2, ?_⟩
      rw [locate_loop_any_success_value el _ present2 _ (hconv present2 hv2).1 hv2.2]
      congr 1
      apply List.map_congr_left
      intro m _
      rw [lookup_perm present1 present2 m hp hv.2]
    · have hv2 : ¬ ((∀ q ∈ present2, q.1 ∈ first :: more) ∧
          (present2.map Prod.fst).Nodup) := fun h =>
        hv ⟨fun q hq => h.1 q (hp.mem_iff.mp hq), (hp.map Prod.fst).nodup_iff.mpr h.2⟩
      have hfail : ∀ present : List (String × String),
          ¬ ((∀ q ∈ present, q.1 ∈ first :: more) ∧ (present.map Prod.fst).Nodup) →
          ∃ e, locate_loop el present
            ((first :: more).map (fun m => { name := m, retloc := (fun _ => none) m })) =
            LocateResult.failure e := by
        intro present hnv
        cases hres : locate_loop el present
            ((first :: more).map (fun m => { name := m, retloc := (fun _ => none) m })) with
        | failure e => exact ⟨e, rfl⟩
        | aborted msg => exact absurd hres (locate_loop_never_aborts _ _ _ _)
        | success r =>
          have h := (locate_loop_any_success_iff el (first :: more) present
            (fun _ => none)).mp ⟨r, hres⟩
          exact absurd ⟨fun q hq => (h.1 q hq).1, h.2⟩ hnv
      obtain ⟨e1, h1⟩ := hfail present1 hv
      obtain ⟨e2, h2⟩ := hfail present2 hv2
      exact Or.inr (Or.inl ⟨e1, e2, h1, h2⟩)

/-- Witness of C19: with the expected names context, user, group, the
attributes user="a" group="b" give the same slots in either order. -/
theorem locate_attributes_perm_witness :
    [("user", "a"), ("group", "b")].Perm [("group", "b"), ("user", "a")] ∧
    locate_attributes "policy" [("user", "a"), ("group", "b")] "context" ["user", "group"] =
      LocateResult.success [none, some "a", some "b"] ∧
    locate_attributes "policy" [("group", "b"), ("user", "a")] "context" ["user", "group"] =
      LocateResult.success [none, some "a", some "b"] := by
  have hp : [("user", "a"), ("group", "b")].Perm [("group", "b"), ("user", "a")] :=
    List.Perm.swap _ _ _
  refine ⟨hp, ?_⟩
  rcases locate_attributes_perm "policy" _ _ "context" ["user", "group"] hp with
    ⟨r, h1, h2⟩ | ⟨e1, e2, h1, _⟩ | ⟨msg, h1, _⟩
  · have hr : r = [none, some "a", some "b"] := by
      have h3 : locate_attributes "policy" [("user", "a"), ("group", "b")] "context"
          ["user", "group"] = LocateResult.success [none, some "a", some "b"] := by decide
      rw [h3] at h1
      injection h1 with h1
      exact h1.symm
    subst hr
    exact ⟨h1, h2⟩
  · have h3 : locate_attributes "policy" [("user", "a"), ("group", "b")] "context"
        ["user", "group"] = LocateResult.success [none, some "a", some "b"] := by decide
    rw [h3] at h1
    cases h1
  · have h3 : locate_attributes "policy" [("user", "a"), ("group", "b")] "context"
        ["user", "group"] = LocateResult.success [none, some "a", some "b"] := by decide
    rw [h3] at h1
    cases h1


/-! ### The fresh parser -/

/-- C21: when its allocation succeeds `bus_config_parser_new` returns a parser
with refcount 1, an empty element stack, the user unset
(`bus_config_parser_get_user` gives the absent value) and an empty listen
list; on that parser `bus_config_parser_finished` succeeds, and
`bus_config_parser_end_element` and `bus_config_parser_content` fail, for
every name and every text, leaving the parser as it is. -/
theorem new_parser_is_empty (a : Alloc) (ha : a 0 = true) :
    ∃ p, bus_config_parser_new a = some p ∧
      p.refcount = 1 ∧ p.stack = [] ∧ bus_config_parser_get_user p = none ∧
      p.listen_on = [] ∧
      bus_config_parser_finished p = Outcome.success p ∧
      (∀ element_name, ∃ err,
        bus_config_parser_end_element p element_name = Outcome.failure err p) ∧
      (∀ (load : String → Except DBusError BusConfigParser) (a2 : Alloc) (text : String),
        ∃ err, bus_config_parser_content load a2 p text = Outcome.failure err p) := by
  refine ⟨{ refcount := 1, stack := [], user := none, listen_on := [] },
    by simp [bus_config_parser_new, ha], rfl, rfl, rfl, rfl, rfl, ?_, ?_⟩
  · intro element_name
    exact ⟨_, end_element_nil _ element_name rfl⟩
  · intro load a2 text
    exact ⟨failed "Text content outside of any XML element in configuration file",
      by simp [bus_config_parser_content, peek_element]⟩

/-- Witness of C21: with every allocation succeeding the new parser exists and
closing an element on it fails. -/
theorem new_parser_is_empty_witness :
    alloc_ok 0 = true ∧
    ∃ p, bus_config_parser_new alloc_ok = some p ∧ p.refcount = 1 ∧ p.stack = [] ∧
      bus_config_parser_finished p = Outcome.success p ∧
      ∃ err, bus_config_parser_end_element p "busconfig" = Outcome.failure err p := by
  obtain ⟨p, h1, h2, h3, _, _, h6, h7, _⟩ := new_parser_is_empty alloc_ok rfl
  exact ⟨rfl, p, h1, h2, h3, h6, h7 "busconfig"⟩

/-! ### Children of policy -/

/-- C26: when the top frame is a Policy frame and the allocations of the frame
succeed, `bus_config_parser_start_element` with the name allow or deny
succeeds and pushes an Allow or a Deny frame, whatever the attributes are:
none of them is looked at. -/
theorem policy_child_attributes_ignored (a : Alloc) (ha0 : a 0 = true) (ha1 : a 1 = true)
    (parser : BusConfigParser) (attributes : List (String × String))
    (htop : top_element_type parser = ELEMENT_POLICY) :
    bus_config_parser_start_element a parser "allow" attributes =
      Outcome.success
        { parser with
          stack := parser.stack ++
            [{ type := ELEMENT_ALLOW, had_content := false, ignore_missing := false }] } ∧
    bus_config_parser_start_element a parser "deny" attributes =
      Outcome.success
        { parser with
          stack := parser.stack ++
            [{ type := ELEMENT_DENY, had_content := false, ignore_missing := false }] } := by
  constructor
  · rw [start_element_at_policy a parser _ _ htop]
    simp [start_policy_child, push_element_ok a ha0 ha1 parser ELEMENT_ALLOW (by decide)]
  · rw [start_element_at_policy a parser _ _ htop]
    simp [start_policy_child, push_element_ok a ha0 ha1 parser ELEMENT_DENY (by decide)]

/-- Witness of C26: inside `<busconfig><policy>`, `<allow>` with an unknown
attribute and a repeated attribute is accepted. -/
theorem policy_child_attributes_ignored_witness :
    bus_config_parser_start_element alloc_ok
        { refcount := 1,
          stack := [{ type := ELEMENT_BUSCONFIG, had_content := false, ignore_missing := false },
                    { type := ELEMENT_POLICY, had_content := false, ignore_missing := false }],
          user := none, listen_on := [] } "allow"
        [("bogus", "1"), ("user", "a"), ("user", "b")] =
      Outcome.success
        { refcount := 1,
          stack := [{ type := ELEMENT_BUSCONFIG, had_content := false, ignore_missing := false },
                    { type := ELEMENT_POLICY, had_content := false, ignore_missing := false },
                    { type := ELEMENT_ALLOW, had_content := false, ignore_missing := false }],
          user := none, listen_on := [] } :=
  (policy_child_attributes_ignored alloc_ok rfl rfl
    { refcount := 1,
      stack := [{ type := ELEMENT_BUSCONFIG, had_content := false, ignore_missing := false },
                { type := ELEMENT_POLICY, had_content := false, ignore_missing := false }],
      user := none, listen_on := [] }
    [("bogus", "1"), ("user", "a"), ("user", "b")] rfl).1

/-! ### More than one root -/

/-- C28: the parser does not enforce a single root element.  On a fresh parser
start busconfig, end busconfig, start busconfig, end busconfig all succeed and
`bus_config_parser_finished` succeeds; whenever the stack is empty (and the
allocations of the frame succeed) start-element of busconfig without
attributes succeeds and keeps user and listen list, however they were
accumulated; for instance a user and a listen address given under a first
root and a listen address given under a second root are all in the result. -/
theorem second_root_accepted :
    (∀ load : String → Except DBusError BusConfigParser,
      run_events load alloc_ok { refcount := 1, stack := [], user := none, listen_on := [] }
          [Event.start_element "busconfig" [], Event.end_element "busconfig",
           Event.start_element "busconfig" [], Event.end_element "busconfig"] =
        Outcome.success { refcount := 1, stack := [], user := none, listen_on := [] } ∧
      bus_config_parser_finished
          { refcount := 1, stack := [], user := none, listen_on := [] } =
        Outcome.success { refcount := 1, stack := [], user := none, listen_on := [] }) ∧
    (∀ (a : Alloc) (parser : BusConfigParser), a 0 = true → a 1 = true →
      parser.stack = [] →
      bus_config_parser_start_element a parser "busconfig" [] =
        Outcome.success
          { parser with
            stack :=
              [{ type := ELEMENT_BUSCONFIG, had_content := false, ignore_missing := false }] }) ∧
    (∀ load : String → Except DBusError BusConfigParser,
      run_events load alloc_ok { refcount := 1, stack := [], user := none, listen_on := [] }
          [Event.start_element "busconfig" [],
           Event.start_element "user" [], Event.content "messagebus",
           Event.end_element "user",
           Event.start_element "listen" [], Event.content "unix:path=/tmp/x",
           Event.end_element "listen",
           Event.end_element "busconfig",
           Event.start_element "busconfig" [],
           Event.start_element "listen" [], Event.content "unix:path=/tmp/y",
           Event.end_element "listen",
           Event.end_element "busconfig"] =
        Outcome.success
          { refcount := 1, stack := [], user := some "messagebus",
            listen_on := ["unix:path=/tmp/x", "unix:path=/tmp/y"] }) := by
  refine ⟨?_, ?_, ?_⟩
  · intro load
    exact ⟨rfl, by decide⟩
  · intro a parser ha0 ha1 hs
    unfold bus_config_parser_start_element
    simp [top_type_nil parser hs, check_no_attributes,
      push_element_ok a ha0 ha1 parser ELEMENT_BUSCONFIG (by decide), hs]
  · intro load
    rfl


/-! ### Allocation failure -/

theorem push_element_null (a : Alloc) (parser : BusConfigParser) (type : ElementType)
    (ht : type ≠ ELEMENT_NONE) (hfail : a 0 = false ∨ a 1 = false) :
    push_element a parser type = PushResult.null := by
  unfold push_element
  rcases hfail with h | h
  · simp [ht, h]
  · by_cases h0 : a 0 = false
    · simp [ht, h0]
    · simp [ht, h0, h]

/-- C22: with the outcome of every allocating step given by the oracle of the
call: when a start-element call gets as far as `push_element` and one of the
two allocations of the frame fails, the call fails with the no-memory error
and the parser is unchanged; when `bus_config_parser_content` on a User frame
cannot copy the text, or on a Listen frame cannot copy the text or cannot
append it to the list, the call fails with the no-memory error and user,
listen list and stack depth are as before the call.  In none of these cases
does the call succeed. -/
theorem allocation_failure_reported (a : Alloc) (parser : BusConfigParser) :
    (∀ element_name attributes, spec_reaches_push parser element_name attributes →
      (a 0 = false ∨ a 1 = false) →
      bus_config_parser_start_element a parser element_name attributes =
        Outcome.failure no_memory parser) ∧
    (∀ (load : String → Except DBusError BusConfigParser) (xs : List Element)
        (f : Element) (text : String),
      parser.stack = xs ++ [f] → f.had_content = false →
      ((f.type = ELEMENT_USER ∧ a 0 = false) ∨
        (f.type = ELEMENT_LISTEN ∧ (a 0 = false ∨ a 1 = false))) →
      ∃ q, bus_config_parser_content load a parser text = Outcome.failure no_memory q ∧
        q.user = parser.user ∧ q.listen_on = parser.listen_on ∧
        q.stack.length = parser.stack.length) ∧
    no_memory.name = DBUS_ERROR_NO_MEMORY := by
  refine ⟨?_, ?_, rfl⟩
  · intro element_name attributes hreach hfail
    rcases hreach with ⟨htop, hn, hat⟩ | ⟨htop, h⟩ | ⟨htop, h⟩
    · subst hn hat
      simp [bus_config_parser_start_element, htop, check_no_attributes,
        push_element_null a parser ELEMENT_BUSCONFIG (by decide) hfail]
    · rw [start_element_at_busconfig a parser _ _ htop]
      rcases h with ⟨hn | hn, hat⟩ | hn | hn
      · subst hn hat
        simp [start_busconfig_child, check_no_attributes,
          push_element_null a parser ELEMENT_USER (by decide) hfail]
      · subst hn hat
        simp [start_busconfig_child, check_no_attributes,
          push_element_null a parser ELEMENT_LISTEN (by decide) hfail]
      · subst hn
        simp [start_busconfig_child,
          push_element_null a parser ELEMENT_INCLUDE (by decide) hfail]
      · subst hn
        simp [start_busconfig_child,
          push_element_null a parser ELEMENT_POLICY (by decide) hfail]
    · rw [start_element_at_policy a parser _ _ htop]
      rcases h with hn | hn
      · subst hn
        simp [start_policy_child,
          push_element_null a parser ELEMENT_ALLOW (by decide) hfail]
      · subst hn
        simp [start_policy_child,
          push_element_null a parser ELEMENT_DENY (by decide) hfail]
  · intro load xs f text hs hc hcase
    refine ⟨{ parser with stack := xs ++ [set_had_content f] }, ?_, rfl, rfl, ?_⟩
    · unfold bus_config_parser_content
      rw [peek_concat parser xs f hs, top_type_concat parser xs f hs]
      rcases hcase with ⟨ht, h0⟩ | ⟨ht, h0 | h1⟩
      · simp [hc, ht, hs, h0, update_top_concat]
      · simp [hc, ht, hs, h0, update_top_concat]
      · by_cases h0 : a 0 = false
        · simp [hc, ht, hs, h0, update_top_concat]
        · simp [hc, ht, hs, h0, h1, update_top_concat]
    · simp [hs]

/-- Witness of C22: inside `<busconfig>`, `<user>` whose frame cannot be
allocated fails with the no-memory error and leaves the parser unchanged. -/
theorem allocation_failure_reported_witness :
    bus_config_parser_start_element (fun _ => false)
        { refcount := 1,
          stack := [{ type := ELEMENT_BUSCONFIG, had_content := false, ignore_missing := false }],
          user := none, listen_on := [] } "user" [] =
      Outcome.failure no_memory
        { refcount := 1,
          stack := [{ type := ELEMENT_BUSCONFIG, had_content := false, ignore_missing := false }],
          user := none, listen_on := [] } :=
  (allocation_failure_reported (fun _ => false)
    { refcount := 1,
      stack := [{ type := ELEMENT_BUSCONFIG, had_content := false, ignore_missing := false }],
      user := none, listen_on := [] }).1 "user" []
    (Or.inr (Or.inl ⟨rfl, Or.inl ⟨Or.inl rfl, rfl⟩⟩)) (Or.inl rfl)


/-! ### The states a parser can reach -/

theorem locate_attributes_short_never_aborts (el : String) (present : List (String × String))
    (first : String) (more : List String) (hlen : (first :: more).length ≤ MAX_ATTRS)
    (msg : String) :
    locate_attributes el present first more ≠ LocateResult.aborted msg := by
  rw [locate_attributes_eq_loop el present first more hlen]
  exact locate_loop_never_aborts _ _ _ _

theorem push_element_cases (a : Alloc) (p : BusConfigParser) (t : ElementType)
    (ht : t ≠ ELEMENT_NONE) :
    push_element a p t = PushResult.null ∨
    push_element a p t = PushResult.pushed
      { p with stack := p.stack ++
          [{ type := t, had_content := false, ignore_missing := false }] } := by
  unfold push_element
  by_cases h0 : a 0 = false
  · simp [ht, h0]
  · by_cases h1 : a 1 = false
    · simp [ht, h0, h1]
    · simp [ht, h0, h1]

theorem start_policy_child_returns (a : Alloc) (p : BusConfigParser) (element_name : String)
    (attributes : List (String × String)) (htop : top_element_type p = ELEMENT_POLICY) :
    returns_with (pushed_effect p) (start_effect p) (start_policy_child a p element_name attributes) := by
  unfold start_policy_child
  by_cases h1 : element_name = "allow"
  · simp only [h1, if_true]
    rcases push_element_cases a p ELEMENT_ALLOW (by decide) with h | h
    · rw [h]
      exact Or.inl rfl
    · rw [h]
      exact ⟨_, _, rfl, Or.inr (Or.inr ⟨htop, Or.inl rfl⟩)⟩
  · by_cases h2 : element_name = "deny"
    · simp only [h1, h2, if_true, if_false]
      rcases push_element_cases a p ELEMENT_DENY (by decide) with h | h
      · rw [h]
        simp only [(by decide : ¬ ("deny" = "allow")), if_false]
        exact Or.inl rfl
      · rw [h]
        simp only [(by decide : ¬ ("deny" = "allow")), if_false]
        exact ⟨_, _, rfl, Or.inr (Or.inr ⟨htop, Or.inr rfl⟩)⟩
    · simp only [h1, h2, if_false]
      exact Or.inl rfl

theorem start_no_attributes_returns (a : Alloc) (p : BusConfigParser) (el : String)
    (attributes : List (String × String)) (t : ElementType) (ht : t ≠ ELEMENT_NONE)
    (hfit : (top_element_type p = ELEMENT_NONE ∧ t = ELEMENT_BUSCONFIG) ∨
     (top_element_type p = ELEMENT_BUSCONFIG ∧
       (t = ELEMENT_USER ∨ t = ELEMENT_LISTEN ∨ t = ELEMENT_INCLUDE ∨ t = ELEMENT_POLICY)) ∨
     (top_element_type p = ELEMENT_POLICY ∧ (t = ELEMENT_ALLOW ∨ t = ELEMENT_DENY))) :
    returns_with (pushed_effect p) (start_effect p)
      (match check_no_attributes el attributes with
       | some err => Outcome.failure err p
       | none =>
         match push_element a p t with
         | PushResult.assert_failed => Outcome.aborted "type != ELEMENT_NONE"
         | PushResult.null => Outcome.failure no_memory p
         | PushResult.pushed q => Outcome.success q) := by
  cases hc : check_no_attributes el attributes with
  | some err => exact Or.inl rfl
  | none =>
    rcases push_element_cases a p t ht with h | h
    · simp only [h]
      exact Or.inl rfl
    · simp only [h]
      exact ⟨_, _, rfl, hfit⟩

theorem start_include_returns (a : Alloc) (p : BusConfigParser)
    (attributes : List (String × String)) (htop : top_element_type p = ELEMENT_BUSCONFIG) :
    returns_with (pushed_effect p) (start_effect p) (start_busconfig_child a p "include" attributes) := by
  have hpush : ∀ im : Bool, pushed_effect p
      { p with stack := p.stack ++
          [{ type := ELEMENT_INCLUDE, had_content := false, ignore_missing := im }] } :=
    fun im => ⟨_, im, rfl, Or.inr (Or.inl ⟨htop, Or.inr (Or.inr (Or.inl rfl))⟩)⟩
  have hfit : ∀ im : Bool, start_effect p
      { p with stack := p.stack ++
          [{ type := ELEMENT_INCLUDE, had_content := false, ignore_missing := im }] } :=
    fun im => Or.inr (hpush im)
  unfold start_busconfig_child
  simp only [(by decide : ¬ ("include" = "user")), (by decide : ¬ ("include" = "listen")),
    if_false, if_true]
  rcases push_element_cases a p ELEMENT_INCLUDE (by decide) with h | h
  · simp only [h]
    exact Or.inl rfl
  · simp only [h, update_top_concat, set_ignore_missing]
    cases hl : locate_attributes "include" attributes "ignore_missing" [] with
    | aborted msg =>
      exact absurd hl (locate_attributes_short_never_aborts _ _ _ _ (by decide) msg)
    | failure err => exact hfit false
    | success retlocs =>
      simp only []
      cases hr : retlocs.getD 0 none with
      | none => exact hpush false
      | some v =>
        simp only []
        by_cases hy : v = "yes"
        · simp only [hy, if_true]
          exact hpush true
        · by_cases hn : v = "no"
          · simp only [hn, (by decide : ¬ ("no" = "yes")), if_true, if_false]
            exact hpush false
          · simp only [hy, hn, if_false]
            exact hfit false

theorem start_policy_returns (a : Alloc) (p : BusConfigParser)
    (attributes : List (String × String)) (htop : top_element_type p = ELEMENT_BUSCONFIG) :
    returns_with (pushed_effect p) (start_effect p) (start_busconfig_child a p "policy" attributes) := by
  have hpush : pushed_effect p
      { p with stack := p.stack ++
          [{ type := ELEMENT_POLICY, had_content := false, ignore_missing := false }] } :=
    ⟨_, false, rfl, Or.inr (Or.inl ⟨htop, Or.inr (Or.inr (Or.inr rfl))⟩)⟩
  have hfit : start_effect p
      { p with stack := p.stack ++
          [{ type := ELEMENT_POLICY, had_content := false, ignore_missing := false }] } :=
    Or.inr hpush
  unfold start_busconfig_child
  simp only [(by decide : ¬ ("policy" = "user")), (by decide : ¬ ("policy" = "listen")),
    (by decide : ¬ ("policy" = "include")), if_false, if_true]
  rcases push_element_cases a p ELEMENT_POLICY (by decide) with h | h
  · simp only [h]
    exact Or.inl rfl
  · simp only [h]
    cases hl : locate_attributes "include" attributes "context" ["user", "group"] with
    | aborted msg =>
      exact absurd hl (locate_attributes_short_never_aborts _ _ _ _ (by decide) msg)
    | failure err => exact hfit
    | success retlocs => exact hpush

theorem start_busconfig_child_returns (a : Alloc) (p : BusConfigParser)
    (element_name : String) (attributes : List (String × String))
    (htop : top_element_type p = ELEMENT_BUSCONFIG) :
    returns_with (pushed_effect p) (start_effect p) (start_busconfig_child a p element_name attributes) := by
  by_cases h1 : element_name = "user"
  · subst h1
    have h := start_no_attributes_returns a p "user" attributes ELEMENT_USER (by decide)
      (Or.inr (Or.inl ⟨htop, Or.inl rfl⟩))
    simpa [start_busconfig_child] using h
  · by_cases h2 : element_name = "listen"
    · subst h2
      have h := start_no_attributes_returns a p "listen" attributes ELEMENT_LISTEN (by decide)
        (Or.inr (Or.inl ⟨htop, Or.inr (Or.inl rfl)⟩))
      simpa [start_busconfig_child] using h
    · by_cases h3 : element_name = "include"
      · subst h3
        exact start_include_returns a p attributes htop
      · by_cases h4 : element_name = "policy"
        · subst h4
          exact start_policy_returns a p attributes htop
        · unfold start_busconfig_child
          simp only [h1, h2, h3, h4, if_false]
          exact Or.inl rfl

theorem start_element_returns (a : Alloc) (p : BusConfigParser) (element_name : String)
    (attributes : List (String × String)) :
    returns_with (pushed_effect p) (start_effect p)
      (bus_config_parser_start_element a p element_name attributes) := by
  by_cases h0 : top_element_type p = ELEMENT_NONE
  · by_cases hn : element_name = "busconfig"
    · subst hn
      have h := start_no_attributes_returns a p "busconfig" attributes ELEMENT_BUSCONFIG
        (by decide) (Or.inl ⟨h0, rfl⟩)
      simpa [bus_config_parser_start_element, h0] using h
    · simp only [bus_config_parser_start_element, h0, hn, if_true, if_false]
      exact Or.inl rfl
  · by_cases h1 : top_element_type p = ELEMENT_BUSCONFIG
    · rw [start_element_at_busconfig a p _ _ h1]
      exact start_busconfig_child_returns a p element_name attributes h1
    · by_cases h2 : top_element_type p = ELEMENT_POLICY
      · rw [start_element_at_policy a p _ _ h2]
        exact start_policy_child_returns a p element_name attributes h2
      · simp only [bus_config_parser_start_element, h0, h1, h2, if_false]
        exact Or.inl rfl

theorem end_element_outcome (p : BusConfigParser) (element_name : String) :
    (∃ err, bus_config_parser_end_element p element_name = Outcome.failure err p) ∨
    (bus_config_parser_end_element p element_name = Outcome.success (pop_element p) ∧
      p.stack ≠ []) := by
  rcases stack_cases p with h | ⟨xs, e, h⟩
  · exact Or.inl ⟨_, end_element_nil p element_name h⟩
  · rw [end_element_concat p element_name xs e h]
    by_cases h1 : e.type = ELEMENT_NONE
    · simp [h1]
    · by_cases h2 : element_type_to_name e.type = some element_name
      · by_cases h3 : needs_content e.type ∧ e.had_content = false
        · simp [h1, h2, h3]
        · simp [h1, h2, h3, h]
      · simp [h1, h2]

theorem content_outcome (load : String → Except DBusError BusConfigParser) (a : Alloc)
    (p : BusConfigParser) (text : String) :
    returns_unless (content_effect p) (content_abort_cause p)
      (bus_config_parser_content load a p text) := by
  rcases stack_cases p with h | ⟨xs, f, h⟩
  · simp only [bus_config_parser_content, peek_element, h, List.getLast?_nil]
    exact Or.inl rfl
  · cases hc : f.had_content with
    | true =>
      unfold bus_config_parser_content
      rw [peek_concat p xs f h]
      simp only [hc, if_true]
      exact ⟨xs, f, h, Or.inl hc⟩
    | false =>
      have hmark : needs_content f.type →
          content_effect p { p with stack := xs ++ [set_had_content f] } :=
        fun hn => Or.inr ⟨xs, f, h, rfl, hn⟩
      have hsame : content_effect p p := Or.inl rfl
      unfold bus_config_parser_content
      rw [peek_concat p xs f h, top_type_concat p xs f h]
      simp only [hc, Bool.false_eq_true, if_false, h, update_top_concat]
      cases ht : f.type with
      | ELEMENT_NONE => exact ⟨xs, f, h, Or.inr ht⟩
      | ELEMENT_BUSCONFIG =>
        by_cases hw : all_whitespace text = true <;> simp only [hw, if_true, if_false] <;>
          exact hsame
      | ELEMENT_POLICY =>
        by_cases hw : all_whitespace text = true <;> simp only [hw, if_true, if_false] <;>
          exact hsame
      | ELEMENT_LIMIT =>
        by_cases hw : all_whitespace text = true <;> simp only [hw, if_true, if_false] <;>
          exact hsame
      | ELEMENT_ALLOW =>
        by_cases hw : all_whitespace text = true <;> simp only [hw, if_true, if_false] <;>
          exact hsame
      | ELEMENT_DENY =>
        by_cases hw : all_whitespace text = true <;> simp only [hw, if_true, if_false] <;>
          exact hsame
      | ELEMENT_AUTH => exact hmark (by simp [needs_content, ht])
      | ELEMENT_USER =>
        have hm := hmark (by simp [needs_content, ht])
        by_cases h0 : a 0 = false
        · simp only [h0, if_true]
          exact hm
        · simp only [h0, if_false]
          exact hm
      | ELEMENT_LISTEN =>
        have hm := hmark (by simp [needs_content, ht])
        by_cases h0 : a 0 = false
        · simp only [h0, if_true]
          exact hm
        · by_cases h1 : a 1 = false
          · simp only [h0, h1, if_true, if_false]
            exact hm
          · simp only [h0, h1, if_false]
            exact hm
      | ELEMENT_INCLUDE =>
        have hm := hmark (by simp [needs_content, ht])
        cases hl : load text with
        | error err =>
          by_cases hrec : err.name = DBUS_ERROR_FILE_NOT_FOUND ∧ f.ignore_missing = true
          · simp only [hrec, and_self, if_true]
            exact hm
          · simp only [hrec, if_false]
            exact hm
        | ok included =>
          have hne : needs_content f.type := by simp [needs_content, ht]
          cases hu : included.user <;> simp only [merge_included, hu] <;>
            exact Or.inr ⟨xs, f, h, rfl, hne⟩

theorem shape_start (p q : BusConfigParser) (hw : well_shaped p.stack = true)
    (he : start_effect p q) : well_shaped q.stack = true := by
  rcases he with he | ⟨t, im, hq, hfit⟩
  · rw [he]
    exact hw
  · subst hq
    simp only [top_element_type] at hfit
    cases hs : p.stack with
    | nil =>
      simp only [hs, List.getLast?_nil] at hfit
      simp only [hs, List.nil_append]
      rcases hfit with ⟨_, ht⟩ | ⟨h, _⟩ | ⟨h, _⟩
      · subst ht
        rfl
      · cases h
      · cases h
    | cons bc t1 =>
      cases t1 with
      | nil =>
        simp only [hs, well_shaped, Element.untouched, Bool.and_eq_true, decide_eq_true_eq,
          Bool.not_eq_true'] at hw
        simp only [hs, List.getLast?_singleton, hw.1] at hfit
        simp only [hs, List.singleton_append, well_shaped, Element.untouched,
          Element.takes_content]
        rcases hfit with ⟨h, _⟩ | ⟨_, ht⟩ | ⟨h, _⟩
        · cases h
        · rcases ht with ht | ht | ht | ht <;> subst ht <;> simp [hw.1, hw.2]
        · cases h
      | cons x t2 =>
        cases t2 with
        | nil =>
          simp only [hs, well_shaped, Element.untouched, Element.takes_content,
            Bool.and_eq_true, Bool.or_eq_true, decide_eq_true_eq, Bool.not_eq_true'] at hw
          have hlast : [bc, x].getLast? = some x := rfl
          simp only [hs, hlast] at hfit
          simp only [hs, List.cons_append, List.nil_append, well_shaped, Element.untouched]
          rcases hfit with ⟨h, _⟩ | ⟨h, _⟩ | ⟨h, ht⟩
          · rcases hw.2 with ((h1 | h1) | h1) | h1
            · rw [h1] at h; cases h
            · rw [h1] at h; cases h
            · rw [h1] at h; cases h
            · rw [h1.1] at h; cases h
          · rcases hw.2 with ((h1 | h1) | h1) | h1
            · rw [h1] at h; cases h
            · rw [h1] at h; cases h
            · rw [h1] at h; cases h
            · rw [h1.1] at h; cases h
          · have hx : x.had_content = false := by
              rcases hw.2 with ((h1 | h1) | h1) | h1
              · rw [h1] at h; cases h
              · rw [h1] at h; cases h
              · rw [h1] at h; cases h
              · exact h1.2
            rcases ht with ht | ht <;> subst ht <;> simp [hw.1, h, hx]
        | cons y t3 =>
          cases t3 with
          | nil =>
            simp only [hs, well_shaped, Element.untouched, Bool.and_eq_true, Bool.or_eq_true,
              decide_eq_true_eq, Bool.not_eq_true'] at hw
            have hlast : [bc, x, y].getLast? = some y := rfl
            simp only [hs, hlast] at hfit
            rcases hfit with ⟨h, _⟩ | ⟨h, _⟩ | ⟨h, _⟩ <;>
              rcases hw.2 with h1 | h1 <;> rw [h1.1] at h <;> cases h
          | cons z t4 => simp [hs, well_shaped] at hw

theorem shape_pop (s : List Element) (hw : well_shaped s = true) :
    well_shaped s.dropLast = true := by
  match s, hw with
  | [], _ => rfl
  | [_], _ => rfl
  | [bc, x], hw =>
    simp only [well_shaped, Bool.and_eq_true] at hw
    simpa [well_shaped] using hw.1
  | [bc, pol, y], hw =>
    simp only [well_shaped, Bool.and_eq_true] at hw
    simp [well_shaped, hw.1.1, hw.1.2]
  | _ :: _ :: _ :: _ :: _, hw => simp [well_shaped] at hw

theorem shape_content (p q : BusConfigParser) (hw : well_shaped p.stack = true)
    (he : content_effect p q) : well_shaped q.stack = true := by
  rcases he with he | ⟨xs, f, hp, hq, hn⟩
  · rw [he]
    exact hw
  · rw [hq]
    rw [hp] at hw
    match xs, hw with
    | [], hw =>
      simp only [List.nil_append, well_shaped, Element.untouched, Bool.and_eq_true,
        decide_eq_true_eq] at hw
      simp [needs_content, hw.1] at hn
    | [bc], hw =>
      simp only [List.singleton_append, well_shaped, Element.untouched, Element.takes_content,
        Bool.and_eq_true, Bool.or_eq_true, decide_eq_true_eq, Bool.not_eq_true'] at hw
      simp only [List.singleton_append, well_shaped, Element.untouched, Element.takes_content,
        set_had_content]
      rcases hw.2 with h1 | h1
      · simp [hw.1, h1]
      · simp [needs_content, h1.1] at hn
    | [bc, pol], hw =>
      simp only [List.cons_append, List.nil_append, well_shaped, Element.untouched,
        Bool.and_eq_true, Bool.or_eq_true, decide_eq_true_eq, Bool.not_eq_true'] at hw
      rcases hw.2 with h1 | h1 <;> simp [needs_content, h1.1] at hn
    | _ :: _ :: _ :: _, hw => simp [well_shaped] at hw

theorem step_shape (p q : BusConfigParser) (c : Call) (hw : well_shaped p.stack = true)
    (h : apply_call p c = Outcome.success q ∨ ∃ err, apply_call p c = Outcome.failure err q) :
    well_shaped q.stack = true := by
  unfold apply_call at h
  cases hev : c.event with
  | start_element n attrs =>
    simp only [hev, apply_event] at h
    have hr := start_element_returns c.alloc p n attrs
    rcases h with h | ⟨err, h⟩
    · rw [h] at hr
      exact shape_start p q hw (Or.inr hr)
    · rw [h] at hr
      exact shape_start p q hw hr
  | end_element n =>
    simp only [hev, apply_event] at h
    have hq : q = p ∨ q = pop_element p := by
      rcases end_element_outcome p n with ⟨err, he⟩ | ⟨he, _⟩
      · rw [he] at h
        rcases h with h | ⟨err2, h⟩
        · cases h
        · injection h with _ h2
          exact Or.inl h2.symm
      · rw [he] at h
        rcases h with h | ⟨err2, h⟩
        · injection h with h2
          exact Or.inr h2.symm
        · cases h
    rcases hq with hq | hq
    · rw [hq]
      exact hw
    · rw [hq]
      exact shape_pop p.stack hw
  | content text =>
    simp only [hev, apply_event] at h
    have hr := content_outcome c.bus_config_load c.alloc p text
    rcases h with h | ⟨err, h⟩
    · rw [h] at hr
      exact shape_content p q hw hr
    · rw [h] at hr
      exact shape_content p q hw hr

theorem reachable_well_shaped (p : BusConfigParser) (h : Reachable p) :
    well_shaped p.stack = true := by
  induction h with
  | fresh a p hnew =>
    unfold bus_config_parser_new at hnew
    by_cases h0 : a 0 = false
    · simp [h0] at hnew
    · have h1 : a 0 = true := by
        cases h : a 0
        · exact absurd h h0
        · rfl
      simp only [h1, Bool.true_eq_false, if_false, Option.some.injEq] at hnew
      rw [← hnew]
      rfl
  | after_success p q c _ hstep ih => exact step_shape p q c ih (Or.inl hstep)
  | after_failure p q c err _ hstep ih => exact step_shape p q c ih (Or.inr ⟨err, hstep⟩)

theorem well_shaped_cases (s : List Element) (hw : well_shaped s = true) :
    s = [] ∨
    (∃ bc, s = [bc] ∧ bc.type = ELEMENT_BUSCONFIG ∧ bc.had_content = false) ∨
    (∃ bc x, s = [bc, x] ∧ bc.type = ELEMENT_BUSCONFIG ∧ bc.had_content = false ∧
      ((x.type = ELEMENT_INCLUDE ∨ x.type = ELEMENT_USER ∨ x.type = ELEMENT_LISTEN) ∨
        (x.type = ELEMENT_POLICY ∧ x.had_content = false))) ∨
    (∃ bc pol y, s = [bc, pol, y] ∧ bc.type = ELEMENT_BUSCONFIG ∧ bc.had_content = false ∧
      pol.type = ELEMENT_POLICY ∧ pol.had_content = false ∧
      (y.type = ELEMENT_ALLOW ∨ y.type = ELEMENT_DENY) ∧ y.had_content = false) := by
  match s, hw with
  | [], _ => exact Or.inl rfl
  | [bc], hw =>
    simp only [well_shaped, Element.untouched, Bool.and_eq_true, decide_eq_true_eq,
      Bool.not_eq_true'] at hw
    exact Or.inr (Or.inl ⟨bc, rfl, hw.1, hw.2⟩)
  | [bc, x], hw =>
    simp only [well_shaped, Element.untouched, Element.takes_content, Bool.and_eq_true,
      Bool.or_eq_true, decide_eq_true_eq, Bool.not_eq_true'] at hw
    refine Or.inr (Or.inr (Or.inl ⟨bc, x, rfl, hw.1.1, hw.1.2, ?_⟩))
    rcases hw.2 with ((h | h) | h) | h
    · exact Or.inl (Or.inl h)
    · exact Or.inl (Or.inr (Or.inl h))
    · exact Or.inl (Or.inr (Or.inr h))
    · exact Or.inr h
  | [bc, pol, y], hw =>
    simp only [well_shaped, Element.untouched, Bool.and_eq_true, Bool.or_eq_true,
      decide_eq_true_eq, Bool.not_eq_true'] at hw
    refine Or.inr (Or.inr (Or.inr ⟨bc, pol, y, rfl, hw.1.1.1, hw.1.1.2, hw.1.2.1, hw.1.2.2,
      ?_⟩))
    rcases hw.2 with h | h
    · exact ⟨Or.inl h.1, h.2⟩
    · exact ⟨Or.inr h.1, h.2⟩
  | _ :: _ :: _ :: _ :: _, hw => simp [well_shaped] at hw


/-- C27: in every parser state reachable from `bus_config_parser_new` by
start-element, end-element and content calls, successful or failed, the stack
is empty, or [BusConfig], or [BusConfig, X] with X an Include, User, Listen or
Policy frame, or [BusConfig, Policy, Y] with Y an Allow or Deny frame; so its
depth is at most 3, its bottom frame is a BusConfig frame, and no frame has
the type Auth, Limit or `ELEMENT_NONE`, which leaves the Auth and Limit
branches of `bus_config_parser_end_element` and `bus_config_parser_content`
without a state that selects them. -/
theorem reachable_stack_shapes (p : BusConfigParser) (h : Reachable p) :
    (p.stack = [] ∨
      (∃ bc, p.stack = [bc] ∧ bc.type = ELEMENT_BUSCONFIG) ∨
      (∃ bc x, p.stack = [bc, x] ∧ bc.type = ELEMENT_BUSCONFIG ∧
        (x.type = ELEMENT_INCLUDE ∨ x.type = ELEMENT_USER ∨ x.type = ELEMENT_LISTEN ∨
          x.type = ELEMENT_POLICY)) ∨
      (∃ bc pol y, p.stack = [bc, pol, y] ∧ bc.type = ELEMENT_BUSCONFIG ∧
        pol.type = ELEMENT_POLICY ∧ (y.type = ELEMENT_ALLOW ∨ y.type = ELEMENT_DENY))) ∧
    p.stack.length ≤ 3 ∧
    (∀ e, p.stack.head? = some e → e.type = ELEMENT_BUSCONFIG) ∧
    (∀ e ∈ p.stack,
      e.type ≠ ELEMENT_AUTH ∧ e.type ≠ ELEMENT_LIMIT ∧ e.type ≠ ELEMENT_NONE) ∧
    top_element_type p ≠ ELEMENT_AUTH ∧ top_element_type p ≠ ELEMENT_LIMIT := by
  rcases well_shaped_cases p.stack (reachable_well_shaped p h) with
    hs | ⟨bc, hs, hbc, _⟩ | ⟨bc, x, hs, hbc, _, hx⟩ | ⟨bc, pol, y, hs, hbc, _, hpol, _, hy, _⟩
  · refine ⟨Or.inl hs, by simp [hs], by simp [hs], by simp [hs], ?_, ?_⟩ <;>
      simp [top_element_type, hs]
  · refine ⟨Or.inr (Or.inl ⟨bc, hs, hbc⟩), by simp [hs], by simp [hs, hbc],
      by simp [hs, hbc], ?_, ?_⟩ <;> simp [top_element_type, hs, hbc]
  · have hx4 : x.type = ELEMENT_INCLUDE ∨ x.type = ELEMENT_USER ∨ x.type = ELEMENT_LISTEN ∨
        x.type = ELEMENT_POLICY := by
      rcases hx with (h1 | h1 | h1) | h1
      · exact Or.inl h1
      · exact Or.inr (Or.inl h1)
      · exact Or.inr (Or.inr (Or.inl h1))
      · exact Or.inr (Or.inr (Or.inr h1.1))
    refine ⟨Or.inr (Or.inr (Or.inl ⟨bc, x, hs, hbc, hx4⟩)), by simp [hs], by simp [hs, hbc],
      ?_, ?_, ?_⟩
    · intro e he
      simp only [hs, List.mem_cons, List.mem_singleton, List.not_mem_nil, or_false] at he
      rcases he with he | he
      · subst he
        simp [hbc]
      · subst he
        rcases hx4 with h1 | h1 | h1 | h1 <;> simp [h1]
    · rcases hx4 with h1 | h1 | h1 | h1 <;> simp [top_element_type, hs, h1]
    · rcases hx4 with h1 | h1 | h1 | h1 <;> simp [top_element_type, hs, h1]
  · refine ⟨Or.inr (Or.inr (Or.inr ⟨bc, pol, y, hs, hbc, hpol, hy⟩)), by simp [hs],
      by simp [hs, hbc], ?_, ?_, ?_⟩
    · intro e he
      simp only [hs, List.mem_cons, List.mem_singleton, List.not_mem_nil, or_false] at he
      rcases he with he | he | he
      · subst he
        simp [hbc]
      · subst he
        simp [hpol]
      · subst he
        rcases hy with h1 | h1 <;> simp [h1]
    · rcases hy with h1 | h1 <;> simp [top_element_type, hs, h1]
    · rcases hy with h1 | h1 <;> simp [top_element_type, hs, h1]

theorem reachable_policy_allow :
    Reachable
      { refcount := 1,
        stack := [{ type := ELEMENT_BUSCONFIG, had_content := false, ignore_missing := false },
                  { type := ELEMENT_POLICY, had_content := false, ignore_missing := false },
                  { type := ELEMENT_ALLOW, had_content := false, ignore_missing := false }],
        user := none, listen_on := [] } := by
  have h0 : Reachable { refcount := 1, stack := [], user := none, listen_on := [] } :=
    Reachable.fresh alloc_ok _ rfl
  have h1 := Reachable.after_success _
    { refcount := 1,
      stack := [{ type := ELEMENT_BUSCONFIG, had_content := false, ignore_missing := false }],
      user := none, listen_on := [] }
    { bus_config_load := fun _ => Except.error no_memory, alloc := alloc_ok,
      event := Event.start_element "busconfig" [] } h0 (by decide)
  have h2 := Reachable.after_success _
    { refcount := 1,
      stack := [{ type := ELEMENT_BUSCONFIG, had_content := false, ignore_missing := false },
                { type := ELEMENT_POLICY, had_content := false, ignore_missing := false }],
      user := none, listen_on := [] }
    { bus_config_load := fun _ => Except.error no_memory, alloc := alloc_ok,
      event := Event.start_element "policy" [] } h1 (by decide)
  exact Reachable.after_success _ _
    { bus_config_load := fun _ => Except.error no_memory, alloc := alloc_ok,
      event := Event.start_element "allow" [] } h2 (by decide)

/-- Witness of C27: the state with `<busconfig><policy><allow>` open is
reachable, and its stack has depth 3 with a BusConfig frame at the bottom. -/
theorem reachable_stack_shapes_witness :
    Reachable
      { refcount := 1,
        stack := [{ type := ELEMENT_BUSCONFIG, had_content := false, ignore_missing := false },
                  { type := ELEMENT_POLICY, had_content := false, ignore_missing := false },
                  { type := ELEMENT_ALLOW, had_content := false, ignore_missing := false }],
        user := none, listen_on := [] } ∧
    ([{ type := ELEMENT_BUSCONFIG, had_content := false, ignore_missing := false },
      { type := ELEMENT_POLICY, had_content := false, ignore_missing := false },
      { type := ELEMENT_ALLOW, had_content := false, ignore_missing := false }] :
        List Element).length ≤ 3 :=
  ⟨reachable_policy_allow, (reachable_stack_shapes _ reachable_policy_allow).2.1⟩


theorem step_touches_top_only (p q : BusConfigParser) (c : Call)
    (h : apply_call p c = Outcome.success q ∨ ∃ err, apply_call p c = Outcome.failure err q) :
    q.stack = p.stack ∨ (∃ f, q.stack = p.stack ++ [f]) ∨ q.stack = p.stack.dropLast ∨
      ∃ xs f, p.stack = xs ++ [f] ∧ q.stack = xs ++ [set_had_content f] := by
  unfold apply_call at h
  cases hev : c.event with
  | start_element n attrs =>
    simp only [hev, apply_event] at h
    have hr := start_element_returns c.alloc p n attrs
    have he : start_effect p q := by
      rcases h with h | ⟨err, h⟩
      · rw [h] at hr
        exact Or.inr hr
      · rw [h] at hr
        exact hr
    rcases he with he | ⟨t, im, hq, _⟩
    · exact Or.inl (by rw [he])
    · exact Or.inr (Or.inl ⟨_, by rw [hq]⟩)
  | end_element n =>
    simp only [hev, apply_event] at h
    rcases end_element_outcome p n with ⟨err, he⟩ | ⟨he, _⟩
    · rw [he] at h
      rcases h with h | ⟨err2, h⟩
      · cases h
      · injection h with _ h2
        exact Or.inl (by rw [h2])
    · rw [he] at h
      rcases h with h | ⟨err2, h⟩
      · injection h with h2
        exact Or.inr (Or.inr (Or.inl (by rw [← h2]; rfl)))
      · cases h
  | content text =>
    simp only [hev, apply_event] at h
    have hr := content_outcome c.bus_config_load c.alloc p text
    have he : content_effect p q := by
      rcases h with h | ⟨err, h⟩
      · rw [h] at hr
        exact hr
      · rw [h] at hr
        exact hr
    rcases he with he | ⟨xs, f, hp, hq, _⟩
    · exact Or.inl he
    · exact Or.inr (Or.inr (Or.inr ⟨xs, f, hp, hq⟩))

/-- C25: in every parser state reachable from `bus_config_parser_new` by
start-element, end-element and content calls, successful or failed, every
frame below the top of the stack has `had_content` false, and a top frame
with `had_content` true is an Include, User or Listen frame.  Every call that
returns leaves the frames below the top as they were: the stack afterwards is
the stack before, or that stack with one frame pushed, or with its top frame
popped, or with `had_content` set in its top frame. -/
theorem reachable_only_top_has_content (p : BusConfigParser) (h : Reachable p) :
    (∀ xs e, p.stack = xs ++ [e] →
      (∀ f ∈ xs, f.had_content = false) ∧
      (e.had_content = true →
        e.type = ELEMENT_INCLUDE ∨ e.type = ELEMENT_USER ∨ e.type = ELEMENT_LISTEN)) ∧
    (∀ (c : Call) (q : BusConfigParser),
      (apply_call p c = Outcome.success q ∨
        ∃ err, apply_call p c = Outcome.failure err q) →
      q.stack = p.stack ∨ (∃ f, q.stack = p.stack ++ [f]) ∨ q.stack = p.stack.dropLast ∨
        ∃ xs f, p.stack = xs ++ [f] ∧ q.stack = xs ++ [set_had_content f]) := by
  refine ⟨?_, fun c q hstep => step_touches_top_only p q c hstep⟩
  intro xs e hs
  rcases well_shaped_cases p.stack (reachable_well_shaped p h) with
    h0 | ⟨bc, h1, hbc, hbcc⟩ | ⟨bc, x, h2, hbc, hbcc, hx⟩ |
    ⟨bc, pol, y, h3, hbc, hbcc, hpol, hpolc, hy, hyc⟩
  · rw [h0] at hs
    simp at hs
  · rw [h1] at hs
    have hxs : xs = [] ∧ e = bc := by
      have h4 : ([] : List Element) ++ [bc] = xs ++ [e] := by simpa using hs
      have := List.append_inj' h4 rfl
      exact ⟨this.1.symm, by simpa using this.2.symm⟩
    obtain ⟨hxs1, hbe⟩ := hxs
    subst hxs1 hbe
    exact ⟨by simp, fun hc => by rw [hbcc] at hc; cases hc⟩
  · rw [h2] at hs
    have hxs : xs = [bc] ∧ e = x := by
      have h4 : [bc] ++ [x] = xs ++ [e] := by simpa using hs
      have := List.append_inj' h4 rfl
      exact ⟨this.1.symm, by simpa using this.2.symm⟩
    obtain ⟨hxs1, hbe⟩ := hxs
    subst hxs1 hbe
    refine ⟨by simp [hbcc], fun hc => ?_⟩
    rcases hx with h5 | h5
    · exact h5
    · rw [h5.2] at hc
      cases hc
  · rw [h3] at hs
    have hxs : xs = [bc, pol] ∧ e = y := by
      have h4 : [bc, pol] ++ [y] = xs ++ [e] := by simpa using hs
      have := List.append_inj' h4 rfl
      exact ⟨this.1.symm, by simpa using this.2.symm⟩
    obtain ⟨hxs1, hbe⟩ := hxs
    subst hxs1 hbe
    exact ⟨by simp [hbcc, hpolc], fun hc => by rw [hyc] at hc; cases hc⟩

theorem reachable_user_with_content :
    Reachable
      { refcount := 1,
        stack := [{ type := ELEMENT_BUSCONFIG, had_content := false, ignore_missing := false },
                  { type := ELEMENT_USER, had_content := true, ignore_missing := false }],
        user := some "messagebus", listen_on := [] } := by
  have h0 : Reachable { refcount := 1, stack := [], user := none, listen_on := [] } :=
    Reachable.fresh alloc_ok _ rfl
  have h1 := Reachable.after_success _
    { refcount := 1,
      stack := [{ type := ELEMENT_BUSCONFIG, had_content := false, ignore_missing := false }],
      user := none, listen_on := [] }
    { bus_config_load := fun _ => Except.error no_memory, alloc := alloc_ok,
      event := Event.start_element "busconfig" [] } h0 (by decide)
  have h2 := Reachable.after_success _
    { refcount := 1,
      stack := [{ type := ELEMENT_BUSCONFIG, had_content := false, ignore_missing := false },
                { type := ELEMENT_USER, had_content := false, ignore_missing := false }],
      user := none, listen_on := [] }
    { bus_config_load := fun _ => Except.error no_memory, alloc := alloc_ok,
      event := Event.start_element "user" [] } h1 (by decide)
  exact Reachable.after_success _ _
    { bus_config_load := fun _ => Except.error no_memory, alloc := alloc_ok,
      event := Event.content "messagebus" } h2 (by decide)

/-- Witness of C25: after `<busconfig><user>messagebus` the only frame with
content is the User frame on top; the BusConfig frame below has none. -/
theorem reachable_only_top_has_content_witness :
    Reachable
      { refcount := 1,
        stack := [{ type := ELEMENT_BUSCONFIG, had_content := false, ignore_missing := false },
                  { type := ELEMENT_USER, had_content := true, ignore_missing := false }],
        user := some "messagebus", listen_on := [] } ∧
    (∀ f ∈ [({ type := ELEMENT_BUSCONFIG, had_content := false, ignore_missing := false } :
        Element)], f.had_content = false) :=
  ⟨reachable_user_with_content,
    ((reachable_only_top_has_content _ reachable_user_with_content).1
      [{ type := ELEMENT_BUSCONFIG, had_content := false, ignore_missing := false }]
      { type := ELEMENT_USER, had_content := true, ignore_missing := false } rfl).1⟩


/-! ### The assertions -/

theorem well_shaped_top_typed (s xs : List Element) (f : Element)
    (hw : well_shaped s = true) (hs : s = xs ++ [f]) : f.type ≠ ELEMENT_NONE := by
  have hlast : s.getLast? = some f := by simp [hs]
  rcases well_shaped_cases s hw with
    h0 | ⟨bc, h1, hbc, _⟩ | ⟨bc, x, h2, _, _, hx⟩ | ⟨bc, pol, y, h3, _, _, _, _, hy, _⟩
  · simp [h0] at hlast
  · simp only [h1, List.getLast?_singleton, Option.some.injEq] at hlast
    rw [← hlast, hbc]
    decide
  · have h4 : [bc, x].getLast? = some x := rfl
    simp only [h2, h4, Option.some.injEq] at hlast
    rw [← hlast]
    rcases hx with (h5 | h5 | h5) | h5
    · rw [h5]; decide
    · rw [h5]; decide
    · rw [h5]; decide
    · rw [h5.1]; decide
  · have h4 : [bc, pol, y].getLast? = some y := rfl
    simp only [h3, h4, Option.some.injEq] at hlast
    rw [← hlast]
    rcases hy with h5 | h5
    · rw [h5]; decide
    · rw [h5]; decide

theorem well_shaped_below_top (s xs : List Element) (f : Element)
    (hw : well_shaped s = true) (hs : s.dropLast = xs ++ [f]) : f.had_content = false := by
  have hlast : s.dropLast.getLast? = some f := by simp [hs]
  rcases well_shaped_cases s hw with
    h0 | ⟨bc, h1, _, _⟩ | ⟨bc, x, h2, _, hbcc, _⟩ | ⟨bc, pol, y, h3, _, _, _, hpolc, _, _⟩
  · simp [h0] at hlast
  · simp [h1] at hlast
  · simp only [h2, List.dropLast_cons₂, List.dropLast_single, List.getLast?_singleton,
      Option.some.injEq] at hlast
    rw [← hlast]
    exact hbcc
  · have h4 : [bc, pol, y].dropLast.getLast? = some pol := rfl
    simp only [h3, h4, Option.some.injEq] at hlast
    rw [← hlast]
    exact hpolc

theorem run_calls_never_aborts (calls : List Call) :
    ∀ (p : BusConfigParser) (last_content : Bool), well_shaped p.stack = true →
      (last_content = false → ∀ xs f, p.stack = xs ++ [f] → f.had_content = false) →
      no_double_content calls = true →
      (last_content = true → ∀ c rest, calls = c :: rest → c.event.is_content = false) →
      ∀ msg, run_calls p calls ≠ Outcome.aborted msg := by
  induction calls with
  | nil =>
    intro p _ _ _ _ _ msg h
    simp [run_calls] at h
  | cons c rest ih =>
    intro p last_content hw htop hnd hfirst msg
    have hnd2 : no_double_content rest = true := by
      cases rest with
      | nil => rfl
      | cons c2 rest2 =>
        simp only [no_double_content, Bool.and_eq_true] at hnd
        exact hnd.2
    have hnext : c.event.is_content = true →
        ∀ c2 rest2, rest = c2 :: rest2 → c2.event.is_content = false := by
      intro hc c2 rest2 hr
      subst hr
      simp only [no_double_content, Bool.and_eq_true, Bool.not_eq_true', Bool.and_eq_false_iff,
        hc] at hnd
      rcases hnd.1 with h1 | h1
      · cases h1
      · exact h1
    unfold run_calls
    cases hstep : apply_call p c with
    | failure err q => simp
    | aborted msg2 =>
      exfalso
      unfold apply_call at hstep
      cases hev : c.event with
      | start_element n attrs =>
        simp only [hev, apply_event] at hstep
        have hr := start_element_returns c.alloc p n attrs
        rw [hstep] at hr
        exact hr
      | end_element n =>
        simp only [hev, apply_event] at hstep
        rcases end_element_outcome p n with ⟨err, he⟩ | ⟨he, _⟩ <;> rw [he] at hstep <;>
          cases hstep
      | content text =>
        simp only [hev, apply_event] at hstep
        have hr := content_outcome c.bus_config_load c.alloc p text
        rw [hstep] at hr
        obtain ⟨xs, f, hs, hbad⟩ := hr
        have hlc : last_content = false := by
          cases hl : last_content with
          | false => rfl
          | true =>
            have := hfirst hl c rest rfl
            simp [hev, Event.is_content] at this
        rcases hbad with hbad | hbad
        · rw [htop hlc xs f hs] at hbad
          cases hbad
        · exact well_shaped_top_typed p.stack xs f hw hs hbad
    | success q =>
      simp only []
      have hwq : well_shaped q.stack = true := step_shape p q c hw (Or.inl hstep)
      refine ih q c.event.is_content hwq ?_ hnd2 hnext msg
      intro hnc xs f hqs
      unfold apply_call at hstep
      cases hev : c.event with
      | content text => simp [hev, Event.is_content] at hnc
      | start_element n attrs =>
        simp only [hev, apply_event] at hstep
        have hr := start_element_returns c.alloc p n attrs
        rw [hstep] at hr
        obtain ⟨t, im, hq, _⟩ := hr
        rw [hq] at hqs
        have := List.append_inj' hqs rfl
        have hf : f = { type := t, had_content := false, ignore_missing := im } := by
          simpa using this.2.symm
        rw [hf]
      | end_element n =>
        simp only [hev, apply_event] at hstep
        rcases end_element_outcome p n with ⟨err, he⟩ | ⟨he, _⟩
        · rw [he] at hstep
          cases hstep
        · rw [he] at hstep
          injection hstep with hq
          rw [← hq] at hqs
          exact well_shaped_below_top p.stack xs f hw hqs

/-- C24: when the calls applied to a fresh parser, processing stopped at the
first call that fails, never have a content event directly after another
content event, no call stops at an assertion: neither at "Element had
multiple content blocks" nor at the assertions about a frame without type.
Conversely a content call on a parser whose top frame has `had_content` true
stops at the assertion "Element had multiple content blocks" and returns no
error; so does the second of two content events for one `<user>`. -/
theorem double_content_assertion (calls : List Call)
    (hnd : no_double_content calls = true) :
    (∀ (a : Alloc) (p : BusConfigParser), bus_config_parser_new a = some p →
      ∀ msg, run_calls p calls ≠ Outcome.aborted msg) ∧
    (∀ (load : String → Except DBusError BusConfigParser) (a : Alloc) (p : BusConfigParser)
        (xs : List Element) (f : Element) (text : String),
      p.stack = xs ++ [f] → f.had_content = true →
      bus_config_parser_content load a p text =
        Outcome.aborted "Element had multiple content blocks") ∧
    (∀ load : String → Except DBusError BusConfigParser,
      run_calls { refcount := 1, stack := [], user := none, listen_on := [] }
        [{ bus_config_load := load, alloc := alloc_ok,
           event := Event.start_element "busconfig" [] },
         { bus_config_load := load, alloc := alloc_ok,
           event := Event.start_element "user" [] },
         { bus_config_load := load, alloc := alloc_ok, event := Event.content "message" },
         { bus_config_load := load, alloc := alloc_ok, event := Event.content "bus" }] =
        Outcome.aborted "Element had multiple content blocks") := by
  refine ⟨?_, ?_, ?_⟩
  · intro a p hnew msg
    have hp : p = { refcount := 1, stack := [], user := none, listen_on := [] } := by
      unfold bus_config_parser_new at hnew
      by_cases h0 : a 0 = false
      · simp [h0] at hnew
      · have h1 : a 0 = true := by
          cases h : a 0
          · exact absurd h h0
          · rfl
        simp only [h1, Bool.true_eq_false, if_false, Option.some.injEq] at hnew
        exact hnew.symm
    subst hp
    exact run_calls_never_aborts calls
      { refcount := 1, stack := [], user := none, listen_on := [] } false rfl
      (fun _ xs f hs => by simp at hs) hnd (fun h => by cases h) msg
  · intro load a p xs f text hs hc
    unfold bus_config_parser_content
    rw [peek_concat p xs f hs]
    simp [hc]
  · intro load
    rfl

/-- Witness of C24: the calls of `<busconfig><user>messagebus</user></busconfig>`
have no two content events in a row and run to the end without stopping at an
assertion. -/
theorem double_content_assertion_witness :
    no_double_content
      [{ bus_config_load := fun _ => Except.error no_memory, alloc := alloc_ok,
         event := Event.start_element "busconfig" [] },
       { bus_config_load := fun _ => Except.error no_memory, alloc := alloc_ok,
         event := Event.start_element "user" [] },
       { bus_config_load := fun _ => Except.error no_memory, alloc := alloc_ok,
         event := Event.content "messagebus" },
       { bus_config_load := fun _ => Except.error no_memory, alloc := alloc_ok,
         event := Event.end_element "user" },
       { bus_config_load := fun _ => Except.error no_memory, alloc := alloc_ok,
         event := Event.end_element "busconfig" }] = true ∧
    run_calls { refcount := 1, stack := [], user := none, listen_on := [] }
      [{ bus_config_load := fun _ => Except.error no_memory, alloc := alloc_ok,
         event := Event.start_element "busconfig" [] },
       { bus_config_load := fun _ => Except.error no_memory, alloc := alloc_ok,
         event := Event.start_element "user" [] },
       { bus_config_load := fun _ => Except.error no_memory, alloc := alloc_ok,
         event := Event.content "messagebus" },
       { bus_config_load := fun _ => Except.error no_memory, alloc := alloc_ok,
         event := Event.end_element "user" },
       { bus_config_load := fun _ => Except.error no_memory, alloc := alloc_ok,
         event := Event.end_element "busconfig" }] ≠
      Outcome.aborted "Element had multiple content blocks" :=
  ⟨rfl, (double_content_assertion _ (by rfl)).1 alloc_ok _ (by rfl) _⟩


/-! ### The out-of-memory test driver -/

theorem follows_facts (sched : List (Int × Int)) :
    ∀ (new : List TestRun) (result : Bool), follows sched new result →
      (result = true ↔ ∀ x ∈ new, x.result = true) ∧
      (result = true → new.length = sched.length) ∧
      new.map (fun x => (x.n_failures, x.fail_alloc_counter)) = sched.take new.length ∧
      (result = false → ∃ init last, new = init ++ [last] ∧ last.result = false ∧
        ∀ x ∈ init, x.result = true) := by
  induction sched with
  | nil =>
    intro new result h
    cases new with
    | nil =>
      simp only [follows] at h
      simp [h]
    | cons x xs => simp [follows] at h
  | cons k ks ih =>
    intro new result h
    cases new with
    | nil => simp [follows] at h
    | cons x xs =>
      simp only [follows] at h
      obtain ⟨hk, hrest⟩ := h
      by_cases hx : x.result = true
      · simp only [hx, if_true] at hrest
        obtain ⟨h1, h2, h3, h4⟩ := ih xs result hrest
        refine ⟨?_, ?_, ?_, ?_⟩
        · simp [h1, hx]
        · intro hr
          simp [h2 hr]
        · simp [hk, h3]
        · intro hr
          obtain ⟨init, last, hnew, hlast, hinit⟩ := h4 hr
          refine ⟨x :: init, last, by simp [hnew], hlast, ?_⟩
          intro y hy
          rcases List.mem_cons.mp hy with hy | hy
          · rw [hy]
            exact hx
          · exact hinit y hy
      · simp only [hx, if_false] at hrest
        obtain ⟨hxs, hr⟩ := hrest
        have hxf : x.result = false := by
          cases h : x.result
          · rfl
          · exact absurd h hx
        subst hxs
        refine ⟨?_, ?_, ?_, ?_⟩
        · simp [hr, hxf]
        · intro h
          rw [hr] at h
          cases h
        · simp [hk]
        · intro _
          exact ⟨[], x, rfl, hxf, by simp⟩

theorem follows_append_true (s1 : List (Int × Int)) :
    ∀ (s2 : List (Int × Int)) (new1 new2 : List TestRun) (result : Bool),
      follows s1 new1 true → follows s2 new2 result →
      follows (s1 ++ s2) (new1 ++ new2) result := by
  induction s1 with
  | nil =>
    intro s2 new1 new2 result h1 h2
    cases new1 with
    | nil => simpa using h2
    | cons x xs => simp [follows] at h1
  | cons k ks ih =>
    intro s2 new1 new2 result h1 h2
    cases new1 with
    | nil => simp [follows] at h1
    | cons x xs =>
      simp only [follows] at h1
      obtain ⟨hk, hrest⟩ := h1
      by_cases hx : x.result = true
      · simp only [hx, if_true] at hrest
        simp only [List.cons_append, follows, hx, if_true]
        exact ⟨hk, ih s2 xs new2 result hrest h2⟩
      · simp only [hx, if_false] at hrest
        exact absurd hrest.2 (by decide)

theorem follows_append_false (s1 : List (Int × Int)) :
    ∀ (s2 : List (Int × Int)) (new1 : List TestRun),
      follows s1 new1 false → follows (s1 ++ s2) new1 false := by
  induction s1 with
  | nil =>
    intro s2 new1 h1
    cases new1 with
    | nil => simp [follows] at h1
    | cons x xs => simp [follows] at h1
  | cons k ks ih =>
    intro s2 new1 h1
    cases new1 with
    | nil => simp [follows] at h1
    | cons x xs =>
      simp only [follows] at h1
      obtain ⟨hk, hrest⟩ := h1
      by_cases hx : x.result = true
      · simp only [hx, if_true] at hrest
        simp only [List.cons_append, follows, hx, if_true]
        exact ⟨hk, ih s2 xs hrest⟩
      · simp only [hx, if_false] at hrest
        simp only [List.cons_append, follows, hx, if_false]
        exact ⟨hk, hrest⟩

theorem follows_append (s1 s2 : List (Int × Int)) (new1 new2 : List TestRun)
    (r1 result : Bool) (h1 : follows s1 new1 r1)
    (h2 : r1 = true → follows s2 new2 result)
    (h3 : r1 = false → new2 = [] ∧ result = false) :
    follows (s1 ++ s2) (new1 ++ new2) result := by
  cases r1 with
  | true => exact follows_append_true s1 s2 new1 new2 result h1 (h2 rfl)
  | false =>
    obtain ⟨hn, hr⟩ := h3 rfl
    subst hn hr
    simpa using follows_append_false s1 s2 new1 h1

theorem failing_loop_follows {W : Type} (func : DBusTestMemoryFunction W) (k : Nat) :
    ∀ s : TestState W, ∃ new,
      (failing_loop func k s).2.runs = s.runs ++ new ∧
      follows ((countdown k).map (fun c => (s.debug.n_failures_per_failure, c))) new
        (failing_loop func k s).1 ∧
      (failing_loop func k s).2.debug.n_failures_per_failure =
        s.debug.n_failures_per_failure := by
  induction k with
  | zero =>
    intro s
    refine ⟨[TestRun.mk s.debug.n_failures_per_failure 0
      (func s.world { s.debug with fail_alloc_counter := 0 }).1], rfl, ?_, rfl⟩
    simp only [countdown, List.map_cons, List.map_nil, follows, failing_loop, call_func,
      _dbus_set_fail_alloc_counter, true_and]
    cases (func s.world { s.debug with fail_alloc_counter := 0 }).1 <;> simp [follows]
  | succ k ih =>
    intro s
    cases hr : (func s.world { s.debug with fail_alloc_counter := (k : Int) + 1 }).1 with
    | false =>
      refine ⟨[TestRun.mk s.debug.n_failures_per_failure ((k : Int) + 1) false], ?_, ?_, ?_⟩
      · simp [failing_loop, call_func, _dbus_set_fail_alloc_counter, hr]
      · simp [failing_loop, call_func, _dbus_set_fail_alloc_counter, hr, countdown, follows]
      · simp [failing_loop, call_func, _dbus_set_fail_alloc_counter, hr]
    | true =>
      obtain ⟨new, h1, h2, h3⟩ :=
        ih (call_func func (_dbus_set_fail_alloc_counter ((k : Int) + 1) s)).2
      refine ⟨TestRun.mk s.debug.n_failures_per_failure ((k : Int) + 1) true :: new,
        ?_, ?_, ?_⟩
      · simp only [failing_loop, call_func, _dbus_set_fail_alloc_counter, hr] at h1 ⊢
        simpa using h1
      · simp only [failing_loop, call_func, _dbus_set_fail_alloc_counter, hr] at h2 ⊢
        simpa [countdown, follows] using h2
      · simp only [failing_loop, call_func, _dbus_set_fail_alloc_counter, hr] at h3 ⊢
        simpa using h3

theorem wrap_int_of_range (x : Int) (h0 : -2147483648 ≤ x) (h1 : x ≤ _DBUS_INT_MAX) :
    wrap_int x = x := by
  unfold wrap_int
  unfold _DBUS_INT_MAX at h1
  omega

theorem wrap_int_of_overflow (x : Int) (h0 : _DBUS_INT_MAX < x) (h1 : x ≤ _DBUS_INT_MAX + 10) :
    wrap_int x < 0 := by
  unfold wrap_int
  unfold _DBUS_INT_MAX at h0 h1
  omega

theorem run_failing_each_malloc_follows {W : Type} (func : DBusTestMemoryFunction W)
    (n : Nat) (s : TestState W) (hrange : (n : Int) + 10 ≤ _DBUS_INT_MAX) :
    ∃ new,
      (run_failing_each_malloc (n : Int) func s).2.runs = s.runs ++ new ∧
      follows (spec_batch s.debug.n_failures_per_failure n) new
        (run_failing_each_malloc (n : Int) func s).1 ∧
      (run_failing_each_malloc (n : Int) func s).2.world =
        (failing_loop func (n + 10) s).2.world := by
  obtain ⟨new, h1, h2, _⟩ := failing_loop_follows func (n + 10) s
  have hw : wrap_int ((n : Int) + 10) = (n : Int) + 10 :=
    wrap_int_of_range _ (by omega) hrange
  have hn : ¬ ((n : Int) + 10 < 0) := by omega
  have ht : ((n : Int) + 10).toNat = n + 10 := by omega
  refine ⟨new, ?_, ?_, ?_⟩
  · simp only [run_failing_each_malloc, hw, hn, if_false, ht]
    cases hr : (failing_loop func (n + 10) s).1 <;>
      simp [hr, _dbus_set_fail_alloc_counter, h1]
  · simp only [run_failing_each_malloc, hw, hn, if_false, ht, spec_batch]
    cases hr : (failing_loop func (n + 10) s).1
    · simpa [hr] using h2
    · simpa [hr] using h2
  · simp only [run_failing_each_malloc, hw, hn, if_false, ht]
    cases hr : (failing_loop func (n + 10) s).1 <;> simp [hr, _dbus_set_fail_alloc_counter]

theorem set_fail_alloc_failures_runs {W : Type} (k : Int) (t : TestState W) :
    (_dbus_set_fail_alloc_failures k t).runs = t.runs := rfl

theorem oom_batches_follow {W : Type} (n : Nat) (f0 : Int) (runs0 : List TestRun)
    (r1 r2 r3 r4 : Bool × TestState W) (new1 new2 new3 new4 : List TestRun)
    (hn1 : r1.2.runs = runs0 ++ [TestRun.mk f0 _DBUS_INT_MAX true] ++ new1)
    (hn2 : r2.2.runs = r1.2.runs ++ new2)
    (hn3 : r3.2.runs = r2.2.runs ++ new3)
    (hn4 : r4.2.runs = r3.2.runs ++ new4)
    (hf1 : follows (spec_batch 1 n) new1 r1.1)
    (hf2 : follows (spec_batch 2 n) new2 r2.1)
    (hf3 : follows (spec_batch 3 n) new3 r3.1)
    (hf4 : follows (spec_batch 4 n) new4 r4.1) :
    ∃ new,
      (if r1.1 = false then (false, r1.2)
        else if r2.1 = false then (false, r2.2)
        else if r3.1 = false then (false, r3.2)
        else if r4.1 = false then (false, r4.2)
        else (true, r4.2)).2.runs = runs0 ++ new ∧
      follows (spec_schedule f0 n) new
        (if r1.1 = false then (false, r1.2)
          else if r2.1 = false then (false, r2.2)
          else if r3.1 = false then (false, r3.2)
          else if r4.1 = false then (false, r4.2)
          else (true, r4.2)).1 := by
  rw [hn1] at hn2
  rw [hn2] at hn3
  rw [hn3] at hn4
  have hhead : ∀ (news : List TestRun) (result : Bool),
      follows (spec_batch 1 n ++ (spec_batch 2 n ++ (spec_batch 3 n ++ spec_batch 4 n)))
        news result →
      follows (spec_schedule f0 n) (TestRun.mk f0 _DBUS_INT_MAX true :: news) result := by
    intro news result h
    simp only [spec_schedule, follows, if_true, true_and]
    exact h
  cases h1 : r1.1 with
  | false =>
    rw [h1] at hf1
    refine ⟨TestRun.mk f0 _DBUS_INT_MAX true :: new1, ?_, ?_⟩
    · simpa using hn1
    · simpa using hhead new1 false (follows_append_false _ _ _ hf1)
  | true =>
    rw [h1] at hf1
    cases h2 : r2.1 with
    | false =>
      rw [h2] at hf2
      refine ⟨TestRun.mk f0 _DBUS_INT_MAX true :: (new1 ++ new2), ?_, ?_⟩
      · simpa using hn2
      · simpa using hhead (new1 ++ new2) false
          (follows_append_true _ _ _ _ _ hf1 (follows_append_false _ _ _ hf2))
    | true =>
      rw [h2] at hf2
      cases h3 : r3.1 with
      | false =>
        rw [h3] at hf3
        refine ⟨TestRun.mk f0 _DBUS_INT_MAX true :: (new1 ++ (new2 ++ new3)), ?_, ?_⟩
        · simpa using hn3
        · simpa using hhead (new1 ++ (new2 ++ new3)) false
            (follows_append_true _ _ _ _ _ hf1
              (follows_append_true _ _ _ _ _ hf2 (follows_append_false _ _ _ hf3)))
      | true =>
        rw [h3] at hf3
        refine ⟨TestRun.mk f0 _DBUS_INT_MAX true :: (new1 ++ (new2 ++ (new3 ++ new4))), ?_, ?_⟩
        · cases h4 : r4.1 <;> simpa using hn4
        · have hall := follows_append_true _ _ _ _ _ hf1
            (follows_append_true _ _ _ _ _ hf2
              (follows_append_true _ _ _ _ _ hf3 hf4))
          have hres : (if r4.1 = false then (false, r4.2) else (true, r4.2)).1 = r4.1 := by
            cases h4 : r4.1 <;> simp
          simp only [Bool.true_eq_false, if_false]
          rw [hres]
          exact hhead _ _ hall

theorem spec_batch_failures {W : Type} (k : Int) (t : TestState W) (n : Nat) :
    spec_batch (_dbus_set_fail_alloc_failures k t).debug.n_failures_per_failure n =
      spec_batch k n := rfl

theorem test_oom_handling_follows {W : Type} (func : DBusTestMemoryFunction W)
    (s : TestState W) (n : Nat)
    (hclean : (func s.world { s.debug with fail_alloc_counter := _DBUS_INT_MAX }).2.2 =
      _DBUS_INT_MAX - (n : Int))
    (hrange : (n : Int) + 10 ≤ _DBUS_INT_MAX) :
    ∃ new, (_dbus_test_oom_handling func s).2.runs = s.runs ++ new ∧
      follows (spec_schedule s.debug.n_failures_per_failure n) new
        (_dbus_test_oom_handling func s).1 := by
  cases hr0 : (func s.world { s.debug with fail_alloc_counter := _DBUS_INT_MAX }).1 with
  | false =>
    refine ⟨[TestRun.mk s.debug.n_failures_per_failure _DBUS_INT_MAX false], ?_, ?_⟩
    · simp [_dbus_test_oom_handling, call_func, _dbus_set_fail_alloc_counter, hr0]
    · simp [_dbus_test_oom_handling, call_func, _dbus_set_fail_alloc_counter, hr0,
        spec_schedule, follows]
  | true =>
    have happrox : wrap_int (_DBUS_INT_MAX - _dbus_get_fail_alloc_counter
        (call_func func (_dbus_set_fail_alloc_counter _DBUS_INT_MAX s)).2) = (n : Int) := by
      simp only [call_func, _dbus_set_fail_alloc_counter, _dbus_get_fail_alloc_counter, hclean]
      have hsub : _DBUS_INT_MAX - (_DBUS_INT_MAX - (n : Int)) = (n : Int) := by omega
      rw [hsub]
      exact wrap_int_of_range _ (by omega) (by omega)
    have hruns0 : (call_func func (_dbus_set_fail_alloc_counter _DBUS_INT_MAX s)).2.runs =
        s.runs ++ [TestRun.mk s.debug.n_failures_per_failure _DBUS_INT_MAX true] := by
      simp [call_func, _dbus_set_fail_alloc_counter, hr0]
    have hcall0 : (call_func func (_dbus_set_fail_alloc_counter _DBUS_INT_MAX s)).1 = true := by
      simp [call_func, _dbus_set_fail_alloc_counter, hr0]
    generalize hs0 : (call_func func (_dbus_set_fail_alloc_counter _DBUS_INT_MAX s)).2 = s0
      at happrox hruns0
    obtain ⟨new1, hn1, hf1, _⟩ :=
      run_failing_each_malloc_follows func n (_dbus_set_fail_alloc_failures 1 s0) hrange
    generalize hs1 : run_failing_each_malloc (n : Int) func
      (_dbus_set_fail_alloc_failures 1 s0) = r1 at hn1 hf1
    obtain ⟨new2, hn2, hf2, _⟩ :=
      run_failing_each_malloc_follows func n (_dbus_set_fail_alloc_failures 2 r1.2) hrange
    generalize hs2 : run_failing_each_malloc (n : Int) func
      (_dbus_set_fail_alloc_failures 2 r1.2) = r2 at hn2 hf2
    obtain ⟨new3, hn3, hf3, _⟩ :=
      run_failing_each_malloc_follows func n (_dbus_set_fail_alloc_failures 3 r2.2) hrange
    generalize hs3 : run_failing_each_malloc (n : Int) func
      (_dbus_set_fail_alloc_failures 3 r2.2) = r3 at hn3 hf3
    obtain ⟨new4, hn4, hf4, _⟩ :=
      run_failing_each_malloc_follows func n (_dbus_set_fail_alloc_failures 4 r3.2) hrange
    generalize hs4 : run_failing_each_malloc (n : Int) func
      (_dbus_set_fail_alloc_failures 4 r3.2) = r4 at hn4 hf4
    rw [spec_batch_failures] at hf1 hf2 hf3 hf4
    rw [set_fail_alloc_failures_runs, hruns0] at hn1
    rw [set_fail_alloc_failures_runs] at hn2 hn3 hn4
    have hunfold : _dbus_test_oom_handling func s =
        if r1.1 = false then (false, r1.2)
        else if r2.1 = false then (false, r2.2)
        else if r3.1 = false then (false, r3.2)
        else if r4.1 = false then (false, r4.2)
        else (true, r4.2) := by
      simp only [_dbus_test_oom_handling, hcall0, Bool.true_eq_false, if_false, hs0, happrox,
        hs1, hs2, hs3, hs4]
    rw [hunfold]
    exact oom_batches_follow n s.debug.n_failures_per_failure s.runs r1 r2 r3 r4
      new1 new2 new3 new4 hn1 hn2 hn3 hn4 hf1 hf2 hf3 hf4

theorem countdown_length (k : Nat) : (countdown k).length = k + 1 := by
  induction k with
  | zero => rfl
  | succ k ih => simp [countdown, ih]

theorem countdown_range (k : Nat) : ∀ c ∈ countdown k, 0 ≤ c ∧ c ≤ (k : Int) := by
  induction k with
  | zero =>
    intro c hc
    simp only [countdown, List.mem_singleton] at hc
    subst hc
    simp
  | succ k ih =>
    intro c hc
    simp only [countdown, List.mem_cons] at hc
    rcases hc with hc | hc
    · subst hc
      constructor
      · omega
      · push_cast
        omega
    · have := ih c hc
      constructor
      · exact this.1
      · push_cast
        omega

theorem spec_schedule_length (f0 : Int) (n : Nat) :
    (spec_schedule f0 n).length = 1 + 4 * (n + 11) := by
  simp only [spec_schedule, spec_batch, List.length_cons, List.length_append, List.length_map,
    countdown_length]
  omega

theorem spec_schedule_range (f0 : Int) (n : Nat) (hrange : (n : Int) + 10 ≤ _DBUS_INT_MAX) :
    ∀ k ∈ spec_schedule f0 n, 0 ≤ k.2 ∧ k.2 ≤ _DBUS_INT_MAX := by
  intro k hk
  simp only [spec_schedule, spec_batch, List.mem_cons, List.mem_append, List.mem_map] at hk
  have hb : ∀ (f : Int), (∃ c ∈ countdown (n + 10), (f, c) = k) →
      0 ≤ k.2 ∧ k.2 ≤ _DBUS_INT_MAX := by
    rintro f ⟨c, hc, hck⟩
    have := countdown_range (n + 10) c hc
    rw [← hck]
    constructor
    · exact this.1
    · have h2 := this.2
      push_cast at h2
      simp only
      omega
  rcases hk with hk | hk | hk | hk | hk
  · rw [hk]
    simp [_DBUS_INT_MAX]
  · exact hb 1 hk
  · exact hb 2 hk
  · exact hb 3 hk
  · exact hb 4 hk

/-- C23 (amended): for every test function and every state, `n` being the
number of allocations of the clean run (the run leaves the fail counter at
`_DBUS_INT_MAX - n`) and `n + 10` not exceeding `_DBUS_INT_MAX`,
`_dbus_test_oom_handling` returns, and the calls of the test function it has
made are: one with the fail counter at `_DBUS_INT_MAX`, so without forced
failures, then for the failure counts 1, 2, 3, 4 in that order one for every
fail-counter value from `n + 10` down to 0, cut off after the first call that
returned FALSE.  It returns TRUE exactly when every call returned TRUE, in
which case all `1 + 4 * (n + 11)` calls were made; when it returns FALSE the
last call made returned FALSE and all calls before it TRUE.  Every fail
counter it sets lies between 0 and `_DBUS_INT_MAX`. -/
theorem test_oom_handling_schedule {W : Type} (func : DBusTestMemoryFunction W)
    (s : TestState W) (n : Nat)
    (hclean : (func s.world { s.debug with fail_alloc_counter := _DBUS_INT_MAX }).2.2 =
      _DBUS_INT_MAX - (n : Int))
    (hrange : (n : Int) + 10 ≤ _DBUS_INT_MAX) :
    ∃ new, (_dbus_test_oom_handling func s).2.runs = s.runs ++ new ∧
      follows (spec_schedule s.debug.n_failures_per_failure n) new
        (_dbus_test_oom_handling func s).1 ∧
      new.map (fun x => (x.n_failures, x.fail_alloc_counter)) =
        (spec_schedule s.debug.n_failures_per_failure n).take new.length ∧
      ((_dbus_test_oom_handling func s).1 = true ↔ ∀ x ∈ new, x.result = true) ∧
      ((_dbus_test_oom_handling func s).1 = true → new.length = 1 + 4 * (n + 11)) ∧
      ((_dbus_test_oom_handling func s).1 = false →
        ∃ init last, new = init ++ [last] ∧ last.result = false ∧
          ∀ x ∈ init, x.result = true) ∧
      (∀ x ∈ new, 0 ≤ x.fail_alloc_counter ∧ x.fail_alloc_counter ≤ _DBUS_INT_MAX) := by
  obtain ⟨new, hruns, hf⟩ := test_oom_handling_follows func s n hclean hrange
  obtain ⟨h1, h2, h3, h4⟩ := follows_facts _ new _ hf
  refine ⟨new, hruns, hf, h3, h1, ?_, h4, ?_⟩
  · intro hr
    rw [h2 hr, spec_schedule_length]
  · intro x hx
    have hmem : (x.n_failures, x.fail_alloc_counter) ∈
        new.map (fun x => (x.n_failures, x.fail_alloc_counter)) :=
      List.mem_map.mpr ⟨x, hx, rfl⟩
    rw [h3] at hmem
    exact spec_schedule_range _ n hrange _ (List.mem_of_mem_take hmem)

/-- Witness of C23: a test function that makes one allocation and always returns
TRUE is run 49 times: the clean run and 12 runs for each of the four failure counts. -/
theorem test_oom_handling_schedule_witness :
    ((1 : Nat) : Int) + 10 ≤ _DBUS_INT_MAX ∧
    ∃ new : List TestRun,
      (_dbus_test_oom_handling
        (fun (w : Unit) (d : MallocDebug) => (true, w, d.fail_alloc_counter - 1))
        { world := (), debug := { fail_alloc_counter := 0, n_failures_per_failure := 0 },
          runs := [] }).2.runs = [] ++ new ∧
      ((_dbus_test_oom_handling
        (fun (w : Unit) (d : MallocDebug) => (true, w, d.fail_alloc_counter - 1))
        { world := (), debug := { fail_alloc_counter := 0, n_failures_per_failure := 0 },
          runs := [] }).1 = true → new.length = 1 + 4 * (1 + 11)) := by
  refine ⟨by decide, ?_⟩
  obtain ⟨new, h1, _, _, _, h5, _, _⟩ :=
    test_oom_handling_schedule
      (fun (w : Unit) (d : MallocDebug) => (true, w, d.fail_alloc_counter - 1))
      { world := (), debug := { fail_alloc_counter := 0, n_failures_per_failure := 0 },
        runs := [] } 1 (by decide) (by decide)
  exact ⟨new, h1, h5⟩

theorem run_failing_each_malloc_overflow {W : Type} (func : DBusTestMemoryFunction W)
    (n : Int) (s : TestState W) (h0 : _DBUS_INT_MAX < n + 10) (h1 : n ≤ _DBUS_INT_MAX) :
    run_failing_each_malloc n func s = (true, _dbus_set_fail_alloc_counter _DBUS_INT_MAX s) := by
  have hw : wrap_int (n + 10) < 0 := wrap_int_of_overflow _ h0 (by omega)
  simp only [run_failing_each_malloc, hw, if_true]

theorem test_oom_handling_overflow {W : Type} (func : DBusTestMemoryFunction W)
    (s : TestState W) (n : Nat)
    (hclean : (func s.world { s.debug with fail_alloc_counter := _DBUS_INT_MAX }).2.2 =
      _DBUS_INT_MAX - (n : Int))
    (hr0 : (func s.world { s.debug with fail_alloc_counter := _DBUS_INT_MAX }).1 = true)
    (h0 : _DBUS_INT_MAX < (n : Int) + 10) (h1 : (n : Int) ≤ _DBUS_INT_MAX) :
    (_dbus_test_oom_handling func s).1 = true ∧
    (_dbus_test_oom_handling func s).2.runs =
      s.runs ++ [TestRun.mk s.debug.n_failures_per_failure _DBUS_INT_MAX true] := by
  have happrox : wrap_int (_DBUS_INT_MAX - _dbus_get_fail_alloc_counter
      (call_func func (_dbus_set_fail_alloc_counter _DBUS_INT_MAX s)).2) = (n : Int) := by
    simp only [call_func, _dbus_set_fail_alloc_counter, _dbus_get_fail_alloc_counter, hclean]
    have hsub : _DBUS_INT_MAX - (_DBUS_INT_MAX - (n : Int)) = (n : Int) := by omega
    rw [hsub]
    exact wrap_int_of_range _ (by omega) h1
  have hcall0 : (call_func func (_dbus_set_fail_alloc_counter _DBUS_INT_MAX s)).1 = true := by
    simp [call_func, _dbus_set_fail_alloc_counter, hr0]
  have hover : ∀ t : TestState W, run_failing_each_malloc (n : Int) func t =
      (true, _dbus_set_fail_alloc_counter _DBUS_INT_MAX t) :=
    fun t => run_failing_each_malloc_overflow func n t h0 h1
  simp only [_dbus_test_oom_handling, hcall0, Bool.true_eq_false, if_false, happrox, hover]
  simp [call_func, _dbus_set_fail_alloc_counter, _dbus_set_fail_alloc_failures, hr0]

theorem spec_schedule_not_single (f0 : Int) (n : Nat) (x : TestRun) :
    ¬ follows (spec_schedule f0 n) [x] true := by
  intro h
  have h2 := (follows_facts _ _ _ h).2.1 rfl
  rw [spec_schedule_length] at h2
  simp at h2

/-- Counterexample to C23 as stated: a test function that makes 2147483642
allocations and returns TRUE has the clean-run allocation count
`n = 2147483642`, for which `n + 10` exceeds `_DBUS_INT_MAX`.  The addition
`n_mallocs += 10` of `run_failing_each_malloc` wraps to a negative value, the
loop is not entered, and `_dbus_test_oom_handling` returns TRUE after the
clean run alone: no run with a forced failure is made, so the runs do not
follow the schedule of the claim. -/
theorem test_oom_handling_overflow_counterexample :
    ((fun (w : Unit) (d : MallocDebug) => (true, w, d.fail_alloc_counter - 2147483642))
        () { fail_alloc_counter := _DBUS_INT_MAX, n_failures_per_failure := 0 }).2.2 =
      _DBUS_INT_MAX - ((2147483642 : Nat) : Int) ∧
    wrap_int (((2147483642 : Nat) : Int) + 10) = -2147483644 ∧
    (_dbus_test_oom_handling
        (fun (w : Unit) (d : MallocDebug) => (true, w, d.fail_alloc_counter - 2147483642))
        { world := (), debug := { fail_alloc_counter := 0, n_failures_per_failure := 0 },
          runs := [] }).1 = true ∧
    (_dbus_test_oom_handling
        (fun (w : Unit) (d : MallocDebug) => (true, w, d.fail_alloc_counter - 2147483642))
        { world := (), debug := { fail_alloc_counter := 0, n_failures_per_failure := 0 },
          runs := [] }).2.runs = [TestRun.mk 0 _DBUS_INT_MAX true] ∧
    ¬ follows (spec_schedule 0 2147483642)
        (_dbus_test_oom_handling
          (fun (w : Unit) (d : MallocDebug) => (true, w, d.fail_alloc_counter - 2147483642))
          { world := (), debug := { fail_alloc_counter := 0, n_failures_per_failure := 0 },
            runs := [] }).2.runs
        (_dbus_test_oom_handling
          (fun (w : Unit) (d : MallocDebug) => (true, w, d.fail_alloc_counter - 2147483642))
          { world := (), debug := { fail_alloc_counter := 0, n_failures_per_failure := 0 },
            runs := [] }).1 := by
  have h1 : (_dbus_test_oom_handling
        (fun (w : Unit) (d : MallocDebug) => (true, w, d.fail_alloc_counter - 2147483642))
        { world := (), debug := { fail_alloc_counter := 0, n_failures_per_failure := 0 },
          runs := [] }).1 = true := by decide
  have h2 : (_dbus_test_oom_handling
        (fun (w : Unit) (d : MallocDebug) => (true, w, d.fail_alloc_counter - 2147483642))
        { world := (), debug := { fail_alloc_counter := 0, n_failures_per_failure := 0 },
          runs := [] }).2.runs = [TestRun.mk 0 _DBUS_INT_MAX true] := by decide
  refine ⟨by decide, by decide, h1, h2, ?_⟩
  rw [h1, h2]
  exact spec_schedule_not_single 0 2147483642 _

/-! ### Whitespace-only text where no text is used -/

theorem well_shaped_inert_top (s xs : List Element) (e : Element)
    (hw : well_shaped s = true) (hs : s = xs ++ [e])
    (ht : e.type = ELEMENT_BUSCONFIG ∨ e.type = ELEMENT_POLICY ∨ e.type = ELEMENT_LIMIT ∨
      e.type = ELEMENT_ALLOW ∨ e.type = ELEMENT_DENY) :
    e.had_content = false := by
  rcases well_shaped_cases s hw with
    h0 | ⟨bc, h1, _, hbcc⟩ | ⟨bc, x, h2, _, _, hx⟩ | ⟨bc, pol, y, h3, _, _, _, _, _, hyc⟩
  · rw [h0] at hs
    simp at hs
  · rw [h1] at hs
    have h4 : ([] : List Element) ++ [bc] = xs ++ [e] := by simpa using hs
    have h5 := (List.append_inj' h4 rfl).2
    have h6 : bc = e := by simpa using h5
    rw [← h6]
    exact hbcc
  · rw [h2] at hs
    have h4 : [bc] ++ [x] = xs ++ [e] := by simpa using hs
    have h5 := (List.append_inj' h4 rfl).2
    have h6 : x = e := by simpa using h5
    rw [← h6]
    rw [← h6] at ht
    rcases hx with (hx | hx | hx) | hx
    · rw [hx] at ht
      simp at ht
    · rw [hx] at ht
      simp at ht
    · rw [hx] at ht
      simp at ht
    · exact hx.2
  · rw [h3] at hs
    have h4 : [bc, pol] ++ [y] = xs ++ [e] := by simpa using hs
    have h5 := (List.append_inj' h4 rfl).2
    have h6 : y = e := by simpa using h5
    rw [← h6]
    exact hyc

/-- C16 (amended): whitespace-only text is accepted by
`bus_config_parser_content`, the parser staying as it was, whenever the top
frame has type BusConfig, Policy, Limit, Allow or Deny: for every parser whose
top frame has had no content yet, and so for every parser state reachable
from `bus_config_parser_new`, where such a top frame never has had content.
When no element is open the call fails with the error "Text content outside
of any XML element in configuration file" whatever the text is,
whitespace-only text included. -/
theorem content_whitespace_accepted (load : String → Except DBusError BusConfigParser)
    (a : Alloc) (p : BusConfigParser) :
    (∀ text, all_whitespace text = true →
      ∀ xs e, p.stack = xs ++ [e] → e.had_content = false →
        (e.type = ELEMENT_BUSCONFIG ∨ e.type = ELEMENT_POLICY ∨ e.type = ELEMENT_LIMIT ∨
          e.type = ELEMENT_ALLOW ∨ e.type = ELEMENT_DENY) →
        bus_config_parser_content load a p text = Outcome.success p) ∧
    (Reachable p → ∀ text, all_whitespace text = true →
      ∀ xs e, p.stack = xs ++ [e] →
        (e.type = ELEMENT_BUSCONFIG ∨ e.type = ELEMENT_POLICY ∨ e.type = ELEMENT_LIMIT ∨
          e.type = ELEMENT_ALLOW ∨ e.type = ELEMENT_DENY) →
        bus_config_parser_content load a p text = Outcome.success p) ∧
    (p.stack = [] → ∀ text,
      bus_config_parser_content load a p text =
        Outcome.failure
          (failed "Text content outside of any XML element in configuration file") p) := by
  refine ⟨?_, ?_, ?_⟩
  · intro text hw xs e hs hc ht
    rw [content_inert load a p xs e text hs hc ht]
    simp [hw]
  · intro hr text hw xs e hs ht
    have hc := well_shaped_inert_top p.stack xs e (reachable_well_shaped p hr) hs ht
    rw [content_inert load a p xs e text hs hc ht]
    simp [hw]
  · intro hs text
    simp [bus_config_parser_content, peek_element, hs]

/-- Witness of C16 (amended): a blank is accepted directly inside `<policy>`,
and with no element open the text x is refused. -/
theorem content_whitespace_accepted_witness :
    all_whitespace " " = true ∧
    bus_config_parser_content (fun _ => Except.error no_memory) alloc_ok
        { refcount := 1,
          stack := [{ type := ELEMENT_BUSCONFIG, had_content := false, ignore_missing := false },
                    { type := ELEMENT_POLICY, had_content := false, ignore_missing := false }],
          user := none, listen_on := [] } " " =
      Outcome.success
        { refcount := 1,
          stack := [{ type := ELEMENT_BUSCONFIG, had_content := false, ignore_missing := false },
                    { type := ELEMENT_POLICY, had_content := false, ignore_missing := false }],
          user := none, listen_on := [] } ∧
    bus_config_parser_content (fun _ => Except.error no_memory) alloc_ok
        { refcount := 1, stack := [], user := none, listen_on := [] } "x" =
      Outcome.failure
        (failed "Text content outside of any XML element in configuration file")
        { refcount := 1, stack := [], user := none, listen_on := [] } :=
  ⟨by decide,
   (content_whitespace_accepted (fun _ => Except.error no_memory) alloc_ok
      { refcount := 1,
        stack := [{ type := ELEMENT_BUSCONFIG, had_content := false, ignore_missing := false },
                  { type := ELEMENT_POLICY, had_content := false, ignore_missing := false }],
        user := none, listen_on := [] }).1 " " (by decide)
      [{ type := ELEMENT_BUSCONFIG, had_content := false, ignore_missing := false }]
      { type := ELEMENT_POLICY, had_content := false, ignore_missing := false }
      rfl rfl (Or.inr (Or.inl rfl)),
   (content_whitespace_accepted (fun _ => Except.error no_memory) alloc_ok
      { refcount := 1, stack := [], user := none, listen_on := [] }).2.2 rfl "x"⟩

/-- Counterexample to C16 as stated: on the parser as `bus_config_parser_new`
returns it no element is open, so the top of the stack is not an Include,
User, Listen or Auth frame, yet the whitespace-only text of one blank is not
accepted: the call fails. -/
theorem content_whitespace_outside_root_counterexample :
    all_whitespace " " = true ∧
    bus_config_parser_new alloc_ok =
      some { refcount := 1, stack := [], user := none, listen_on := [] } ∧
    peek_element { refcount := 1, stack := [], user := none, listen_on := [] } = none ∧
    bus_config_parser_content (fun _ => Except.error no_memory) alloc_ok
        { refcount := 1, stack := [], user := none, listen_on := [] } " " =
      Outcome.failure
        (failed "Text content outside of any XML element in configuration file")
        { refcount := 1, stack := [], user := none, listen_on := [] } := by
  refine ⟨by decide, by decide, by decide, by decide⟩

end BusConfig
